import Mathlib

/-!
# Smart Task Manager: the task store of `src/hooks/useTasks.js`

A shallow embedding of the `useTasks` hook: the startup merge (`loadTasks`), the
optimistic mutations (`addTask`, `updateTask`, `deleteTask`) and the explicit
overwrite (`syncWithServer`), together with the four pieces of hook state they
write (`tasks`, `localTasks`, `loading`, `error`); of the part of
`src/services/api.js` the hook awaits; and of what `src/App.js` builds on the
hook: the handlers `handleAddTask` and `handleUpdateTask`, the list
`filteredTasks` and the element `App` returns.  Around the store: the form
`AddTaskForm`, the `login` of `AuthContext`, the reminders of
`notificationService`, the numbers of `ProgressTracker` and the heuristics of
`aiService` (`categorizeTask`, `calculatePriority`, `generateTaskSuggestions`,
`predictTaskCompletion`, `generateInsights`).

Modelling conventions.

* A JavaScript object is an association list of own properties; reading a property
  that is absent gives `undefined`.  Field values are primitives, numbers are
  integers (ids are `Date.now()` stamps or small integers), so `===` is equality.
* An `async` function is a `Run`: the state-setter calls it makes before its
  `await`, and the calls it makes once the awaited promise has settled.  The
  outcome of the promise is an argument.
* A handler reads `tasks` from the closure of the render that created it; that
  snapshot is an explicit argument of `addTask`, `updateTask` and `deleteTask`.
* An expression that can throw evaluates to an `Option`, `none` being the
  exception; the clock (`Date.now()`, `new Date().toISOString()`), the date
  constructor, `String.prototype.toLowerCase` and `trim` are arguments.
* A number that need not be an integer is a rational; an operation on such
  numbers returns the exact result rounded by an argument `fl`, of which
  `Rounding fl` records what is used; NaN is `none`.
-/

namespace SmartTaskManager

/-! ## Values and objects -/

/-- A primitive JavaScript value. -/
inductive Value where
  | undefined
  | null
  | bool (b : Bool)
  | num (n : Int)
  | str (s : String)
  deriving DecidableEq, Repr

/-- A JavaScript object: its own properties, the first entry of a key being the
one that counts. -/
abbrev Obj := List (String × Value)

/-- Property read `o.k` (or `o[k]`): `undefined` when `o` has no own property `k`. -/
def Obj.get (o : Obj) (k : String) : Value :=
  match List.lookup k o with
  | some v => v
  | none => Value.undefined

/-- Own-property test, `k in o` for a plain object. -/
def Obj.has (o : Obj) (k : String) : Bool :=
  (List.lookup k o).isSome

/-- The own keys of an object, `Object.keys(o)`: each key once. -/
def Obj.keys : Obj → List String
  | [] => []
  | (k, _) :: rest => k :: (Obj.keys rest).filter (fun k2 => k2 != k)

/-- Object spread `{ ...t, ...u }`: the keys of `t` keep their place and take the
value `u` gives them when `u` has the key; the keys only `u` has follow. -/
def Obj.spread (t u : Obj) : Obj :=
  t.map (fun p => (p.1, match List.lookup p.1 u with
                        | some v => v
                        | none => p.2))
    ++ u.filter (fun p => !(Obj.has t p.1))

/-- A task is a plain object with the fields `id`, `title`, `description`, ... -/
abbrev Task := Obj

/-- The field read `task.id`. -/
def Task.id (task : Task) : Value := Obj.get task "id"

/-! ## Hook state -/

/-- The state held by `useTasks` (lines 6-9): `tasks`, `loading` and `error` are
`useState` cells, `localTasks` is the value of `useLocalStorage('tasks', [])`,
the list persisted under the key `tasks`. -/
structure State where
  tasks : List Task
  localTasks : List Task
  loading : Bool
  error : Option String
  deriving DecidableEq, Repr

/-- A call of one of the four state setters. -/
inductive Setter where
  | setTasks (l : List Task)
  | setLocalTasks (l : List Task)
  | setLoading (b : Bool)
  | setError (e : Option String)
  deriving DecidableEq, Repr

/-- Modelled from the spec: `useLocalStorage` (`src/hooks/useLocalStorage.js`, not
among the sources) is the Durable Local Store, whose `write(key, value)` replaces
the stored list, synchronously from the caller's point of view; the hook's value
`localTasks` is that stored list. -/
def writeLocalStore (s : State) (l : List Task) : State :=
  { s with localTasks := l }

/-- The effect of lines 12-14, `useEffect(() => setTasks(localTasks), [localTasks])`:
it runs on the render that follows a change of `localTasks`. -/
def syncLocalEffect (s : State) : State :=
  { s with tasks := s.localTasks }

/-- What one setter call does to the state.  `setLocalTasks` writes the store and
thereby triggers the effect of lines 12-14. -/
def Setter.apply (s : State) : Setter → State
  | Setter.setTasks l => { s with tasks := l }
  | Setter.setLocalTasks l => syncLocalEffect (writeLocalStore s l)
  | Setter.setLoading b => { s with loading := b }
  | Setter.setError e => { s with error := e }

/-- The state after a sequence of setter calls. -/
def exec (s : State) (calls : List Setter) : State :=
  calls.foldl Setter.apply s

/-- Every state passed through while a sequence of setter calls is made, the
starting state first. -/
def trace (s : State) : List Setter → List State
  | [] => [s]
  | c :: calls => s :: trace (Setter.apply s c) calls

/-- The settlement of an awaited promise. -/
inductive Remote (α : Type) where
  | resolved (a : α)
  | rejected
  deriving DecidableEq, Repr

/-- One execution of an `async` function with a single `await`: the setter calls
made before the promise is awaited and those made after it has settled. -/
structure Run where
  sync : List Setter
  settled : List Setter
  deriving DecidableEq, Repr

/-- The state at the moment the remote call is awaited. -/
def Run.atAwait (r : Run) (s : State) : State :=
  exec s r.sync

/-- The state once the function has completed. -/
def Run.final (r : Run) (s : State) : State :=
  exec (exec s r.sync) r.settled

/-- Every state the function passes through, from invocation to completion. -/
def Run.states (r : Run) (s : State) : List State :=
  trace s (r.sync ++ r.settled)

/-! ## Startup: `loadTasks` (lines 17-48) -/

/-- Lines 26-33: start from a copy of `localTasks` and push every API task whose
id is not yet found in the list being built. -/
def mergeTasks (localTasks apiTasks : List Task) : List Task :=
  apiTasks.foldl
    (fun mergedTasks apiTask =>
      match mergedTasks.find? (fun task => decide (Task.id task = Task.id apiTask)) with
      | some _ => mergedTasks
      | none => mergedTasks ++ [apiTask])
    localTasks

/-- The function `loadTasks` of the mount effect; `localTasks` is the list read
from the store at mount, `remote` the settlement of `apiService.getTasks()`. -/
def loadTasks (localTasks : List Task) (remote : Remote (List Task)) : Run :=
  { sync := [Setter.setLoading true, Setter.setError none]
    settled :=
      match remote with
      | Remote.resolved apiTasks =>
          [Setter.setTasks (mergeTasks localTasks apiTasks),
           Setter.setLocalTasks (mergeTasks localTasks apiTasks),
           Setter.setLoading false]
      | Remote.rejected =>
          [Setter.setError (some "Failed to sync with server. Using local data."),
           Setter.setTasks localTasks,
           Setter.setLoading false] }

/-- The first render (lines 6-9) with `local0` in the store. -/
def mount (local0 : List Task) : State :=
  { tasks := local0, localTasks := local0, loading := false, error := none }

/-- The setter calls of the two mount effects, in order: `setTasks(localTasks)`
(line 13), then `loadTasks()` (line 47). -/
def startupCalls (local0 : List Task) (remote : Remote (List Task)) : List Setter :=
  Setter.setTasks local0 :: ((loadTasks local0 remote).sync ++ (loadTasks local0 remote).settled)

/-- The state after startup. -/
def startup (local0 : List Task) (remote : Remote (List Task)) : State :=
  exec (mount local0) (startupCalls local0 remote)

/-! ## Mutations (lines 50-142) -/

/-- The function `addTask` (lines 50-69); `tasks` is the closure snapshot, `remote`
the settlement of `apiService.createTask(newTask)`. -/
def addTask (tasks : List Task) (newTask : Task) (remote : Remote Unit) : Run :=
  { sync := [Setter.setLoading true, Setter.setError none,
             Setter.setTasks (tasks ++ [newTask]),
             Setter.setLocalTasks (tasks ++ [newTask])]
    settled :=
      (match remote with
       | Remote.resolved _ => []
       | Remote.rejected =>
           [Setter.setError (some "Failed to sync with server. Task saved locally.")])
      ++ [Setter.setLoading false] }

/-- Line 73: `Object.keys(updates).length <= 2`. -/
def isQuickUpdate (updates : Obj) : Bool :=
  decide ((Obj.keys updates).length ≤ 2)

/-- Lines 82-84: the list with every task of id `taskId` spread over by `updates`. -/
def applyUpdate (tasks : List Task) (taskId : Value) (updates : Obj) : List Task :=
  tasks.map (fun task => if Task.id task = taskId then Obj.spread task updates else task)

/-- The function `updateTask` (lines 71-100); `remote` is the settlement of
`apiService.updateTask(taskId, taskToUpdate)`. -/
def updateTask (tasks : List Task) (taskId : Value) (updates : Obj)
    (remote : Remote Unit) : Run :=
  { sync := (if isQuickUpdate updates then [] else [Setter.setLoading true])
             ++ [Setter.setError none,
                 Setter.setTasks (applyUpdate tasks taskId updates),
                 Setter.setLocalTasks (applyUpdate tasks taskId updates)]
    settled :=
      (match remote with
       | Remote.resolved _ => []
       | Remote.rejected =>
           [Setter.setError (some "Failed to sync with server. Changes saved locally.")])
      ++ (if isQuickUpdate updates then [] else [Setter.setLoading false]) }

/-- The function `deleteTask` (lines 102-121); `remote` is the settlement of
`apiService.deleteTask(taskId)`. -/
def deleteTask (tasks : List Task) (taskId : Value) (remote : Remote Unit) : Run :=
  { sync := [Setter.setLoading true, Setter.setError none,
             Setter.setTasks (tasks.filter (fun task => decide (Task.id task ≠ taskId))),
             Setter.setLocalTasks (tasks.filter (fun task => decide (Task.id task ≠ taskId)))]
    settled :=
      (match remote with
       | Remote.resolved _ => []
       | Remote.rejected =>
           [Setter.setError (some "Failed to sync with server. Task deleted locally.")])
      ++ [Setter.setLoading false] }

/-- The function `syncWithServer` (lines 124-142); `remote` is the settlement of
`apiService.getTasks()`. -/
def syncWithServer (remote : Remote (List Task)) : Run :=
  { sync := [Setter.setLoading true, Setter.setError none]
    settled :=
      (match remote with
       | Remote.resolved serverTasks =>
           [Setter.setTasks serverTasks, Setter.setLocalTasks serverTasks]
       | Remote.rejected => [Setter.setError (some "Failed to sync with server.")])
      ++ [Setter.setLoading false] }

/-- The function `clearError` of the hook (line 152): `() => setError(null)`. -/
def clearError : List Setter :=
  [Setter.setError none]

/-! ## The API service (`src/services/api.js`) behind the hook -/

/-- The method `apiService.updateTask(taskId, task)` (api.js lines 164-196): the
request body reads `task.title` (line 177), a TypeError when `task` is
`undefined`, raised inside the `try` and rethrown by its `catch` (lines 192-195);
for an object the promise settles as the request does (`fetch` answering with
`response.ok`, or not). -/
def apiUpdateTask (task : Option Task) (response : Remote Unit) : Remote Unit :=
  match task with
  | none => Remote.rejected
  | some _ => response

/-- The method `apiService.deleteTask(taskId)` (api.js lines 199-216): the promise
settles as the request does. -/
def apiDeleteTask (_taskId : Value) (response : Remote Unit) : Remote Unit :=
  response

/-- Line 89 of the hook: `updatedTasks.find(task => task.id === taskId)`. -/
def taskToUpdate (tasks : List Task) (taskId : Value) (updates : Obj) : Option Task :=
  (applyUpdate tasks taskId updates).find? (fun task => decide (Task.id task = taskId))

/-- The function `updateTask` with its awaited call (line 90) made against
`apiService.updateTask`; `response` is how the remote source answers. -/
def updateTaskViaApi (tasks : List Task) (taskId : Value) (updates : Obj)
    (response : Remote Unit) : Run :=
  updateTask tasks taskId updates
    (apiUpdateTask (taskToUpdate tasks taskId updates) response)

/-- The function `deleteTask` with its awaited call (line 113) made against
`apiService.deleteTask`. -/
def deleteTaskViaApi (tasks : List Task) (taskId : Value) (response : Remote Unit) : Run :=
  deleteTask tasks taskId (apiDeleteTask taskId response)

/-- The settlement of `try { await call } catch { ... } finally { ... }` given how
the awaited call, the catch block and the finally block complete. -/
def tryCatchFinally (awaited catchBlock finallyBlock : Remote Unit) : Remote Unit :=
  match finallyBlock with
  | Remote.rejected => Remote.rejected
  | Remote.resolved _ =>
      match awaited with
      | Remote.resolved _ => Remote.resolved ()
      | Remote.rejected => catchBlock

/-- The promise `addTask`, `updateTask` and `deleteTask` hand back to their caller:
the catch block (`console.error`, `setError`) and the finally block (`setLoading`)
of each complete normally. -/
def hookPromise (awaited : Remote Unit) : Remote Unit :=
  tryCatchFinally awaited (Remote.resolved ()) (Remote.resolved ())

/-! ## Back-to-back invocations from one render -/

/-- Two `addTask` calls made by one handler run (as the `forEach` of
`handleAddBreakdownTasks`, AIAssistant.js lines 91-97): both close over the
`tasks` of the render `s`; the synchronous parts run in invocation order, the
remote calls settle afterwards, first-invoked first. -/
def addTaskTwice (s : State) (t1 t2 : Task) (r1 r2 : Remote Unit) : List Setter :=
  (addTask s.tasks t1 r1).sync ++ (addTask s.tasks t2 r2).sync
    ++ (addTask s.tasks t1 r1).settled ++ (addTask s.tasks t2 r2).settled

/-- The same two calls with the second remote call settling first. -/
def addTaskTwiceSwapped (s : State) (t1 t2 : Task) (r1 r2 : Remote Unit) : List Setter :=
  (addTask s.tasks t1 r1).sync ++ (addTask s.tasks t2 r2).sync
    ++ (addTask s.tasks t2 r2).settled ++ (addTask s.tasks t1 r1).settled

/-! ## What `App` renders (`src/App.js` lines 26-33, 139-231) -/

/-- The element returned by `App`. -/
inductive Element where
  | loadingDiv
  | errorDiv (error : String)
  | appShell (tasks : List Task)
  deriving DecidableEq, Repr

/-- Truthiness of the `error` cell: `null` and the empty string are falsy. -/
def errorTruthy : Option String → Bool
  | none => false
  | some msg => msg != ""

/-- Lines 139-231 of `App`: the loading div while `loading`, else the error div
when `error` is truthy, else the application shell over `tasks`. -/
def App (s : State) : Element :=
  if s.loading then Element.loadingDiv
  else if errorTruthy s.error then Element.errorDiv (s.error.getD "")
  else Element.appShell s.tasks

/-- Lines 26-33 of `App`: the fields it takes from `useTasks()`. -/
def appHookFields : List String :=
  ["tasks", "addTask", "updateTask", "deleteTask", "loading", "error"]

/-! ## The handlers of `App` (`src/App.js` lines 71-110) -/

/-- Property assignment `o.k = v`: an own property keeps its place and takes the
new value, a new property is added last. -/
def Obj.set : Obj → String → Value → Obj
  | [], k, v => [(k, v)]
  | (k2, v2) :: rest, k, v =>
      if k2 = k then (k, v) :: rest else (k2, v2) :: Obj.set rest k v

/-- Truthiness of a primitive value. -/
def Value.truthy : Value → Bool
  | Value.undefined => false
  | Value.null => false
  | Value.bool b => b
  | Value.num n => n != 0
  | Value.str s => s != ""

/-- Lines 83-89 of `handleAddTask`: the literal `{ ...taskData, id: Date.now(),
completed: false, createdAt: new Date().toISOString(), completedAt: null }`;
`now` is `Date.now()`, `nowIso` the ISO string of the creation time. -/
def newTask (taskData : Obj) (now : Int) (nowIso : String) : Task :=
  Obj.spread taskData
    [("id", Value.num now), ("completed", Value.bool false),
     ("createdAt", Value.str nowIso), ("completedAt", Value.null)]

/-- Lines 82-91 of `handleAddTask`: build the task and pass it to `addTask`. -/
def handleAddTask (tasks : List Task) (taskData : Obj) (now : Int) (nowIso : String)
    (remote : Remote Unit) : Run :=
  addTask tasks (newTask taskData now nowIso) remote

/-- Line 104: `tasks.find(t => t.id === taskId)?.completed`. -/
def currentCompleted (tasks : List Task) (taskId : Value) : Value :=
  match tasks.find? (fun t => decide (Task.id t = taskId)) with
  | some t => Obj.get t "completed"
  | none => Value.undefined

/-- Lines 104-108 of `handleUpdateTask`: the `updates` object after the handler has
written `completedAt` into it; `nowIso` is `new Date().toISOString()`. -/
def stampCompletedAt (tasks : List Task) (taskId : Value) (updates : Obj)
    (nowIso : String) : Obj :=
  if Value.truthy (Obj.get updates "completed")
      && decide (Obj.get updates "completed" ≠ currentCompleted tasks taskId) then
    Obj.set updates "completedAt" (Value.str nowIso)
  else if Obj.get updates "completed" = Value.bool false then
    Obj.set updates "completedAt" Value.null
  else updates

/-- Lines 102-110 of `handleUpdateTask`: stamp, then call `updateTask`. -/
def handleUpdateTask (tasks : List Task) (taskId : Value) (updates : Obj)
    (nowIso : String) (remote : Remote Unit) : Run :=
  updateTask tasks taskId (stampCompletedAt tasks taskId updates nowIso) remote

/-- The method `s.includes(t)` of strings: `t` occurs in `s` as a contiguous run. -/
def includes (s t : String) : Bool :=
  decide (t.data <:+: s.data)

/-- The call `v.toLowerCase()` on a field value: a TypeError (`none`) unless `v` is
a string; `lower` is `String.prototype.toLowerCase`. -/
def toLowerCase (lower : String → String) : Value → Option String
  | Value.str s => some (lower s)
  | _ => none

/-- Lines 72-73: `task.title.toLowerCase().includes(searchTerm.toLowerCase()) ||
task.description.toLowerCase().includes(searchTerm.toLowerCase())`; the
description is read only when the title does not match. -/
def matchesSearch (lower : String → String) (task : Task) (searchTerm : String) :
    Option Bool :=
  match toLowerCase lower (Obj.get task "title") with
  | none => none
  | some title =>
      if includes title (lower searchTerm) then some true
      else
        match toLowerCase lower (Obj.get task "description") with
        | none => none
        | some description => some (includes description (lower searchTerm))

/-- Line 74: `selectedCategory === 'all' || task.category === selectedCategory`. -/
def matchesCategory (task : Task) (selectedCategory : String) : Bool :=
  selectedCategory == "all" || Obj.get task "category" == Value.str selectedCategory

/-- Lines 75-77: `filter === 'all' || (filter === 'completed' && task.completed) ||
(filter === 'pending' && !task.completed)`, as a truth value. -/
def matchesFilter (task : Task) (filter : String) : Bool :=
  filter == "all" || (filter == "completed" && Value.truthy (Obj.get task "completed"))
    || (filter == "pending" && !(Value.truthy (Obj.get task "completed")))

/-- Lines 71-80: the callback given to `tasks.filter`. -/
def filterCallback (lower : String → String) (searchTerm selectedCategory filter : String)
    (task : Task) : Option Bool :=
  match matchesSearch lower task searchTerm with
  | none => none
  | some m => some (m && matchesCategory task selectedCategory && matchesFilter task filter)

/-- The method `Array.prototype.filter` with a callback that may throw: the
exception of the first throwing call propagates. -/
def filterThrowing (f : Task → Option Bool) : List Task → Option (List Task)
  | [] => some []
  | task :: rest =>
      match f task with
      | none => none
      | some keep =>
          match filterThrowing f rest with
          | none => none
          | some kept => some (if keep then task :: kept else kept)

/-- Lines 71-80: `filteredTasks`, or `none` when computing it throws. -/
def filteredTasks (lower : String → String) (tasks : List Task)
    (searchTerm selectedCategory filter : String) : Option (List Task) :=
  filterThrowing (filterCallback lower searchTerm selectedCategory filter) tasks

/-! ## The claims about the handlers in their own words -/

/-- The text of a field holding a string. -/
def Value.text : Value → String
  | Value.str s => s
  | _ => ""

/-- The field value is a string. -/
def Value.isString : Value → Bool
  | Value.str _ => true
  | _ => false

/-- The field `completedAt` holds a value: neither `null` nor absent. -/
def completedAtSet (task : Task) : Bool :=
  Obj.get task "completedAt" != Value.null && Obj.get task "completedAt" != Value.undefined

/-- The field `completedAt` is not `null`, in the strict sense of `!== null`. -/
def completedAtNotNull (task : Task) : Bool :=
  Obj.get task "completedAt" != Value.null

/-- The field `completed` is `true`. -/
def isCompleted (task : Task) : Bool :=
  Obj.get task "completed" == Value.bool true

/-- The tasks to display in the words of the claim: the search term occurs in the
title or the description ignoring letter case, the category is the selected one
or the selection is `all`, and the completed flag matches the status. -/
def displayed (lower : String → String) (searchTerm selectedCategory status : String)
    (task : Task) : Bool :=
  (includes (lower (Value.text (Obj.get task "title"))) (lower searchTerm)
      || includes (lower (Value.text (Obj.get task "description"))) (lower searchTerm))
    && (selectedCategory == "all" || Obj.get task "category" == Value.str selectedCategory)
    && (status == "all"
        || (status == "completed" && Value.truthy (Obj.get task "completed"))
        || (status == "pending" && !(Value.truthy (Obj.get task "completed"))))

/-- Lower-casing of the letters A to Z, an instance of `toLowerCase` on ASCII text. -/
def lowerAscii (s : String) : String :=
  String.mk (s.data.map Char.toLower)

/-! ## Dates -/

/-- The comparison `a <= b` of two `Date` objects by their time values; `none` is
the time value of an invalid date (NaN), for which every comparison is false. -/
def dateLe : Option Int → Option Int → Bool
  | some a, some b => decide (a ≤ b)
  | _, _ => false

/-- The comparison `a < b` of two `Date` objects. -/
def dateLt : Option Int → Option Int → Bool
  | some a, some b => decide (a < b)
  | _, _ => false

/-! ## The form `AddTaskForm` (`src/components/AddTaskForm.js`) -/

/-- The state `formData` (lines 4-9). -/
structure FormData where
  title : String
  description : String
  category : String
  deadline : String
  deriving DecidableEq, Repr

/-- The function `validateForm` (lines 13-25), returning the object `newErrors` as
its list of entries; `trim` is `String.prototype.trim`, `parseDate s` the time
value of `new Date(s)`, `now` the time value of `new Date()`. -/
def validateForm (trim : String → String) (parseDate : String → Option Int) (now : Int)
    (formData : FormData) : List (String × String) :=
  (if trim formData.title = "" then [("title", "Title is required")] else [])
    ++ (if formData.deadline ≠ "" ∧ dateLe (parseDate formData.deadline) (some now) = true
        then [("deadline", "Deadline must be in the future")] else [])

/-- What one run of `handleSubmit` does: the argument of the `onAddTask` call if
one is made, and the states `formData` and `errors` afterwards. -/
structure Submit where
  onAddTask : Option FormData
  formData : FormData
  errors : List (String × String)
  deriving DecidableEq, Repr

/-- The function `handleSubmit` (lines 27-44); `_errors` is the state before. -/
def handleSubmit (trim : String → String) (parseDate : String → Option Int) (now : Int)
    (formData : FormData) (_errors : List (String × String)) : Submit :=
  if (validateForm trim parseDate now formData).length > 0 then
    { onAddTask := none, formData := formData,
      errors := validateForm trim parseDate now formData }
  else
    { onAddTask := some formData,
      formData := { title := "", description := "", category := "work", deadline := "" },
      errors := [] }

/-! ## Authentication (`src/contexts/AuthContext.js`) -/

/-- The state of `AuthProvider` together with the entry `taskmanager_user` of
`localStorage` (the record whose JSON text is stored, `none` when absent). -/
structure AuthState where
  user : Option Obj
  stored : Option Obj
  loading : Bool
  deriving DecidableEq, Repr

/-- The object `login` resolves with. -/
structure LoginResult where
  success : Bool
  error : Option String
  deriving DecidableEq, Repr

/-- Line 67: `const { password: _, ...userWithoutPassword } = foundUser`. -/
def withoutPassword (foundUser : Obj) : Obj :=
  foundUser.filter (fun p => p.1 != "password")

/-- The function `login` (lines 56-76) over the registered users `mockUsers`: the
result and the state once it has completed. -/
def login (mockUsers : List Obj) (email password : Value) (s : AuthState) :
    LoginResult × AuthState :=
  match mockUsers.find? (fun u =>
      decide (Obj.get u "email" = email) && decide (Obj.get u "password" = password)) with
  | some foundUser =>
      ({ success := true, error := none },
       { user := some (withoutPassword foundUser),
         stored := some (withoutPassword foundUser), loading := false })
  | none =>
      ({ success := false, error := some "Invalid email or password" },
       { s with loading := false })

/-- The array `mockUsers` (lines 14-36). -/
def mockUsers : List Obj :=
  [[("id", Value.num 1), ("email", Value.str "admin@taskmanager.com"),
    ("password", Value.str "admin123"), ("name", Value.str "Admin User"),
    ("avatar", Value.str "👨‍💻")],
   [("id", Value.num 2), ("email", Value.str "user@taskmanager.com"),
    ("password", Value.str "user123"), ("name", Value.str "Regular User"),
    ("avatar", Value.str "👩‍💼")],
   [("id", Value.num 3), ("email", Value.str "demo@taskmanager.com"),
    ("password", Value.str "demo123"), ("name", Value.str "Demo User"),
    ("avatar", Value.str "🚀")]]

/-! ## Reminders (`src/services/notificationService.js` lines 93-132) -/

/-- The string a primitive value turns into in a template literal, as a string
argument or as a property key. -/
def Value.toText : Value → String
  | Value.undefined => "undefined"
  | Value.null => "null"
  | Value.bool true => "true"
  | Value.bool false => "false"
  | Value.num n => toString n
  | Value.str s => s

/-- The method `s.startsWith(t)` of strings. -/
def startsWith (s t : String) : Bool :=
  decide (t.data <+: s.data)

/-- The service state the reminders use: the map `this.reminders` from reminder id
to timeout id (entries in insertion order), the timeouts that are set and not
cleared, and the id the next `setTimeout` returns. -/
structure NotificationService where
  reminders : List (String × Nat)
  timeouts : List Nat
  nextTimeout : Nat
  deriving DecidableEq, Repr

/-- The method `Map.prototype.set`. -/
def mapSet : List (String × Nat) → String → Nat → List (String × Nat)
  | [], k, v => [(k, v)]
  | (k2, v2) :: rest, k, v =>
      if k2 = k then (k2, v) :: rest else (k2, v2) :: mapSet rest k v

/-- The array `reminderIntervals` (lines 102-107), the `time` of each entry. -/
def reminderIntervals : List Int :=
  [24 * 60 * 60 * 1000, 60 * 60 * 1000, 15 * 60 * 1000, 0]

/-- Line 118: the template literal `${task.id}-${interval.time}`. -/
def reminderId (taskId : Value) (time : Int) : String :=
  Value.toText taskId ++ "-" ++ toString time

/-- Lines 109-121 for one interval: when the reminder time is positive, set a
timeout and store its id under the reminder id. -/
def scheduleOne (taskId : Value) (timeUntilDeadline : Int) (n : NotificationService)
    (time : Int) : NotificationService :=
  if timeUntilDeadline - time > 0 then
    { reminders := mapSet n.reminders (reminderId taskId time) n.nextTimeout
      timeouts := n.timeouts ++ [n.nextTimeout]
      nextTimeout := n.nextTimeout + 1 }
  else n

/-- The method `scheduleReminder(task)` (lines 94-122); `parseDate` gives the time
value of `new Date(task.deadline)`, `now` that of `new Date()`. -/
def scheduleReminder (parseDate : Value → Option Int) (now : Int) (task : Task)
    (n : NotificationService) : NotificationService :=
  if !(Value.truthy (Obj.get task "deadline")) || Value.truthy (Obj.get task "completed")
  then n
  else
    match parseDate (Obj.get task "deadline") with
    | none => n
    | some deadline =>
        reminderIntervals.foldl (scheduleOne (Task.id task) (deadline - now)) n

/-- The method `cancelReminders(taskId)` (lines 125-132): every entry whose
reminder id starts with the text of `taskId` has its timeout cleared and is
deleted. -/
def cancelReminders (taskId : Value) (n : NotificationService) : NotificationService :=
  { reminders := n.reminders.filter (fun e => !(startsWith e.1 (Value.toText taskId)))
    timeouts := n.timeouts.filter (fun t =>
      !((n.reminders.filter (fun e => startsWith e.1 (Value.toText taskId))).map
          Prod.snd).contains t)
    nextTimeout := n.nextTimeout }

/-! ## The heuristics of `src/services/aiService.js` -/

/-- The array `workKeywords` (lines 30-34). -/
def workKeywords : List String :=
  ["meeting", "email", "report", "presentation", "project", "deadline",
   "client", "team", "office", "work", "business", "budget", "analysis",
   "development", "code", "testing", "deployment", "review", "document"]

/-- The array `personalKeywords` (lines 37-41). -/
def personalKeywords : List String :=
  ["grocery", "shopping", "family", "home", "personal", "health",
   "doctor", "gym", "exercise", "friend", "hobby", "vacation",
   "clean", "cook", "read", "movie", "birthday", "anniversary"]

/-- The array `urgentKeywords` (lines 44-47). -/
def urgentKeywords : List String :=
  ["urgent", "asap", "emergency", "critical", "important", "deadline",
   "overdue", "priority", "immediately", "rush", "fix", "bug", "issue"]

/-- Lines 52-62: a `forEach` that adds `weight` to the score for every keyword
the text includes. -/
def keywordScore (text : String) (keywords : List String) (weight : Nat) : Nat :=
  keywords.foldl (fun score keyword => if includes text keyword then score + weight else score) 0

/-- The method `categorizeTask(title, description)` (lines 26-71); `lower` is
`String.prototype.toLowerCase`. -/
def categorizeTask (lower : String → String) (title description : String) : String :=
  let text := lower (title ++ " " ++ description)
  let work := keywordScore text workKeywords 1
  let personal := keywordScore text personalKeywords 1
  let urgent := keywordScore text urgentKeywords 2
  let maxScore := max work (max personal urgent)
  if maxScore = 0 then "personal"
  else if urgent = maxScore then "urgent"
  else if work = maxScore then "work"
  else "personal"

/-- The names of the properties a plain object inherits from `Object.prototype`. -/
def inheritedKeys : List String :=
  ["constructor", "__defineGetter__", "__defineSetter__", "hasOwnProperty",
   "__lookupGetter__", "__lookupSetter__", "isPrototypeOf", "propertyIsEnumerable",
   "toString", "valueOf", "__proto__", "toLocaleString"]

/-- What an own property of the counting object of lines 152-155 and 504-507 holds:
a count, or a text (what `+ 1` makes of an inherited function). -/
inductive Tally where
  | count (n : Nat)
  | text
  deriving DecidableEq, Repr

/-- One step of the `reduce` of lines 152-155 and 504-507,
`acc[key] = (acc[key] || 0) + 1`, on the own entries of `acc`: an own count is
increased, an own text stays a text (`+` concatenates); a key that is not an own
property is read through the prototype, so a new key gets the count 1 unless it
names an inherited property, which gives a text; for `__proto__` the assignment
goes to the inherited setter, which ignores a text, and no own property is
made. -/
def bump : List (String × Tally) → String → List (String × Tally)
  | [], k =>
      if k = "__proto__" then []
      else if k ∈ inheritedKeys then [(k, Tally.text)]
      else [(k, Tally.count 1)]
  | (k2, v) :: rest, k =>
      if k2 = k then
        (match v with
         | Tally.count n => (k2, Tally.count (n + 1)) :: rest
         | Tally.text => (k2, Tally.text) :: rest)
      else (k2, v) :: bump rest k

/-- The `reduce` of lines 152-155 and 504-507: the own entries of the resulting
object, in the order of their creation (an entry whose key is the text of an
integer would come first in the object; the order is not used). -/
def countByCategory (tasks : List Task) : List (String × Tally) :=
  tasks.foldl (fun acc task => bump acc (Value.toText (Obj.get task "category"))) []

/-- A suggestion object (lines 162-168). -/
structure Suggestion where
  title : String
  description : String
  category : String
  reason : String
  confidence : ℚ
  deriving DecidableEq

/-- Lines 149-219 of `generateTaskSuggestions`: the array `suggestions` before the
final `slice`; `hour` is `new Date().getHours()`, `lastWeek` the time value of
the date seven days back, `parseDate` the time value of `new Date(createdAt)`. -/
def suggestionCandidates (parseDate : Value → Option Int) (existingTasks : List Task)
    (hour : Nat) (lastWeek : Int) : List Suggestion :=
  (if (match List.lookup "work" (countByCategory existingTasks) with
       | some (Tally.count n) => n
       | _ => 0) > 0
   then [{ title := "Review daily goals",
           description := "Take a moment to review and adjust your daily objectives",
           category := "work", reason := "Based on your work tasks pattern",
           confidence := 0.7 }]
   else [])
  ++ (if (existingTasks.filter
            (fun task => !(Value.truthy (Obj.get task "completed")))).length > 5
      then [{ title := "Prioritize task backlog",
              description := "Review and prioritize your pending tasks",
              category := "work", reason := "You have many pending tasks",
              confidence := 0.9 }]
      else [])
  ++ (if hour < 10
      then [{ title := "Plan your day", description := "Set priorities and goals for today",
              category := "personal", reason := "Good morning routine",
              confidence := 0.8 }]
      else [])
  ++ (if hour > 17
      then [{ title := "Review today\x27s progress",
              description := "Reflect on what you accomplished today",
              category := "personal", reason := "End of day routine",
              confidence := 0.7 }]
      else [])
  ++ (if (existingTasks.filter (fun task =>
            dateLt (some lastWeek) (parseDate (Obj.get task "createdAt")))).length < 3
      then [{ title := "Set weekly goals",
              description := "Define your objectives for this week",
              category := "personal", reason := "Low activity detected",
              confidence := 0.6 }]
      else [])

/-- The method `generateTaskSuggestions` (lines 148-222): `suggestions.slice(0, 3)`. -/
def generateTaskSuggestions (parseDate : Value → Option Int) (existingTasks : List Task)
    (hour : Nat) (lastWeek : Int) : List Suggestion :=
  (suggestionCandidates parseDate existingTasks hour lastWeek).take 3

/-! ## Arithmetic on doubles -/

/-- What is used of double arithmetic: a JavaScript operation on numbers returns
`fl` of the exact result, a decimal literal denotes `fl` of its value; `fl` is
monotone, leaves the integers up to 2^53 as they are and is off by at most the
fraction 2^-53 of its argument (round to nearest, no overflow or underflow).
Sums and products of small integers are therefore exact and written without
`fl`. -/
structure Rounding (fl : ℚ → ℚ) : Prop where
  mono : ∀ x y : ℚ, x ≤ y → fl x ≤ fl y
  exact_int : ∀ n : ℤ, |n| ≤ 2 ^ 53 → fl (n : ℚ) = (n : ℚ)
  rel_err : ∀ x : ℚ, |fl x - x| ≤ |x| / 2 ^ 53

/-- The function `Math.round`: the nearest integer, a tie going upward. -/
def mathRound (x : ℚ) : ℤ :=
  ⌊x + 1 / 2⌋

/-- Rounding to the nearest integer, a tie going to the even neighbour. -/
def roundHalfEven (y : ℚ) : ℤ :=
  if y - ⌊y⌋ < 1 / 2 then ⌊y⌋
  else if 1 / 2 < y - ⌊y⌋ then ⌊y⌋ + 1
  else if ⌊y⌋ % 2 = 0 then ⌊y⌋ else ⌊y⌋ + 1

/-- The rounding of the engine: the number with a significand of 53 bits nearest
to `x`, a tie going to the even significand (IEEE 754 binary64, round to nearest
even, as ECMAScript prescribes for every operation on numbers).  The exponent
`Int.log 2 |x|` is unbounded here; the doubles have it between -1022 and 1023,
a range the numbers evaluated with it below stay well inside. -/
def binary64 (x : ℚ) : ℚ :=
  if x = 0 then 0
  else (roundHalfEven (x / 2 ^ (Int.log 2 |x| - 52)) : ℚ) * 2 ^ (Int.log 2 |x| - 52)

/-! ## The progress tracker (`src/components/ProgressTracker.js`) -/

/-- Lines 5 and 12: `tasks.filter(task => task.completed).length`. -/
def completedTasks (tasks : List Task) : Nat :=
  (tasks.filter (fun task => Value.truthy (Obj.get task "completed"))).length

/-- Lines 6 and 17: `total > 0 ? (completed / total) * 100 : 0`. -/
def progressPercentage (fl : ℚ → ℚ) (tasks : List Task) : ℚ :=
  if tasks.length > 0
  then fl (fl ((completedTasks tasks : ℚ) / (tasks.length : ℚ)) * 100)
  else 0

/-- Line 52: the number shown before `% Complete`, `Math.round(progressPercentage)`. -/
def percentComplete (fl : ℚ → ℚ) (tasks : List Task) : ℤ :=
  mathRound (progressPercentage fl tasks)

/-- An entry of `categoryStats` (lines 13-18). -/
structure CategoryStat where
  category : String
  total : Nat
  completed : Nat
  percentage : ℚ
  deriving DecidableEq

/-- The function `getTasksByCategory` (lines 8-20). -/
def getTasksByCategory (fl : ℚ → ℚ) (tasks : List Task) : List CategoryStat :=
  ["work", "personal", "urgent"].map (fun category =>
    { category := category
      total := (tasks.filter
        (fun task => decide (Obj.get task "category" = Value.str category))).length
      completed := completedTasks (tasks.filter
        (fun task => decide (Obj.get task "category" = Value.str category)))
      percentage := progressPercentage fl (tasks.filter
        (fun task => decide (Obj.get task "category" = Value.str category))) })

/-! ## Priority, prediction and insights (`src/services/aiService.js`) -/

/-- The array `highPriorityWords` (line 136). -/
def highPriorityWords : List String :=
  ["urgent", "important", "critical", "asap", "deadline"]

/-- Lines 135 and 263: title, a blank and description concatenated (a field that is
not a string enters as its text), then `toLowerCase()`. -/
def taskText (lower : String → String) (task : Task) : String :=
  lower (Value.toText (Obj.get task "title") ++ " "
    ++ Value.toText (Obj.get task "description"))

/-- Lines 122 and 245: `(deadline - now) / (1000 * 60 * 60)`, `none` being NaN. -/
def hoursUntilDeadline (fl : ℚ → ℚ) (parseDate : Value → Option Int) (now : Int)
    (task : Task) : Option ℚ :=
  match parseDate (Obj.get task "deadline") with
  | none => none
  | some deadline => some (fl (((deadline - now : Int) : ℚ) / 3600000))

/-- Lines 120-127: the deadline factor of the priority; a comparison with NaN is
false. -/
def deadlinePoints (fl : ℚ → ℚ) (parseDate : Value → Option Int) (now : Int)
    (task : Task) : Nat :=
  if Value.truthy (Obj.get task "deadline") then
    match hoursUntilDeadline fl parseDate now task with
    | none => 0
    | some hours =>
        if hours < 2 then 50 else if hours < 24 then 30 else if hours < 168 then 10 else 0
  else 0

/-- Lines 130-132: the category factor of the priority. -/
def categoryPoints (task : Task) : Nat :=
  if Obj.get task "category" = Value.str "urgent" then 40
  else if Obj.get task "category" = Value.str "work" then 20
  else 10

/-- Lines 135-138: 15 for every high-priority word the text includes. -/
def wordPoints (lower : String → String) (task : Task) : Nat :=
  (highPriorityWords.filter (fun word => includes (taskText lower task) word)).length * 15

/-- The method `calculatePriority(task)` (lines 115-145); `none` is NaN, the result
for a `createdAt` that is not a date. -/
def calculatePriority (fl : ℚ → ℚ) (lower : String → String)
    (parseDate : Value → Option Int) (now : Int) (task : Task) : Option ℚ :=
  match parseDate (Obj.get task "createdAt") with
  | none => none
  | some createdAt =>
      some (min (max
        (fl (((deadlinePoints fl parseDate now task + categoryPoints task
                + wordPoints lower task : Nat) : ℚ)
              + min (fl (fl (((now - createdAt : Int) : ℚ) / 86400000) * 2)) 20))
        0) 100)

/-- The array `complexWords` (line 264). -/
def complexWords : List String :=
  ["develop", "create", "design", "analyze", "research"]

/-- Lines 234-239: `categoryCompletionRates[task.category] || 0.7`.  For a key the
object literal does not own the look-up goes on in `Object.prototype`: a key of
`inheritedKeys` finds a function there (`__proto__` finds the prototype object
itself), which is truthy and so becomes the factor; `none` is such a factor,
which is not a number. -/
def categoryFactor (fl : ℚ → ℚ) (task : Task) : Option ℚ :=
  if Value.toText (Obj.get task "category") = "urgent" then some (fl 0.85)
  else if Value.toText (Obj.get task "category") = "work" then some (fl 0.75)
  else if Value.toText (Obj.get task "category") = "personal" then some (fl 0.65)
  else if Value.toText (Obj.get task "category") ∈ inheritedKeys then none
  else some (fl 0.7)

/-- Lines 242-252: the deadline factor of the prediction. -/
def deadlineFactor (fl : ℚ → ℚ) (parseDate : Value → Option Int) (now : Int)
    (task : Task) : ℚ :=
  if Value.truthy (Obj.get task "deadline") then
    match hoursUntilDeadline fl parseDate now task with
    | none => fl 0.6
    | some hours => if hours < 2 then fl 0.9 else if hours < 24 then fl 0.8 else fl 0.6
  else fl 0.5

/-- Lines 255-260: the completion rate of the history, 0.7 without history. -/
def userPatternFactor (fl : ℚ → ℚ) (userHistory : List Task) : ℚ :=
  if userHistory.length > 0
  then fl ((completedTasks userHistory : ℚ) / (userHistory.length : ℚ))
  else fl 0.7

/-- Lines 263-266: 0.6 when the text includes a complex word, else 0.8. -/
def complexityFactor (fl : ℚ → ℚ) (lower : String → String) (task : Task) : ℚ :=
  if complexWords.any (fun word => includes (taskText lower task) word)
  then fl 0.6 else fl 0.8

/-- Lines 269-272: the `reduce` over the entries category, complexity, deadline,
userPattern with the weights 0.3, 0.2, 0.3, 0.2. -/
def weightedSum (fl : ℚ → ℚ) (category complexity deadline userPattern : ℚ) : ℚ :=
  fl (fl (fl (fl (0 + fl (category * fl 0.3)) + fl (complexity * fl 0.2))
        + fl (deadline * fl 0.3)) + fl (userPattern * fl 0.2))

/-- The value `prediction` of `predictTaskCompletion` (lines 270-272); `none` is
NaN: the product of a category factor that is not a number with its weight is
NaN, and so is every sum it enters. -/
def prediction (fl : ℚ → ℚ) (lower : String → String) (parseDate : Value → Option Int)
    (now : Int) (task : Task) (userHistory : List Task) : Option ℚ :=
  match categoryFactor fl task with
  | none => none
  | some category =>
      some (weightedSum fl category (complexityFactor fl lower task)
        (deadlineFactor fl parseDate now task) (userPatternFactor fl userHistory))

/-- The fields `probability` and `recommendation` of the object
`predictTaskCompletion` returns (lines 274-278); the probability `none` is NaN. -/
structure Prediction where
  probability : Option ℤ
  recommendation : String
  deriving DecidableEq

/-- The method `predictTaskCompletion(task, userHistory)` (lines 225-279);
`Math.round(NaN * 100)` is NaN and both comparisons with NaN are false. -/
def predictTaskCompletion (fl : ℚ → ℚ) (lower : String → String)
    (parseDate : Value → Option Int) (now : Int) (task : Task) (userHistory : List Task) :
    Prediction :=
  match prediction fl lower parseDate now task userHistory with
  | none => { probability := none, recommendation := "low" }
  | some p =>
      { probability := some (mathRound (fl (p * 100)))
        recommendation :=
          if p > fl 0.7 then "high"
          else if p > fl 0.5 then "medium"
          else "low" }

/-- An insight object (lines 487-492) without its `description` and `action`
texts. -/
structure Insight where
  type : String
  title : String
  actionable : Bool
  deriving DecidableEq, Repr

/-- Lines 509-512: `sort` reorders the own entries of the counting object and `[0]`
takes the first, so `dominantCategory` is an entry, hence truthy, exactly when
the object has an own property.  Which entry it is enters the description of
the insight only, which `Insight` leaves out. -/
def hasDominantCategory (entries : List (String × Tally)) : Bool :=
  !entries.isEmpty

/-- Lines 477-479: the tasks created on or after `startDate`. -/
def recentTasks (parseDate : Value → Option Int) (startDate : Int) (tasks : List Task) :
    List Task :=
  tasks.filter (fun task => dateLe (some startDate) (parseDate (Obj.get task "createdAt")))

/-- Lines 482-483: the completion rate in percent of the recent tasks. -/
def completionRate (fl : ℚ → ℚ) (recent : List Task) : ℚ :=
  if recent.length > 0
  then fl (fl ((completedTasks recent : ℚ) / (recent.length : ℚ)) * 100)
  else 0

/-- Lines 522-525: the recent tasks that are overdue. -/
def overdueTasks (parseDate : Value → Option Int) (now : Int) (recent : List Task) :
    List Task :=
  recent.filter (fun task =>
    if !(Value.truthy (Obj.get task "deadline")) || Value.truthy (Obj.get task "completed")
    then false
    else dateLt (parseDate (Obj.get task "deadline")) (some now))

/-- The method `generateInsights(tasks, timeframe)` (lines 471-538); `startDate` is
the time value of the date `timeframe` days back. -/
def generateInsights (fl : ℚ → ℚ) (parseDate : Value → Option Int) (now startDate : Int)
    (tasks : List Task) : List Insight :=
  (if completionRate fl (recentTasks parseDate startDate tasks) > 80
   then [{ type := "positive", title := "Excellent Productivity!", actionable := false }]
   else if completionRate fl (recentTasks parseDate startDate tasks) < 50
   then [{ type := "improvement", title := "Room for Improvement", actionable := true }]
   else [])
  ++ (if hasDominantCategory (countByCategory (recentTasks parseDate startDate tasks))
      then [{ type := "info", title := "Task Focus Analysis", actionable := false }]
      else [])
  ++ (if (overdueTasks parseDate now (recentTasks parseDate startDate tasks)).length > 0
      then [{ type := "warning", title := "Overdue Tasks Alert", actionable := true }]
      else [])

/-- Line 207 of `AIAssistant.js`: the empty-state paragraph is rendered when
`insights.length === 0`. -/
def showsNoInsights (insights : List Insight) : Bool :=
  insights.length == 0

/-! ## The startup merge as the specification words it -/

/-- The merge in the words of the specification:
`local0 ++ (remote tasks whose id is not present in local0)`. -/
def mergeBySpec (local0 remote : List Task) : List Task :=
  local0 ++ remote.filter (fun r => decide (Task.id r ∉ local0.map Task.id))

/-- The tasks of a remote list, in its order, whose id is neither among `seen`
nor carried by an earlier task of the list. -/
def newById (seen : List Value) : List Task → List Task
  | [] => []
  | r :: rest =>
      if Task.id r ∈ seen then newById seen rest
      else r :: newById (seen ++ [Task.id r]) rest

/-! ## Sample data -/

/-- The object `{ id: n, title: s }`. -/
def sampleTask (n : Int) (s : String) : Task :=
  [("id", Value.num n), ("title", Value.str s)]

/-- The update `{ completed: true }` of a completion toggle. -/
def toggleUpdate : Obj :=
  [("completed", Value.bool true)]

/-- An update `{ title, description, category }` as sent by an edit form. -/
def formUpdate : Obj :=
  [("title", Value.str "t"), ("description", Value.str "d"), ("category", Value.str "work")]

/-- A state in which another operation has raised `loading`. -/
def busyState : State :=
  { tasks := [sampleTask 1 "a"], localTasks := [sampleTask 1 "a"], loading := true,
    error := none }

/-- The first mocked task of `App.test.js`. -/
def testTask1 : Task :=
  [("id", Value.num 1), ("title", Value.str "Test Task 1"),
   ("description", Value.str "Description 1"), ("category", Value.str "work"),
   ("completed", Value.bool false)]

/-- The second mocked task of `App.test.js`. -/
def testTask2 : Task :=
  [("id", Value.num 2), ("title", Value.str "Test Task 2"),
   ("description", Value.str "Description 2"), ("category", Value.str "personal"),
   ("completed", Value.bool true), ("completedAt", Value.str "2024-01-02T00:00:00")]

/-- Removal of leading and trailing blanks, an instance of `trim`. -/
def trimBlanks (s : String) : String :=
  String.mk (((s.data.dropWhile (fun c => c == ' ')).reverse.dropWhile
    (fun c => c == ' ')).reverse)

/-- A date parser that knows two datetime-local strings. -/
def sampleParseDate (s : String) : Option Int :=
  if s = "2020-01-01T00:00" then some 1577836800000
  else if s = "2030-01-01T00:00" then some 1893456000000
  else none

/-- A filled form with a deadline in 2030. -/
def sampleForm : FormData :=
  { title := " New Task ", description := "Task description", category := "urgent",
    deadline := "2030-01-01T00:00" }

/-- A pending task `{ id, deadline }`. -/
def deadlineTask (n : Int) (deadline : Int) : Task :=
  [("id", Value.num n), ("deadline", Value.num deadline), ("completed", Value.bool false)]

/-- A date constructor on time values: `new Date(n)` has time value `n`. -/
def timeValue : Value → Option Int
  | Value.num n => some n
  | _ => none

/-- The service with no reminder. -/
def noReminders : NotificationService :=
  { reminders := [], timeouts := [], nextTimeout := 1 }

/-- Reminders scheduled, half an hour ahead of their deadlines, for the tasks of
id 1 and 10 (two of the ids `apiService.getTasks` returns). -/
def remindersFor1And10 : NotificationService :=
  scheduleReminder timeValue 0 (deadlineTask 10 1800000)
    (scheduleReminder timeValue 0 (deadlineTask 1 1800000) noReminders)

/-- An urgent task created at time 0, without deadline. -/
def createdTask : Task :=
  [("id", Value.num 1), ("title", Value.str "Fix bug"), ("description", Value.str ""),
   ("category", Value.str "urgent"), ("createdAt", Value.num 0)]

/-- Forty work tasks, the first 23 of them completed. -/
def fortyTasks : List Task :=
  List.replicate 23 [("category", Value.str "work"), ("completed", Value.bool true)]
    ++ List.replicate 17 [("category", Value.str "work"), ("completed", Value.bool false)]

/-- An urgent task without deadline whose title has a complex word. -/
def developTask : Task :=
  [("id", Value.num 1), ("title", Value.str "Develop the report"),
   ("description", Value.str ""), ("category", Value.str "urgent")]

/-- A history of eight tasks, seven of them completed. -/
def sevenOfEight : List Task :=
  List.replicate 7 [("completed", Value.bool true)] ++ [[("completed", Value.bool false)]]

/-- A task whose category is the name of a property every object inherits. -/
def constructorTask : Task :=
  [("id", Value.num 1), ("title", Value.str "Fix bug"), ("description", Value.str ""),
   ("category", Value.str "constructor")]

/-- Two tasks of the category `__proto__` created at time 0, one of them completed,
none with a deadline. -/
def protoTasks : List Task :=
  [[("id", Value.num 1), ("category", Value.str "__proto__"), ("completed", Value.bool true),
    ("createdAt", Value.num 0)],
   [("id", Value.num 2), ("category", Value.str "__proto__"), ("completed", Value.bool false),
    ("createdAt", Value.num 0)]]

/-! ## Lemmas on the merge -/

theorem find_id_eq_none (l : List Task) (v : Value) :
    l.find? (fun task => decide (Task.id task = v)) = none ↔ v ∉ l.map Task.id := by
  induction l with
  | nil => simp
  | cons a l ih =>
      by_cases h : Task.id a = v
      · simp [List.find?, h]
      · have h2 : ¬ v = Task.id a := fun e => h e.symm
        simp [List.find?, h, h2, ih]

theorem mergeTasks_cons (l : List Task) (r : Task) (rest : List Task) :
    mergeTasks l (r :: rest)
      = if Task.id r ∈ l.map Task.id then mergeTasks l rest
        else mergeTasks (l ++ [r]) rest := by
  unfold mergeTasks
  rw [List.foldl_cons]
  by_cases h : Task.id r ∈ l.map Task.id
  · rw [if_pos h]
    cases hf : l.find? (fun task => decide (Task.id task = Task.id r)) with
    | none => exact absurd h ((find_id_eq_none l (Task.id r)).mp hf)
    | some t => rfl
  · rw [if_neg h, (find_id_eq_none l (Task.id r)).mpr h]

theorem mergeTasks_eq (l remote : List Task) :
    mergeTasks l remote = l ++ newById (l.map Task.id) remote := by
  induction remote generalizing l with
  | nil => simp [mergeTasks, newById]
  | cons r rest ih =>
      rw [mergeTasks_cons]
      by_cases h : Task.id r ∈ l.map Task.id
      · rw [if_pos h, ih, newById, if_pos h]
      · rw [if_neg h, ih, newById, if_neg h]
        simp

theorem newById_of_nodup (seen : List Value) (remote : List Task)
    (h : (remote.map Task.id).Nodup) :
    newById seen remote = remote.filter (fun r => decide (Task.id r ∉ seen)) := by
  induction remote generalizing seen with
  | nil => simp [newById]
  | cons r rest ih =>
      rw [List.map_cons, List.nodup_cons] at h
      by_cases hs : Task.id r ∈ seen
      · rw [newById, if_pos hs, ih seen h.2]
        simp [List.filter_cons, hs]
      · rw [newById, if_neg hs, ih _ h.2]
        have hf : rest.filter (fun x => decide (Task.id x ∉ seen ++ [Task.id r]))
            = rest.filter (fun x => decide (Task.id x ∉ seen)) := by
          apply List.filter_congr
          intro x hx
          have hne : Task.id x ≠ Task.id r := fun e =>
            h.1 (e ▸ List.mem_map_of_mem Task.id hx)
          simp [hne]
        rw [hf]
        simp [List.filter_cons, hs]

theorem newById_sound (seen : List Value) (remote : List Task) :
    ∀ t ∈ newById seen remote, t ∈ remote ∧ Task.id t ∉ seen := by
  induction remote generalizing seen with
  | nil => simp [newById]
  | cons r rest ih =>
      intro t ht
      by_cases hs : Task.id r ∈ seen
      · rw [newById, if_pos hs] at ht
        exact ⟨List.mem_cons_of_mem _ (ih seen t ht).1, (ih seen t ht).2⟩
      · rw [newById, if_neg hs, List.mem_cons] at ht
        rcases ht with rfl | ht
        · exact ⟨List.mem_cons_self _ _, hs⟩
        · refine ⟨List.mem_cons_of_mem _ (ih _ t ht).1, fun hm => (ih _ t ht).2 ?_⟩
          exact List.mem_append_left _ hm

theorem startup_resolved (local0 remote : List Task) :
    startup local0 (Remote.resolved remote)
      = { tasks := mergeTasks local0 remote, localTasks := mergeTasks local0 remote,
          loading := false, error := none } := by
  simp [startup, startupCalls, loadTasks, mount, exec, Setter.apply, writeLocalStore,
    syncLocalEffect]

/-! ## Lemmas on object spread -/

theorem lookup_spread_left (t u : Obj) (k : String) :
    List.lookup k (t.map (fun p => (p.1, match List.lookup p.1 u with
                                         | some v => v
                                         | none => p.2)))
      = match List.lookup k t with
        | some v => some (match List.lookup k u with
                          | some w => w
                          | none => v)
        | none => none := by
  induction t with
  | nil => rfl
  | cons p t ih =>
      obtain ⟨k2, v⟩ := p
      by_cases h : k = k2
      · subst h
        simp [List.lookup_cons]
      · have hb : (k == k2) = false := by simpa using h
        simp only [List.map_cons, List.lookup_cons, hb, ih]

theorem lookup_spread_right (t u : Obj) (k : String) :
    List.lookup k (u.filter (fun p => !(Obj.has t p.1)))
      = if Obj.has t k then none else List.lookup k u := by
  induction u with
  | nil => simp
  | cons p u ih =>
      obtain ⟨k2, v⟩ := p
      by_cases h : k = k2
      · subst h
        cases ht : Obj.has t k <;> simp [List.filter_cons, ht, ih, List.lookup_cons]
      · have hb : (k == k2) = false := by simpa using h
        cases ht : Obj.has t k2 <;> simp [List.filter_cons, ht, ih, List.lookup_cons, hb]

theorem lookup_spread (t u : Obj) (k : String) :
    List.lookup k (Obj.spread t u)
      = match List.lookup k u with
        | some w => some w
        | none => List.lookup k t := by
  rw [Obj.spread, List.lookup_append, lookup_spread_left, lookup_spread_right]
  cases ht : List.lookup k t <;> cases hu : List.lookup k u <;> simp [Obj.has, ht]

theorem spread_get (t u : Obj) (k : String) :
    Obj.get (Obj.spread t u) k = if Obj.has u k then Obj.get u k else Obj.get t k := by
  unfold Obj.get Obj.has
  rw [lookup_spread]
  cases hu : List.lookup k u <;> simp

theorem spread_has (t u : Obj) (k : String) :
    Obj.has (Obj.spread t u) k = (Obj.has t k || Obj.has u k) := by
  unfold Obj.has
  rw [lookup_spread]
  cases hu : List.lookup k u <;> cases ht : List.lookup k t <;> simp

/-! ## Lemmas on traces -/

theorem trace_loading (s : State) (calls : List Setter)
    (h : ∀ b, Setter.setLoading b ∉ calls) :
    ∀ st ∈ trace s calls, st.loading = s.loading := by
  induction calls generalizing s with
  | nil =>
      intro st hst
      simp [trace] at hst
      rw [hst]
  | cons c calls ih =>
      intro st hst
      rw [trace, List.mem_cons] at hst
      rcases hst with rfl | hst
      · rfl
      · have hc : (Setter.apply s c).loading = s.loading := by
          cases c with
          | setLoading b => exact absurd (List.mem_cons_self _ _) (h b)
          | setTasks l => rfl
          | setLocalTasks l => rfl
          | setError e => rfl
        rw [← hc]
        exact ih _ (fun b hb => h b (List.mem_cons_of_mem _ hb)) st hst

/-! ## Startup merge: claims C1 and C2 -/

/-- C1, as stated, fails: with an empty local list and a remote list carrying the
id 1 twice, the task list after startup is not the local list followed by all
remote tasks whose id is absent from the local list (only the first is pushed). -/
theorem C1_merge_not_spec_filter :
    ¬ ∀ local0 remote : List Task,
        (startup local0 (Remote.resolved remote)).tasks = mergeBySpec local0 remote := by
  intro h
  have h1 := h [] [sampleTask 1 "a", sampleTask 1 "b"]
  revert h1
  decide

/-- C1, amended: after a successful startup fetch the task list and the persisted
list both equal the local list followed by those remote tasks, in remote order,
whose id occurs neither in the local list nor in an earlier remote task; when the
remote ids are pairwise distinct this is the local list followed by exactly the
remote tasks whose id does not occur in the local list. -/
theorem C1_startup_merge (local0 remote : List Task) :
    (startup local0 (Remote.resolved remote)).tasks
        = local0 ++ newById (local0.map Task.id) remote ∧
    (startup local0 (Remote.resolved remote)).localTasks
        = local0 ++ newById (local0.map Task.id) remote ∧
    ((remote.map Task.id).Nodup →
      (startup local0 (Remote.resolved remote)).tasks = mergeBySpec local0 remote ∧
      (startup local0 (Remote.resolved remote)).localTasks = mergeBySpec local0 remote) := by
  rw [startup_resolved]
  refine ⟨mergeTasks_eq _ _, mergeTasks_eq _ _, fun h => ?_⟩
  have e : mergeTasks local0 remote = mergeBySpec local0 remote := by
    rw [mergeTasks_eq, newById_of_nodup _ _ h, mergeBySpec]
  exact ⟨e, e⟩

/-- C1 at the example P2 of the specification: local `[{id:1, local edit}]`, remote
`[{id:1, remote version}, {id:2, remote only}]`. -/
theorem C1_startup_merge_witness :
    ([sampleTask 1 "remote version", sampleTask 2 "remote only"].map Task.id).Nodup ∧
    (startup [sampleTask 1 "local edit"]
        (Remote.resolved [sampleTask 1 "remote version", sampleTask 2 "remote only"])).tasks
      = [sampleTask 1 "local edit", sampleTask 2 "remote only"] :=
  ⟨by decide,
   ((C1_startup_merge [sampleTask 1 "local edit"]
      [sampleTask 1 "remote version", sampleTask 2 "remote only"]).2.2 (by decide)).1.trans
     (by decide)⟩

/-- C2: the list produced by the startup merge starts with the local list, every
local task unchanged at its position, and what follows the local list consists of
remote tasks whose id differs from the id of every local task. -/
theorem C2_merge_keeps_local (local0 remote : List Task) :
    local0 <+: (startup local0 (Remote.resolved remote)).tasks ∧
    (startup local0 (Remote.resolved remote)).tasks.take local0.length = local0 ∧
    (startup local0 (Remote.resolved remote)).tasks
      = local0 ++ (startup local0 (Remote.resolved remote)).tasks.drop local0.length ∧
    ∀ t ∈ (startup local0 (Remote.resolved remote)).tasks.drop local0.length,
      t ∈ remote ∧ ∀ l ∈ local0, Task.id l ≠ Task.id t := by
  rw [startup_resolved]
  simp only [mergeTasks_eq, List.take_left, List.drop_left]
  refine ⟨List.prefix_append _ _, trivial, trivial, fun t ht => ?_⟩
  have hs := newById_sound _ _ t ht
  exact ⟨hs.1, fun l hl e => hs.2 (e ▸ List.mem_map_of_mem Task.id hl)⟩

/-! ## Mutations: claims C3 to C7 -/

/-- C3: addTask(t), invoked in any state, sets the in-memory list and the persisted
list to the old list with t appended last, already before the remote call is
awaited and whatever its outcome; the earlier tasks keep value and position. -/
theorem C3_addTask_appends (s : State) (t : Task) (remote : Remote Unit) :
    ((addTask s.tasks t remote).atAwait s).tasks = s.tasks ++ [t] ∧
    ((addTask s.tasks t remote).atAwait s).localTasks = s.tasks ++ [t] ∧
    ((addTask s.tasks t remote).final s).tasks = s.tasks ++ [t] ∧
    ((addTask s.tasks t remote).final s).localTasks = s.tasks ++ [t] ∧
    ((addTask s.tasks t remote).final s).tasks.take s.tasks.length = s.tasks ∧
    ((addTask s.tasks t remote).final s).tasks.getLast? = some t := by
  cases remote <;>
    simp [addTask, Run.atAwait, Run.final, exec, Setter.apply, writeLocalStore,
      syncLocalEffect]

/-- C4: for addTask, updateTask and deleteTask, in every state and for every
argument, the run whose remote call fails ends in the state of the run whose
remote call succeeds except for `error`: empty after success, the
"Failed to sync with server. ..." message of the operation after failure. -/
theorem C4_remote_outcome_only_changes_error (s : State) (t : Task) (taskId : Value)
    (updates : Obj) :
    (((addTask s.tasks t (Remote.resolved ())).final s).error = none ∧
      (addTask s.tasks t Remote.rejected).final s
        = { (addTask s.tasks t (Remote.resolved ())).final s with
            error := some "Failed to sync with server. Task saved locally." }) ∧
    (((updateTask s.tasks taskId updates (Remote.resolved ())).final s).error = none ∧
      (updateTask s.tasks taskId updates Remote.rejected).final s
        = { (updateTask s.tasks taskId updates (Remote.resolved ())).final s with
            error := some "Failed to sync with server. Changes saved locally." }) ∧
    (((deleteTask s.tasks taskId (Remote.resolved ())).final s).error = none ∧
      (deleteTask s.tasks taskId Remote.rejected).final s
        = { (deleteTask s.tasks taskId (Remote.resolved ())).final s with
            error := some "Failed to sync with server. Task deleted locally." }) := by
  refine ⟨?_, ?_, ?_⟩
  · simp [addTask, Run.final, exec, Setter.apply, writeLocalStore, syncLocalEffect]
  · cases hq : isQuickUpdate updates <;>
      simp [updateTask, hq, Run.final, exec, Setter.apply, writeLocalStore, syncLocalEffect]
  · simp [deleteTask, Run.final, exec, Setter.apply, writeLocalStore, syncLocalEffect]

/-- C5: updateTask(i, u) yields, in memory and in the store, a list of the same
length in which position j holds the old task of position j, replaced by its
spread with u when its id is i and untouched otherwise; the spread reads every
key u has from u and every other key from the old task, and has no further key. -/
theorem C5_updateTask_replaces_matching (s : State) (taskId : Value) (updates : Obj)
    (remote : Remote Unit) :
    ((updateTask s.tasks taskId updates remote).final s).localTasks
        = ((updateTask s.tasks taskId updates remote).final s).tasks ∧
    ((updateTask s.tasks taskId updates remote).final s).tasks.length = s.tasks.length ∧
    (∀ j : Nat, ((updateTask s.tasks taskId updates remote).final s).tasks[j]?
        = (s.tasks[j]?).map
            (fun task => if Task.id task = taskId then Obj.spread task updates else task)) ∧
    (∀ (task : Task) (k : String),
        Obj.get (Obj.spread task updates) k
          = if Obj.has updates k then Obj.get updates k else Obj.get task k) ∧
    (∀ (task : Task) (k : String),
        Obj.has (Obj.spread task updates) k = (Obj.has task k || Obj.has updates k)) := by
  have ht : ((updateTask s.tasks taskId updates remote).final s).tasks
      = applyUpdate s.tasks taskId updates := by
    cases remote <;> cases hq : isQuickUpdate updates <;>
      simp [updateTask, hq, Run.final, exec, Setter.apply, writeLocalStore, syncLocalEffect]
  have hl : ((updateTask s.tasks taskId updates remote).final s).localTasks
      = applyUpdate s.tasks taskId updates := by
    cases remote <;> cases hq : isQuickUpdate updates <;>
      simp [updateTask, hq, Run.final, exec, Setter.apply, writeLocalStore, syncLocalEffect]
  rw [ht, hl]
  refine ⟨rfl, ?_, ?_, fun task k => spread_get task updates k,
    fun task k => spread_has task updates k⟩
  · simp [applyUpdate]
  · intro j
    simp [applyUpdate, List.getElem?_map]

/-- C6: deleteTask(i) sets the in-memory and the persisted list, already before the
remote call is awaited and whatever its outcome, to the old list without the
tasks of id i, the others in their original order; no task of id i remains. -/
theorem C6_deleteTask_removes (s : State) (taskId : Value) (remote : Remote Unit) :
    ((deleteTask s.tasks taskId remote).atAwait s).tasks
        = s.tasks.filter (fun task => decide (Task.id task ≠ taskId)) ∧
    ((deleteTask s.tasks taskId remote).final s).tasks
        = s.tasks.filter (fun task => decide (Task.id task ≠ taskId)) ∧
    ((deleteTask s.tasks taskId remote).final s).localTasks
        = s.tasks.filter (fun task => decide (Task.id task ≠ taskId)) ∧
    (∀ task ∈ ((deleteTask s.tasks taskId remote).final s).tasks, Task.id task ≠ taskId) ∧
    (∀ task ∈ s.tasks, Task.id task ≠ taskId →
        task ∈ ((deleteTask s.tasks taskId remote).final s).tasks) ∧
    List.Sublist ((deleteTask s.tasks taskId remote).final s).tasks s.tasks := by
  have ht : ((deleteTask s.tasks taskId remote).final s).tasks
      = s.tasks.filter (fun task => decide (Task.id task ≠ taskId)) := by
    cases remote <;>
      simp [deleteTask, Run.final, exec, Setter.apply, writeLocalStore, syncLocalEffect]
  have hl : ((deleteTask s.tasks taskId remote).final s).localTasks
      = s.tasks.filter (fun task => decide (Task.id task ≠ taskId)) := by
    cases remote <;>
      simp [deleteTask, Run.final, exec, Setter.apply, writeLocalStore, syncLocalEffect]
  have ha : ((deleteTask s.tasks taskId remote).atAwait s).tasks
      = s.tasks.filter (fun task => decide (Task.id task ≠ taskId)) := by
    simp [deleteTask, Run.atAwait, exec, Setter.apply, writeLocalStore, syncLocalEffect]
  rw [ht, hl, ha]
  refine ⟨rfl, rfl, rfl, ?_, ?_, List.filter_sublist _⟩
  · intro task h
    simpa using (List.mem_filter.mp h).2
  · intro task h hne
    exact List.mem_filter.mpr ⟨h, by simpa using hne⟩

/-- C7: syncWithServer ends, when the fetch succeeds, with the in-memory and the
persisted list both equal to the remote list, no error and loading false; when
the fetch fails, with both lists as they were and `error` set to
"Failed to sync with server.". -/
theorem C7_syncWithServer_overwrites (s : State) (serverTasks : List Task) :
    (syncWithServer (Remote.resolved serverTasks)).final s
        = { tasks := serverTasks, localTasks := serverTasks, loading := false,
            error := none } ∧
    (syncWithServer Remote.rejected).final s
        = { tasks := s.tasks, localTasks := s.localTasks, loading := false,
            error := some "Failed to sync with server." } := by
  simp [syncWithServer, Run.final, exec, Setter.apply, writeLocalStore, syncLocalEffect]

/-! ## The loading flag: claims C8 and C9 -/

/-- C8: with at most 2 keys in the update, every state updateTask passes through
has the `loading` it was invoked with; with more than 2 keys, `loading` is true
when the remote call is awaited and false once the call has settled, whatever
its outcome. -/
theorem C8_quick_update_loading (s : State) (taskId : Value) (updates : Obj)
    (remote : Remote Unit) :
    ((Obj.keys updates).length ≤ 2 →
        ∀ st ∈ (updateTask s.tasks taskId updates remote).states s,
          st.loading = s.loading) ∧
    (2 < (Obj.keys updates).length →
        ((updateTask s.tasks taskId updates remote).atAwait s).loading = true ∧
        ((updateTask s.tasks taskId updates remote).final s).loading = false) := by
  constructor
  · intro h st hst
    have hq : isQuickUpdate updates = true := by simpa [isQuickUpdate] using h
    refine trace_loading s _ ?_ st hst
    intro b
    cases remote <;> simp [updateTask, hq]
  · intro h
    have hq : isQuickUpdate updates = false := by simpa [isQuickUpdate] using h
    cases remote <;>
      simp [updateTask, hq, Run.atAwait, Run.final, exec, Setter.apply, writeLocalStore,
        syncLocalEffect]

/-- C8 at `{ completed: true }` and at a three-field update, from the state of a
fresh mount with one task. -/
theorem C8_quick_update_loading_witness :
    ((Obj.keys toggleUpdate).length ≤ 2 ∧
      ∀ st ∈ (updateTask (mount [sampleTask 1 "a"]).tasks (Value.num 1) toggleUpdate
                Remote.rejected).states (mount [sampleTask 1 "a"]),
        st.loading = false) ∧
    (2 < (Obj.keys formUpdate).length ∧
      ((updateTask (mount [sampleTask 1 "a"]).tasks (Value.num 1) formUpdate
          Remote.rejected).atAwait (mount [sampleTask 1 "a"])).loading = true ∧
      ((updateTask (mount [sampleTask 1 "a"]).tasks (Value.num 1) formUpdate
          Remote.rejected).final (mount [sampleTask 1 "a"])).loading = false) :=
  ⟨⟨by decide,
    (C8_quick_update_loading (mount [sampleTask 1 "a"]) (Value.num 1) toggleUpdate
      Remote.rejected).1 (by decide)⟩,
   ⟨by decide,
    (C8_quick_update_loading (mount [sampleTask 1 "a"]) (Value.num 1) formUpdate
      Remote.rejected).2 (by decide)⟩⟩

/-- C9, as stated, fails: a quick update invoked while `loading` is true (another
operation being in flight) and whose remote call fails completes with `loading`
still true. -/
theorem C9_quick_update_keeps_loading_true :
    ¬ ∀ (s : State) (taskId : Value) (updates : Obj),
        ((updateTask s.tasks taskId updates Remote.rejected).final s).loading = false := by
  intro h
  have h1 := h busyState (Value.num 1) toggleUpdate
  revert h1
  decide

/-- C9, amended: once an updateTask whose remote call fails has completed,
`loading` is false for an update of more than 2 keys, and for an update of at
most 2 keys it is what it was when updateTask was invoked; so it is false in
both cases when it was false at invocation. -/
theorem C9_failed_update_loading (s : State) (taskId : Value) (updates : Obj) :
    (2 < (Obj.keys updates).length →
        ((updateTask s.tasks taskId updates Remote.rejected).final s).loading = false) ∧
    ((Obj.keys updates).length ≤ 2 →
        ((updateTask s.tasks taskId updates Remote.rejected).final s).loading = s.loading) ∧
    (s.loading = false →
        ((updateTask s.tasks taskId updates Remote.rejected).final s).loading = false) := by
  cases hq : isQuickUpdate updates
  · have hk : 2 < (Obj.keys updates).length := by simpa [isQuickUpdate] using hq
    have hf : ((updateTask s.tasks taskId updates Remote.rejected).final s).loading
        = false := by
      simp [updateTask, hq, Run.final, exec, Setter.apply, writeLocalStore, syncLocalEffect]
    exact ⟨fun _ => hf, fun h => absurd hk (not_lt.mpr h), fun _ => hf⟩
  · have hk : (Obj.keys updates).length ≤ 2 := by simpa [isQuickUpdate] using hq
    have hf : ((updateTask s.tasks taskId updates Remote.rejected).final s).loading
        = s.loading := by
      simp [updateTask, hq, Run.final, exec, Setter.apply, writeLocalStore, syncLocalEffect]
    exact ⟨fun h => absurd hk (not_le.mpr h), fun _ => hf, fun h => hf.trans h⟩

/-- C9, amended, at a failing three-field update and a failing completion toggle,
both invoked from the state of a fresh mount. -/
theorem C9_failed_update_loading_witness :
    (2 < (Obj.keys formUpdate).length ∧
      ((updateTask (mount [sampleTask 1 "a"]).tasks (Value.num 1) formUpdate
          Remote.rejected).final (mount [sampleTask 1 "a"])).loading = false) ∧
    ((Obj.keys toggleUpdate).length ≤ 2 ∧ (mount [sampleTask 1 "a"]).loading = false ∧
      ((updateTask (mount [sampleTask 1 "a"]).tasks (Value.num 1) toggleUpdate
          Remote.rejected).final (mount [sampleTask 1 "a"])).loading = false) :=
  ⟨⟨by decide,
    (C9_failed_update_loading (mount [sampleTask 1 "a"]) (Value.num 1) formUpdate).1
      (by decide)⟩,
   ⟨by decide, rfl,
    (C9_failed_update_loading (mount [sampleTask 1 "a"]) (Value.num 1) toggleUpdate).2.2
      rfl⟩⟩

/-! ## Startup failure: claim C10 -/

/-- C10: when the startup fetch fails, the state after startup has the task list
and the persisted list equal to the local list read at mount, `error` equal to
"Failed to sync with server. Using local data." and `loading` false, and no
call of the startup writes the persisted list. -/
theorem C10_startup_fetch_failure (local0 : List Task) :
    startup local0 Remote.rejected
        = { tasks := local0, localTasks := local0, loading := false,
            error := some "Failed to sync with server. Using local data." } ∧
    ∀ l : List Task, Setter.setLocalTasks l ∉ startupCalls local0 Remote.rejected := by
  constructor
  · simp [startup, startupCalls, loadTasks, mount, exec, Setter.apply]
  · intro l
    simp [startupCalls, loadTasks]

/-! ## Lemmas on the final state of the mutations -/

theorem addTask_final (snap : List Task) (t : Task) (remote : Remote Unit) (s : State) :
    (addTask snap t remote).final s
      = { tasks := snap ++ [t], localTasks := snap ++ [t], loading := false,
          error := match remote with
            | Remote.resolved _ => none
            | Remote.rejected => some "Failed to sync with server. Task saved locally." } := by
  cases remote <;>
    simp [addTask, Run.final, exec, Setter.apply, writeLocalStore, syncLocalEffect]

theorem updateTask_final (snap : List Task) (taskId : Value) (updates : Obj)
    (remote : Remote Unit) (s : State) :
    (updateTask snap taskId updates remote).final s
      = { tasks := applyUpdate snap taskId updates,
          localTasks := applyUpdate snap taskId updates,
          loading := if isQuickUpdate updates then s.loading else false,
          error := match remote with
            | Remote.resolved _ => none
            | Remote.rejected => some "Failed to sync with server. Changes saved locally." } := by
  cases remote <;> cases hq : isQuickUpdate updates <;>
    simp [updateTask, hq, Run.final, exec, Setter.apply, writeLocalStore, syncLocalEffect]

theorem deleteTask_final (snap : List Task) (taskId : Value) (remote : Remote Unit)
    (s : State) :
    (deleteTask snap taskId remote).final s
      = { tasks := snap.filter (fun task => decide (Task.id task ≠ taskId)),
          localTasks := snap.filter (fun task => decide (Task.id task ≠ taskId)),
          loading := false,
          error := match remote with
            | Remote.resolved _ => none
            | Remote.rejected => some "Failed to sync with server. Task deleted locally." } := by
  cases remote <;>
    simp [deleteTask, Run.final, exec, Setter.apply, writeLocalStore, syncLocalEffect]

theorem syncWithServer_final (remote : Remote (List Task)) (s : State) :
    (syncWithServer remote).final s
      = match remote with
        | Remote.resolved serverTasks =>
            { tasks := serverTasks, localTasks := serverTasks, loading := false,
              error := none }
        | Remote.rejected =>
            { tasks := s.tasks, localTasks := s.localTasks, loading := false,
              error := some "Failed to sync with server." } := by
  cases remote <;>
    simp [syncWithServer, Run.final, exec, Setter.apply, writeLocalStore, syncLocalEffect]

theorem applyUpdate_of_no_match (tasks : List Task) (taskId : Value) (updates : Obj)
    (h : ∀ task ∈ tasks, Task.id task ≠ taskId) :
    applyUpdate tasks taskId updates = tasks := by
  unfold applyUpdate
  conv_rhs => rw [← List.map_id tasks]
  apply List.map_congr_left
  intro task ht
  simp [h task ht]

theorem filter_of_no_match (tasks : List Task) (taskId : Value)
    (h : ∀ task ∈ tasks, Task.id task ≠ taskId) :
    tasks.filter (fun task => decide (Task.id task ≠ taskId)) = tasks := by
  apply List.filter_eq_self.mpr
  intro task ht
  simpa using h task ht

theorem taskToUpdate_of_no_match (tasks : List Task) (taskId : Value) (updates : Obj)
    (h : ∀ task ∈ tasks, Task.id task ≠ taskId) :
    taskToUpdate tasks taskId updates = none := by
  unfold taskToUpdate
  rw [applyUpdate_of_no_match tasks taskId updates h, List.find?_eq_none]
  intro task ht
  simpa using h task ht

/-! ## Unknown ids: claims C11 and C12 -/

/-- C11: when no task of the list has id i and the store holds the in-memory
list, updateTask(i, u) and deleteTask(i) leave the in-memory and the persisted
list as they were, whatever the remote call does, and the promise they return
to the caller resolves (nothing is thrown to the caller). -/
theorem C11_unknown_id_keeps_lists (s : State) (taskId : Value) (updates : Obj)
    (remote response : Remote Unit)
    (hstore : s.localTasks = s.tasks)
    (hid : ∀ task ∈ s.tasks, Task.id task ≠ taskId) :
    ((updateTask s.tasks taskId updates remote).final s).tasks = s.tasks ∧
    ((updateTask s.tasks taskId updates remote).final s).localTasks = s.localTasks ∧
    ((deleteTask s.tasks taskId remote).final s).tasks = s.tasks ∧
    ((deleteTask s.tasks taskId remote).final s).localTasks = s.localTasks ∧
    hookPromise (apiUpdateTask (taskToUpdate s.tasks taskId updates) response)
      = Remote.resolved () ∧
    hookPromise (apiDeleteTask taskId response) = Remote.resolved () := by
  rw [updateTask_final, deleteTask_final, applyUpdate_of_no_match _ _ _ hid,
    filter_of_no_match _ _ hid, taskToUpdate_of_no_match _ _ _ hid, hstore]
  refine ⟨rfl, rfl, rfl, rfl, rfl, ?_⟩
  cases response <;> rfl

/-- C11 at the one-task list `[{id:1}]` and the unknown id 2. -/
theorem C11_unknown_id_keeps_lists_witness :
    ((updateTask [sampleTask 1 "a"] (Value.num 2) toggleUpdate Remote.rejected).final
        (mount [sampleTask 1 "a"])).tasks = [sampleTask 1 "a"] ∧
    ((deleteTask [sampleTask 1 "a"] (Value.num 2) Remote.rejected).final
        (mount [sampleTask 1 "a"])).localTasks = [sampleTask 1 "a"] :=
  have h := C11_unknown_id_keeps_lists (mount [sampleTask 1 "a"]) (Value.num 2) toggleUpdate
    Remote.rejected (Remote.resolved ()) rfl (by decide)
  ⟨h.1, h.2.2.2.1⟩

/-- C12 fails on updateTask: with the list `[{id:1}]`, the unknown id 2 and a remote
source that answers successfully, updateTask leaves both lists unchanged but ends
with `error` set to the sync-failure message, because `apiService.updateTask`
receives `undefined` as its task; so it does for every list without the id and
every update.  deleteTask on the same input ends with `error` empty. -/
theorem C12_unknown_id_update_sets_error :
    (updateTaskViaApi (mount [sampleTask 1 "a"]).tasks (Value.num 2) toggleUpdate
        (Remote.resolved ())).final (mount [sampleTask 1 "a"])
      = { tasks := [sampleTask 1 "a"], localTasks := [sampleTask 1 "a"], loading := false,
          error := some "Failed to sync with server. Changes saved locally." } ∧
    ((deleteTaskViaApi (mount [sampleTask 1 "a"]).tasks (Value.num 2)
        (Remote.resolved ())).final (mount [sampleTask 1 "a"])).error = none ∧
    (∀ (s : State) (taskId : Value) (updates : Obj),
      (∀ task ∈ s.tasks, Task.id task ≠ taskId) →
      ((updateTaskViaApi s.tasks taskId updates (Remote.resolved ())).final s).error
        = some "Failed to sync with server. Changes saved locally.") := by
  refine ⟨by decide, by decide, fun s taskId updates h => ?_⟩
  rw [updateTaskViaApi, updateTask_final, taskToUpdate_of_no_match _ _ _ h]
  rfl

/-! ## Lemmas on ids -/

theorem newById_nodup (seen : List Value) (remote : List Task) (h : seen.Nodup) :
    (seen ++ (newById seen remote).map Task.id).Nodup := by
  induction remote generalizing seen with
  | nil => simpa [newById] using h
  | cons r rest ih =>
      by_cases hs : Task.id r ∈ seen
      · rw [newById, if_pos hs]
        exact ih seen h
      · rw [newById, if_neg hs]
        have h2 : (seen ++ [Task.id r]).Nodup := by
          rw [List.nodup_append]
          refine ⟨h, List.nodup_singleton _, ?_⟩
          intro a ha hb
          rw [List.mem_singleton] at hb
          exact hs (hb ▸ ha)
        have h3 := ih (seen ++ [Task.id r]) h2
        simpa [List.append_assoc] using h3

theorem mergeTasks_ids_nodup (local0 remote : List Task)
    (h : (local0.map Task.id).Nodup) :
    ((mergeTasks local0 remote).map Task.id).Nodup := by
  rw [mergeTasks_eq, List.map_append]
  exact newById_nodup _ _ h

theorem spread_keeps_id (task : Task) (updates : Obj) (h : Obj.has updates "id" = false) :
    Task.id (Obj.spread task updates) = Task.id task := by
  unfold Task.id
  rw [spread_get, h]
  rfl

theorem applyUpdate_ids (tasks : List Task) (taskId : Value) (updates : Obj)
    (h : Obj.has updates "id" = false) :
    (applyUpdate tasks taskId updates).map Task.id = tasks.map Task.id := by
  unfold applyUpdate
  rw [List.map_map]
  apply List.map_congr_left
  intro task _
  by_cases hm : Task.id task = taskId
  · simp only [Function.comp, hm, if_true]
    rw [spread_keeps_id task updates h, hm]
  · simp [Function.comp, hm]

theorem filter_ids_nodup (tasks : List Task) (p : Task → Bool)
    (h : (tasks.map Task.id).Nodup) : ((tasks.filter p).map Task.id).Nodup :=
  List.Nodup.sublist (List.Sublist.map Task.id (List.filter_sublist tasks)) h

theorem append_ids_nodup (tasks : List Task) (t : Task) (h : (tasks.map Task.id).Nodup) :
    ((tasks ++ [t]).map Task.id).Nodup ↔ Task.id t ∉ tasks.map Task.id := by
  rw [List.map_append, List.nodup_append]
  constructor
  · intro hn hm
    exact hn.2.2 hm (by simp)
  · intro hn
    refine ⟨h, by simp, ?_⟩
    intro a ha hb
    simp only [List.map_cons, List.map_nil, List.mem_singleton] at hb
    exact hn (hb ▸ ha)

/-! ## Invariants: claims C13 and C14 -/

/-- C13, as stated, fails: adding a task whose id is already in a list of pairwise
distinct ids leaves a list with that id twice. -/
theorem C13_addTask_can_duplicate_id :
    ¬ ∀ (s : State) (t : Task) (remote : Remote Unit),
        (s.tasks.map Task.id).Nodup → (s.localTasks.map Task.id).Nodup →
        (((addTask s.tasks t remote).final s).tasks.map Task.id).Nodup := by
  intro h
  have h1 := h (mount [sampleTask 1 "a"]) (sampleTask 1 "b") (Remote.resolved ())
    (by decide) (by decide)
  revert h1
  decide

/-- C13, amended: starting from lists of pairwise distinct ids, both lists have
pairwise distinct ids after the startup merge and after deleteTask, for every
argument and remote response; after updateTask when the update has no `id` key;
after addTask exactly when the id of the new task is not in the list; after
syncWithServer exactly when the fetched list has pairwise distinct ids, or when
the fetch fails. -/
theorem C13_id_uniqueness_preserved (s : State) (local0 : List Task) (t : Task)
    (taskId : Value) (updates : Obj) (remote : Remote Unit)
    (fetched : Remote (List Task)) (serverTasks : List Task)
    (hs : (s.tasks.map Task.id).Nodup) (hp : (s.localTasks.map Task.id).Nodup)
    (hl : (local0.map Task.id).Nodup) :
    (((startup local0 fetched).tasks.map Task.id).Nodup ∧
      ((startup local0 fetched).localTasks.map Task.id).Nodup) ∧
    ((((deleteTask s.tasks taskId remote).final s).tasks.map Task.id).Nodup ∧
      (((deleteTask s.tasks taskId remote).final s).localTasks.map Task.id).Nodup) ∧
    (Obj.has updates "id" = false →
      (((updateTask s.tasks taskId updates remote).final s).tasks.map Task.id).Nodup ∧
      (((updateTask s.tasks taskId updates remote).final s).localTasks.map Task.id).Nodup) ∧
    (((((addTask s.tasks t remote).final s).tasks.map Task.id).Nodup
        ↔ Task.id t ∉ s.tasks.map Task.id) ∧
      ((((addTask s.tasks t remote).final s).localTasks.map Task.id).Nodup
        ↔ Task.id t ∉ s.tasks.map Task.id)) ∧
    (((((syncWithServer (Remote.resolved serverTasks)).final s).tasks.map Task.id).Nodup
        ↔ (serverTasks.map Task.id).Nodup) ∧
      ((((syncWithServer (Remote.resolved serverTasks)).final s).localTasks.map
          Task.id).Nodup ↔ (serverTasks.map Task.id).Nodup)) ∧
    ((((syncWithServer Remote.rejected).final s).tasks.map Task.id).Nodup ∧
      (((syncWithServer Remote.rejected).final s).localTasks.map Task.id).Nodup) := by
  refine ⟨?_, ?_, ?_, ?_, ?_, ?_⟩
  · cases fetched with
    | resolved apiTasks =>
        rw [startup_resolved]
        exact ⟨mergeTasks_ids_nodup _ _ hl, mergeTasks_ids_nodup _ _ hl⟩
    | rejected =>
        simpa [startup, startupCalls, loadTasks, mount, exec, Setter.apply] using hl
  · rw [deleteTask_final]
    exact ⟨filter_ids_nodup _ _ hs, filter_ids_nodup _ _ hs⟩
  · intro hu
    rw [updateTask_final]
    simp only [applyUpdate_ids _ _ _ hu]
    exact ⟨hs, hs⟩
  · rw [addTask_final]
    exact ⟨append_ids_nodup _ _ hs, append_ids_nodup _ _ hs⟩
  · rw [syncWithServer_final]
    exact ⟨Iff.rfl, Iff.rfl⟩
  · rw [syncWithServer_final]
    exact ⟨hs, hp⟩

/-- C13, amended, at the state of a fresh mount with the task of id 1, the new task
of id 2 and the toggle update. -/
theorem C13_id_uniqueness_preserved_witness :
    (((addTask [sampleTask 1 "a"] (sampleTask 2 "b") Remote.rejected).final
        (mount [sampleTask 1 "a"])).tasks.map Task.id).Nodup ∧
    (((updateTask [sampleTask 1 "a"] (Value.num 1) toggleUpdate Remote.rejected).final
        (mount [sampleTask 1 "a"])).tasks.map Task.id).Nodup :=
  have h := C13_id_uniqueness_preserved (mount [sampleTask 1 "a"]) [sampleTask 1 "a"]
    (sampleTask 2 "b") (Value.num 1) toggleUpdate Remote.rejected Remote.rejected []
    (by decide) (by decide) (by decide)
  ⟨h.2.2.2.1.1.mpr (by decide), (h.2.2.1 (by decide)).1⟩

/-- C14: if the persisted list equals the in-memory list before, it equals it
again after startup (fetch succeeding or failing) and after addTask, updateTask,
deleteTask and syncWithServer have completed, for every argument and outcome. -/
theorem C14_store_follows_memory (s : State) (local0 : List Task) (t : Task)
    (taskId : Value) (updates : Obj) (remote : Remote Unit)
    (fetched : Remote (List Task)) (hstore : s.localTasks = s.tasks) :
    (startup local0 fetched).localTasks = (startup local0 fetched).tasks ∧
    ((addTask s.tasks t remote).final s).localTasks
      = ((addTask s.tasks t remote).final s).tasks ∧
    ((updateTask s.tasks taskId updates remote).final s).localTasks
      = ((updateTask s.tasks taskId updates remote).final s).tasks ∧
    ((deleteTask s.tasks taskId remote).final s).localTasks
      = ((deleteTask s.tasks taskId remote).final s).tasks ∧
    ((syncWithServer fetched).final s).localTasks
      = ((syncWithServer fetched).final s).tasks := by
  rw [addTask_final, updateTask_final, deleteTask_final, syncWithServer_final]
  refine ⟨?_, rfl, rfl, rfl, ?_⟩
  · cases fetched with
    | resolved apiTasks => rw [startup_resolved]
    | rejected => simp [startup, startupCalls, loadTasks, mount, exec, Setter.apply]
  · cases fetched with
    | resolved serverTasks => rfl
    | rejected => exact hstore

/-- C14 at the state of a fresh mount, with a failing explicit sync. -/
theorem C14_store_follows_memory_witness :
    ((syncWithServer Remote.rejected).final (mount [sampleTask 1 "a"])).localTasks
      = ((syncWithServer Remote.rejected).final (mount [sampleTask 1 "a"])).tasks :=
  (C14_store_follows_memory (mount [sampleTask 1 "a"]) [] (sampleTask 2 "b") (Value.num 1)
    toggleUpdate Remote.rejected Remote.rejected rfl).2.2.2.2

/-! ## The error slot and the rendered interface: claims C15 and C16 -/

/-- C15: when addTask, updateTask, deleteTask or syncWithServer completes, `error`
is empty if the remote call succeeded and the message of that operation if it
failed, whatever value `error` had before; clearError sets `error` to empty and
changes nothing else. -/
theorem C15_error_is_one_slot (s : State) (before : Option String) (t : Task)
    (taskId : Value) (updates : Obj) (serverTasks : List Task) :
    (((addTask s.tasks t (Remote.resolved ())).final { s with error := before }).error
        = none ∧
      ((addTask s.tasks t Remote.rejected).final { s with error := before }).error
        = some "Failed to sync with server. Task saved locally.") ∧
    (((updateTask s.tasks taskId updates (Remote.resolved ())).final
          { s with error := before }).error = none ∧
      ((updateTask s.tasks taskId updates Remote.rejected).final
          { s with error := before }).error
        = some "Failed to sync with server. Changes saved locally.") ∧
    (((deleteTask s.tasks taskId (Remote.resolved ())).final
          { s with error := before }).error = none ∧
      ((deleteTask s.tasks taskId Remote.rejected).final { s with error := before }).error
        = some "Failed to sync with server. Task deleted locally.") ∧
    (((syncWithServer (Remote.resolved serverTasks)).final
          { s with error := before }).error = none ∧
      ((syncWithServer Remote.rejected).final { s with error := before }).error
        = some "Failed to sync with server.") ∧
    exec { s with error := before } clearError
      = { tasks := s.tasks, localTasks := s.localTasks, loading := s.loading,
          error := none } := by
  rw [addTask_final, addTask_final, updateTask_final, updateTask_final, deleteTask_final,
    deleteTask_final, syncWithServer_final, syncWithServer_final]
  exact ⟨⟨rfl, rfl⟩, ⟨rfl, rfl⟩, ⟨rfl, rfl⟩, ⟨rfl, rfl⟩, rfl⟩

/-- C16 fails on the code: after a startup whose fetch failed (`loading` false,
`error` set) `App` returns the error div alone, not the shell with the task
views; in every state with `loading` false and a non-empty `error` it returns no
shell; and `clearError` is not among the fields `App` takes from the hook. -/
theorem C16_error_replaces_interface :
    App (startup [sampleTask 1 "a"] Remote.rejected)
      = Element.errorDiv "Failed to sync with server. Using local data." ∧
    (∀ (s : State) (msg : String), s.loading = false → s.error = some msg → msg ≠ "" →
      App s = Element.errorDiv msg) ∧
    "clearError" ∉ appHookFields := by
  refine ⟨by decide, ?_, by decide⟩
  intro s msg hl he hm
  simp [App, hl, he, errorTruthy, hm]

/-! ## Back-to-back additions: claim C17 -/

/-- C17 fails on the code: two addTask calls invoked back to back from one render
end, whatever the remote outcomes and the order in which they settle, with the
old list followed by the second task only, in memory and in the store; the first
task is lost, so the result is never the old list followed by both. -/
theorem C17_second_addTask_overwrites_first (s : State) (t1 t2 : Task)
    (r1 r2 : Remote Unit) :
    (exec s (addTaskTwice s t1 t2 r1 r2)).tasks = s.tasks ++ [t2] ∧
    (exec s (addTaskTwice s t1 t2 r1 r2)).localTasks = s.tasks ++ [t2] ∧
    (exec s (addTaskTwiceSwapped s t1 t2 r1 r2)).tasks = s.tasks ++ [t2] ∧
    (exec s (addTaskTwiceSwapped s t1 t2 r1 r2)).localTasks = s.tasks ++ [t2] ∧
    (exec s (addTaskTwice s t1 t2 r1 r2)).tasks ≠ s.tasks ++ [t1, t2] := by
  cases r1 <;> cases r2 <;>
    simp [addTaskTwice, addTaskTwiceSwapped, addTask, exec, Setter.apply, writeLocalStore,
      syncLocalEffect]

/-! ## Lemmas on property assignment -/

theorem lookup_set (o : Obj) (k : String) (v : Value) (k2 : String) :
    List.lookup k2 (Obj.set o k v) = if k2 = k then some v else List.lookup k2 o := by
  induction o with
  | nil =>
      by_cases h : k2 = k
      · simp [Obj.set, List.lookup_cons, h]
      · have hb : (k2 == k) = false := by simpa using h
        simp [Obj.set, List.lookup_cons, h, hb]
  | cons p o ih =>
      obtain ⟨k3, v3⟩ := p
      by_cases h3 : k3 = k
      · subst h3
        by_cases h : k2 = k3
        · simp [Obj.set, List.lookup_cons, h]
        · have hb : (k2 == k3) = false := by simpa using h
          simp [Obj.set, List.lookup_cons, h, hb]
      · by_cases h : k2 = k3
        · subst h
          simp [Obj.set, List.lookup_cons, h3]
        · have hb : (k2 == k3) = false := by simpa using h
          simp [Obj.set, List.lookup_cons, h3, hb, ih]

theorem get_set (o : Obj) (k : String) (v : Value) (k2 : String) :
    Obj.get (Obj.set o k v) k2 = if k2 = k then v else Obj.get o k2 := by
  unfold Obj.get
  rw [lookup_set]
  by_cases h : k2 = k <;> simp [h]

theorem has_set (o : Obj) (k : String) (v : Value) (k2 : String) :
    Obj.has (Obj.set o k v) k2 = (decide (k2 = k) || Obj.has o k2) := by
  unfold Obj.has
  rw [lookup_set]
  by_cases h : k2 = k <;> simp [h]

theorem get_of_has_false (o : Obj) (k : String) (h : Obj.has o k = false) :
    Obj.get o k = Value.undefined := by
  unfold Obj.has at h
  unfold Obj.get
  cases hl : List.lookup k o with
  | none => rfl
  | some v => simp [hl] at h

theorem has_of_get_bool (o : Obj) (k : String) (b : Bool)
    (h : Obj.get o k = Value.bool b) : Obj.has o k = true := by
  cases hh : Obj.has o k with
  | true => rfl
  | false =>
      rw [get_of_has_false o k hh] at h
      cases h

/-! ## Lemmas on the completion stamp -/

theorem stamp_absent (tasks : List Task) (taskId : Value) (updates : Obj) (nowIso : String)
    (h : Obj.has updates "completed" = false) :
    stampCompletedAt tasks taskId updates nowIso = updates := by
  have hg := get_of_has_false updates "completed" h
  simp [stampCompletedAt, hg, Value.truthy]

theorem stamp_false (tasks : List Task) (taskId : Value) (updates : Obj) (nowIso : String)
    (h : Obj.get updates "completed" = Value.bool false) :
    stampCompletedAt tasks taskId updates nowIso
      = Obj.set updates "completedAt" Value.null := by
  simp [stampCompletedAt, h, Value.truthy]

theorem stamp_true_changed (tasks : List Task) (taskId : Value) (updates : Obj)
    (nowIso : String) (h : Obj.get updates "completed" = Value.bool true)
    (hc : currentCompleted tasks taskId ≠ Value.bool true) :
    stampCompletedAt tasks taskId updates nowIso
      = Obj.set updates "completedAt" (Value.str nowIso) := by
  simp [stampCompletedAt, h, Value.truthy, Ne.symm hc]

theorem stamp_true_same (tasks : List Task) (taskId : Value) (updates : Obj)
    (nowIso : String) (h : Obj.get updates "completed" = Value.bool true)
    (hc : currentCompleted tasks taskId = Value.bool true) :
    stampCompletedAt tasks taskId updates nowIso = updates := by
  simp [stampCompletedAt, h, hc, Value.truthy]

theorem currentCompleted_of_find (tasks : List Task) (taskId : Value) (t : Task)
    (h : tasks.find? (fun x => decide (Task.id x = taskId)) = some t) :
    currentCompleted tasks taskId = Obj.get t "completed" := by
  simp [currentCompleted, h]

/-! ## The handlers: claims C18 to C20 -/

/-- C18: for the task t that handleUpdateTask finds under the id, and an update
without a completedAt field whose completed field is absent or a boolean, the
task put in place of t (t spread over by the stamped update) has completedAt
non-null exactly when completed is true whenever t had (in the sense of a value
being present, and in the strict sense of `!== null`); completedAt is the new
stamp when completed goes to true from not true, is kept when completed was
already true or is not in the update, and is null when the update sets
completed to false. -/
theorem C18_completedAt_follows_completed (tasks : List Task) (taskId : Value)
    (updates : Obj) (nowIso : String) (t : Task)
    (hfind : tasks.find? (fun x => decide (Task.id x = taskId)) = some t)
    (hnoAt : Obj.has updates "completedAt" = false)
    (htyped : Obj.has updates "completed" = false
      ∨ ∃ b, Obj.get updates "completed" = Value.bool b) :
    (∀ (s : State) (remote : Remote Unit),
      ((handleUpdateTask tasks taskId updates nowIso remote).final s).tasks
        = tasks.map (fun task =>
            if Task.id task = taskId
            then Obj.spread task (stampCompletedAt tasks taskId updates nowIso)
            else task)) ∧
    (completedAtSet t = isCompleted t →
      completedAtSet (Obj.spread t (stampCompletedAt tasks taskId updates nowIso))
        = isCompleted (Obj.spread t (stampCompletedAt tasks taskId updates nowIso))) ∧
    (completedAtNotNull t = isCompleted t →
      completedAtNotNull (Obj.spread t (stampCompletedAt tasks taskId updates nowIso))
        = isCompleted (Obj.spread t (stampCompletedAt tasks taskId updates nowIso))) ∧
    (Obj.get updates "completed" = Value.bool true → isCompleted t = false →
      Obj.get (Obj.spread t (stampCompletedAt tasks taskId updates nowIso)) "completedAt"
        = Value.str nowIso) ∧
    (Obj.get updates "completed" = Value.bool true → isCompleted t = true →
      Obj.get (Obj.spread t (stampCompletedAt tasks taskId updates nowIso)) "completedAt"
        = Obj.get t "completedAt") ∧
    (Obj.get updates "completed" = Value.bool false →
      Obj.get (Obj.spread t (stampCompletedAt tasks taskId updates nowIso)) "completedAt"
        = Value.null) ∧
    (Obj.has updates "completed" = false →
      Obj.get (Obj.spread t (stampCompletedAt tasks taskId updates nowIso)) "completedAt"
        = Obj.get t "completedAt") := by
  have hcur := currentCompleted_of_find tasks taskId t hfind
  refine ⟨fun s remote => by rw [handleUpdateTask, updateTask_final]; rfl, ?_⟩
  rcases htyped with habs | ⟨b, hb⟩
  · -- the update does not mention `completed`
    have hg := get_of_has_false updates "completed" habs
    have hAt : Obj.get (Obj.spread t (stampCompletedAt tasks taskId updates nowIso))
        "completedAt" = Obj.get t "completedAt" := by
      rw [stamp_absent _ _ _ _ habs, spread_get, hnoAt]; rfl
    have hC : Obj.get (Obj.spread t (stampCompletedAt tasks taskId updates nowIso))
        "completed" = Obj.get t "completed" := by
      rw [stamp_absent _ _ _ _ habs, spread_get, habs]; rfl
    simp [completedAtSet, completedAtNotNull, isCompleted, hAt, hC, hg]
  · have hhas := has_of_get_bool updates "completed" b hb
    cases b with
    | false =>
        have hAt : Obj.get (Obj.spread t (stampCompletedAt tasks taskId updates nowIso))
            "completedAt" = Value.null := by
          rw [stamp_false _ _ _ _ hb, spread_get, has_set, get_set]; simp
        have hC : Obj.get (Obj.spread t (stampCompletedAt tasks taskId updates nowIso))
            "completed" = Value.bool false := by
          rw [stamp_false _ _ _ _ hb, spread_get, has_set, get_set, hhas]; simp [hb]
        simp [completedAtSet, completedAtNotNull, isCompleted, hAt, hC, hb, hhas]
    | true =>
        by_cases hc : Obj.get t "completed" = Value.bool true
        · have hAt : Obj.get (Obj.spread t (stampCompletedAt tasks taskId updates nowIso))
              "completedAt" = Obj.get t "completedAt" := by
            rw [stamp_true_same _ _ _ _ hb (hcur.trans hc), spread_get, hnoAt]; rfl
          have hC : Obj.get (Obj.spread t (stampCompletedAt tasks taskId updates nowIso))
              "completed" = Value.bool true := by
            rw [stamp_true_same _ _ _ _ hb (hcur.trans hc), spread_get, hhas]; simp [hb]
          simp [completedAtSet, completedAtNotNull, isCompleted, hAt, hC, hb, hhas, hc]
        · have hne : currentCompleted tasks taskId ≠ Value.bool true := by
            rw [hcur]; exact hc
          have hAt : Obj.get (Obj.spread t (stampCompletedAt tasks taskId updates nowIso))
              "completedAt" = Value.str nowIso := by
            rw [stamp_true_changed _ _ _ _ hb hne, spread_get, has_set, get_set]; simp
          have hC : Obj.get (Obj.spread t (stampCompletedAt tasks taskId updates nowIso))
              "completed" = Value.bool true := by
            rw [stamp_true_changed _ _ _ _ hb hne, spread_get, has_set, get_set, hhas]
            simp [hb]
          simp [completedAtSet, completedAtNotNull, isCompleted, hAt, hC, hb, hhas, hc]

/-- C18 at the two mocked tasks: completing the pending task 1 stamps it, and
setting the completed task 2 back to pending clears its stamp. -/
theorem C18_completedAt_follows_completed_witness :
    (completedAtSet (Obj.spread testTask1
          (stampCompletedAt [testTask1, testTask2] (Value.num 1) toggleUpdate "2024-02-01"))
        = isCompleted (Obj.spread testTask1
          (stampCompletedAt [testTask1, testTask2] (Value.num 1) toggleUpdate "2024-02-01")) ∧
      Obj.get (Obj.spread testTask1
          (stampCompletedAt [testTask1, testTask2] (Value.num 1) toggleUpdate "2024-02-01"))
        "completedAt" = Value.str "2024-02-01") ∧
    Obj.get (Obj.spread testTask2
        (stampCompletedAt [testTask1, testTask2] (Value.num 2)
          [("completed", Value.bool false)] "2024-02-01"))
      "completedAt" = Value.null :=
  have h1 := C18_completedAt_follows_completed [testTask1, testTask2] (Value.num 1)
    toggleUpdate "2024-02-01" testTask1 (by decide) (by decide) (Or.inr ⟨true, rfl⟩)
  have h2 := C18_completedAt_follows_completed [testTask1, testTask2] (Value.num 2)
    [("completed", Value.bool false)] "2024-02-01" testTask2 (by decide) (by decide)
    (Or.inr ⟨false, rfl⟩)
  ⟨⟨h1.2.1 (by decide), h1.2.2.2.1 rfl (by decide)⟩, h2.2.2.2.2.2.1 rfl⟩

/-- C19: for every taskData, whatever fields it carries, the task handleAddTask
passes to addTask has completed false, completedAt null, the id and createdAt of
the creation time, and every other field as in taskData (present exactly when
taskData has it). -/
theorem C19_handleAddTask_builds_task (tasks : List Task) (taskData : Obj) (now : Int)
    (nowIso : String) (remote : Remote Unit) :
    handleAddTask tasks taskData now nowIso remote
      = addTask tasks (newTask taskData now nowIso) remote ∧
    Obj.get (newTask taskData now nowIso) "completed" = Value.bool false ∧
    Obj.get (newTask taskData now nowIso) "completedAt" = Value.null ∧
    Obj.get (newTask taskData now nowIso) "id" = Value.num now ∧
    Obj.get (newTask taskData now nowIso) "createdAt" = Value.str nowIso ∧
    (∀ k : String, k ∉ ["id", "completed", "createdAt", "completedAt"] →
      Obj.get (newTask taskData now nowIso) k = Obj.get taskData k ∧
      Obj.has (newTask taskData now nowIso) k = Obj.has taskData k) := by
  refine ⟨rfl, ?_, ?_, ?_, ?_, ?_⟩
  · rw [newTask, spread_get]; rfl
  · rw [newTask, spread_get]; rfl
  · rw [newTask, spread_get]; rfl
  · rw [newTask, spread_get]; rfl
  · intro k hk
    simp only [List.mem_cons, List.mem_singleton, List.not_mem_nil, or_false, not_or] at hk
    obtain ⟨h1, h2, h3, h4⟩ := hk
    have hb1 : (k == "id") = false := by simpa using h1
    have hb2 : (k == "completed") = false := by simpa using h2
    have hb3 : (k == "createdAt") = false := by simpa using h3
    have hb4 : (k == "completedAt") = false := by simpa using h4
    have hh : Obj.has [("id", Value.num now), ("completed", Value.bool false),
        ("createdAt", Value.str nowIso), ("completedAt", Value.null)] k = false := by
      simp [Obj.has, List.lookup_cons, hb1, hb2, hb3, hb4]
    rw [newTask, spread_get, spread_has, hh]
    simp

theorem filterThrowing_of_total (f : Task → Option Bool) (g : Task → Bool)
    (tasks : List Task) (h : ∀ task ∈ tasks, f task = some (g task)) :
    filterThrowing f tasks = some (tasks.filter g) := by
  induction tasks with
  | nil => rfl
  | cons task rest ih =>
      have h1 := h task (List.mem_cons_self _ _)
      have h2 := ih (fun x hx => h x (List.mem_cons_of_mem _ hx))
      rw [filterThrowing, h1, h2]
      cases hg : g task <;> simp [List.filter_cons, hg]

theorem filterCallback_of_strings (lower : String → String)
    (searchTerm selectedCategory filter : String) (task : Task) (a d : String)
    (ha : Obj.get task "title" = Value.str a)
    (hd : Obj.get task "description" = Value.str d) :
    filterCallback lower searchTerm selectedCategory filter task
      = some (displayed lower searchTerm selectedCategory filter task) := by
  unfold filterCallback matchesSearch displayed matchesCategory matchesFilter
  rw [ha, hd]
  simp only [toLowerCase, Value.text]
  cases hi : includes (lower a) (lower searchTerm) <;> simp

theorem isString_eq_str (v : Value) (h : Value.isString v = true) :
    ∃ a, v = Value.str a := by
  cases v with
  | str a => exact ⟨a, rfl⟩
  | undefined => cases h
  | null => cases h
  | bool b => cases h
  | num n => cases h

theorem includes_empty (s : String) : includes s "" = true := by
  simp [includes]

/-- C20: on a list whose titles and descriptions are strings, filteredTasks is
computed without an exception and is the order-preserving sublist of exactly the
tasks whose lower-cased title or description contains the lower-cased search
term, whose category is the selected one (or the selection is `all`) and whose
completed flag matches the status; with an empty search term and both
selections `all` it is the whole list. -/
theorem C20_filteredTasks_is_matching_sublist (lower : String → String)
    (tasks : List Task) (searchTerm selectedCategory filter : String)
    (hstr : ∀ task ∈ tasks,
      Value.isString (Obj.get task "title") = true
        ∧ Value.isString (Obj.get task "description") = true) :
    filteredTasks lower tasks searchTerm selectedCategory filter
      = some (tasks.filter (displayed lower searchTerm selectedCategory filter)) ∧
    List.Sublist (tasks.filter (displayed lower searchTerm selectedCategory filter)) tasks ∧
    (lower "" = "" → filteredTasks lower tasks "" "all" "all" = some tasks) := by
  have hall : ∀ (term cat status : String),
      filteredTasks lower tasks term cat status
        = some (tasks.filter (displayed lower term cat status)) := by
    intro term cat status
    apply filterThrowing_of_total
    intro task ht
    obtain ⟨h1, h2⟩ := hstr task ht
    obtain ⟨a, ha⟩ := isString_eq_str _ h1
    obtain ⟨d, hd⟩ := isString_eq_str _ h2
    exact filterCallback_of_strings lower term cat status task a d ha hd
  refine ⟨hall _ _ _, List.filter_sublist _, fun hl => ?_⟩
  rw [hall, List.filter_eq_self.mpr]
  intro task _
  simp [displayed, hl, includes_empty]

/-- C20 at the two mocked tasks of the integration test: searching `Task 1` shows
task 1 only, and the cleared filters show both. -/
theorem C20_filteredTasks_is_matching_sublist_witness :
    filteredTasks lowerAscii [testTask1, testTask2] "Task 1" "all" "all"
      = some [testTask1] ∧
    filteredTasks lowerAscii [testTask1, testTask2] "" "all" "all"
      = some [testTask1, testTask2] :=
  have h := C20_filteredTasks_is_matching_sublist lowerAscii [testTask1, testTask2]
    "Task 1" "all" "all" (by decide)
  ⟨h.1.trans (by decide), h.2.2 (by decide)⟩

/-! ## Id uniqueness of the startup merge: claim C29 -/

/-- C29: when the local list has pairwise distinct ids, the list produced by the
startup merge (in memory and in the store) has pairwise distinct ids for every
remote list, repeated remote ids included: what follows the local list is the
first remote task of each id the local list does not have. -/
theorem C29_merge_keeps_ids_distinct (local0 remote : List Task)
    (h : (local0.map Task.id).Nodup) :
    ((startup local0 (Remote.resolved remote)).tasks.map Task.id).Nodup ∧
    ((startup local0 (Remote.resolved remote)).localTasks.map Task.id).Nodup ∧
    (startup local0 (Remote.resolved remote)).tasks
      = local0 ++ newById (local0.map Task.id) remote := by
  rw [startup_resolved]
  exact ⟨mergeTasks_ids_nodup _ _ h, mergeTasks_ids_nodup _ _ h, mergeTasks_eq _ _⟩

/-- C29 at a remote list that carries the new id 2 twice. -/
theorem C29_merge_keeps_ids_distinct_witness :
    ((startup [sampleTask 1 "local"]
        (Remote.resolved [sampleTask 2 "a", sampleTask 1 "remote", sampleTask 2 "b"])).tasks.map
      Task.id).Nodup ∧
    (startup [sampleTask 1 "local"]
        (Remote.resolved [sampleTask 2 "a", sampleTask 1 "remote", sampleTask 2 "b"])).tasks
      = [sampleTask 1 "local", sampleTask 2 "a"] :=
  have h := C29_merge_keeps_ids_distinct [sampleTask 1 "local"]
    [sampleTask 2 "a", sampleTask 1 "remote", sampleTask 2 "b"] (by decide)
  ⟨h.1, h.2.2.trans (by decide)⟩

/-! ## The form and the login: claims C21 and C22 -/

theorem validateForm_nil_iff (trim : String → String) (parseDate : String → Option Int)
    (now : Int) (formData : FormData) :
    validateForm trim parseDate now formData = []
      ↔ trim formData.title ≠ ""
        ∧ ¬ (formData.deadline ≠ "" ∧ dateLe (parseDate formData.deadline) (some now) = true) := by
  unfold validateForm
  by_cases h1 : trim formData.title = "" <;>
    by_cases h2 : (formData.deadline ≠ ""
      ∧ dateLe (parseDate formData.deadline) (some now) = true) <;>
    simp [h1, h2]

/-- C21: for a form whose deadline is empty or a date (what a datetime-local input
holds), submitting calls onAddTask, with the form data unchanged, exactly when
the trimmed title is non-empty and the deadline is empty or strictly later than
now; otherwise onAddTask is not called and the errors recorded are
`Title is required` for an empty trimmed title and
`Deadline must be in the future` for a deadline not later than now. -/
theorem C21_submit_iff_valid (trim : String → String) (parseDate : String → Option Int)
    (now : Int) (formData : FormData) (errors : List (String × String))
    (hdate : formData.deadline = "" ∨ (parseDate formData.deadline).isSome = true) :
    ((handleSubmit trim parseDate now formData errors).onAddTask = some formData
      ↔ trim formData.title ≠ ""
        ∧ (formData.deadline = ""
          ∨ ∃ d, parseDate formData.deadline = some d ∧ now < d)) ∧
    ((handleSubmit trim parseDate now formData errors).onAddTask = some formData
      ∨ ((handleSubmit trim parseDate now formData errors).onAddTask = none
        ∧ (handleSubmit trim parseDate now formData errors).formData = formData)) ∧
    ((handleSubmit trim parseDate now formData errors).onAddTask = none →
      (trim formData.title = "" ↔
        ("title", "Title is required")
          ∈ (handleSubmit trim parseDate now formData errors).errors) ∧
      ((formData.deadline ≠ "" ∧ ∃ d, parseDate formData.deadline = some d ∧ d ≤ now) ↔
        ("deadline", "Deadline must be in the future")
          ∈ (handleSubmit trim parseDate now formData errors).errors)) := by
  have hlate : (formData.deadline ≠ ""
        ∧ dateLe (parseDate formData.deadline) (some now) = true)
      ↔ (formData.deadline ≠ "" ∧ ∃ d, parseDate formData.deadline = some d ∧ d ≤ now) := by
    cases hp : parseDate formData.deadline <;> simp [dateLe]
  have hvalid : ¬ (formData.deadline ≠ ""
        ∧ dateLe (parseDate formData.deadline) (some now) = true)
      ↔ (formData.deadline = ""
          ∨ ∃ d, parseDate formData.deadline = some d ∧ now < d) := by
    rcases hdate with h | h
    · simp [h]
    · cases hp : parseDate formData.deadline with
      | none => simp [hp] at h
      | some d =>
          by_cases he : formData.deadline = "" <;> simp [dateLe, he]
  by_cases hv : validateForm trim parseDate now formData = []
  · have hs : handleSubmit trim parseDate now formData errors
        = { onAddTask := some formData,
            formData := { title := "", description := "", category := "work",
                          deadline := "" },
            errors := [] } := by
      simp [handleSubmit, hv]
    have hv2 := (validateForm_nil_iff trim parseDate now formData).mp hv
    rw [hs]
    refine ⟨⟨fun _ => ⟨hv2.1, hvalid.mp hv2.2⟩, fun _ => rfl⟩, Or.inl rfl, ?_⟩
    intro h
    cases h
  · have hpos : (validateForm trim parseDate now formData).length > 0 :=
      List.length_pos.mpr hv
    have hs : handleSubmit trim parseDate now formData errors
        = { onAddTask := none, formData := formData,
            errors := validateForm trim parseDate now formData } := by
      simp [handleSubmit, hpos]
    have hv2 := (not_congr (validateForm_nil_iff trim parseDate now formData)).mp hv
    rw [hs]
    refine ⟨⟨fun h => (by cases h), fun h => absurd ⟨h.1, hvalid.mpr h.2⟩ hv2⟩,
      Or.inr ⟨rfl, rfl⟩, fun _ => ⟨?_, ?_⟩⟩
    · unfold validateForm
      by_cases h1 : trim formData.title = "" <;>
        by_cases h2 : (formData.deadline ≠ ""
          ∧ dateLe (parseDate formData.deadline) (some now) = true) <;>
        simp [h1, h2]
    · rw [← hlate]
      unfold validateForm
      by_cases h1 : trim formData.title = "" <;>
        by_cases h2 : (formData.deadline ≠ ""
          ∧ dateLe (parseDate formData.deadline) (some now) = true) <;>
        simp [h1, h2]

/-- C21 at a filled form submitted in 2024 (time value 1704067200000). -/
theorem C21_submit_iff_valid_witness :
    (handleSubmit trimBlanks sampleParseDate 1704067200000 sampleForm []).onAddTask
      = some sampleForm :=
  (C21_submit_iff_valid trimBlanks sampleParseDate 1704067200000 sampleForm []
      (Or.inr (by decide))).1.mpr
    ⟨by decide, Or.inr ⟨1893456000000, by decide, by decide⟩⟩

theorem lookup_withoutPassword (u : Obj) (k : String) (h : k ≠ "password") :
    List.lookup k (withoutPassword u) = List.lookup k u := by
  unfold withoutPassword
  induction u with
  | nil => rfl
  | cons p u ih =>
      obtain ⟨k2, v⟩ := p
      by_cases h2 : k2 = "password"
      · subst h2
        have hb : (k == "password") = false := by simpa using h
        simp [List.filter_cons, List.lookup_cons, hb, ih]
      · by_cases h3 : k = k2
        · subst h3
          simp [List.filter_cons, h2, List.lookup_cons]
        · have hb : (k == k2) = false := by simpa using h3
          simp [List.filter_cons, h2, List.lookup_cons, hb, ih]

theorem withoutPassword_has (u : Obj) : Obj.has (withoutPassword u) "password" = false := by
  unfold Obj.has withoutPassword
  cases hl : List.lookup "password" (List.filter (fun p => p.1 != "password") u) with
  | none => rfl
  | some v =>
      exfalso
      have hn : List.lookup "password" (List.filter (fun p => p.1 != "password") u) = none := by
        rw [List.lookup_eq_none_iff]
        intro p hp
        have := (List.mem_filter.mp hp).2
        simpa [bne_iff_ne, ne_comm] using this
      rw [hn] at hl
      cases hl

/-- C22: login succeeds exactly when some registered user has that email and that
password; on success the current user and the persisted record are a matching
user's record without its password field (every other field kept), and on
failure the error is `Invalid email or password` and neither the current user
nor the persisted record changes. -/
theorem C22_login_iff_credentials_match (users : List Obj) (email password : Value)
    (s : AuthState) :
    ((login users email password s).1.success = true
      ↔ ∃ u ∈ users, Obj.get u "email" = email ∧ Obj.get u "password" = password) ∧
    ((login users email password s).1.success = true →
      (login users email password s).1.error = none ∧
      ∃ u ∈ users, Obj.get u "email" = email ∧ Obj.get u "password" = password ∧
        (login users email password s).2.user = some (withoutPassword u) ∧
        (login users email password s).2.stored = some (withoutPassword u)) ∧
    (∀ u : Obj, Obj.has (withoutPassword u) "password" = false ∧
      ∀ k : String, k ≠ "password" → Obj.get (withoutPassword u) k = Obj.get u k) ∧
    ((login users email password s).1.success = false →
      (login users email password s).1.error = some "Invalid email or password" ∧
      (login users email password s).2.user = s.user ∧
      (login users email password s).2.stored = s.stored) := by
  have hkeep : ∀ u : Obj, Obj.has (withoutPassword u) "password" = false ∧
      ∀ k : String, k ≠ "password" → Obj.get (withoutPassword u) k = Obj.get u k := by
    intro u
    refine ⟨withoutPassword_has u, fun k hk => ?_⟩
    unfold Obj.get
    rw [lookup_withoutPassword u k hk]
  cases hf : users.find? (fun u =>
      decide (Obj.get u "email" = email) && decide (Obj.get u "password" = password)) with
  | none =>
      have hno : ¬ ∃ u ∈ users, Obj.get u "email" = email ∧ Obj.get u "password" = password := by
        rintro ⟨u, hu, h1, h2⟩
        have := List.find?_eq_none.mp hf u hu
        simp [h1, h2] at this
      have hl : login users email password s
          = ({ success := false, error := some "Invalid email or password" },
             { s with loading := false }) := by
        unfold login
        rw [hf]
      rw [hl]
      exact ⟨⟨fun h => (by cases h), fun h => absurd h hno⟩, fun h => (by cases h), hkeep,
        fun _ => ⟨rfl, rfl, rfl⟩⟩
  | some found =>
      have hmem : found ∈ users := List.mem_of_find?_eq_some hf
      have hcred := List.find?_some hf
      simp only [Bool.and_eq_true, decide_eq_true_eq] at hcred
      have hl : login users email password s
          = ({ success := true, error := none },
             { user := some (withoutPassword found),
               stored := some (withoutPassword found), loading := false }) := by
        unfold login
        rw [hf]
      rw [hl]
      exact ⟨⟨fun _ => ⟨found, hmem, hcred.1, hcred.2⟩, fun _ => rfl⟩,
        fun _ => ⟨rfl, found, hmem, hcred.1, hcred.2, rfl, rfl⟩, hkeep,
        fun h => (by cases h)⟩

/-! ## Reminders: claim C24 -/

/-- C24 fails on the code: with reminders scheduled for the tasks of id 1 and of
id 10, cancelReminders(1) clears and deletes the reminders of task 10 as well,
because the reminder ids `10-...` start with the text `1`; cancelReminders(10)
on the same map leaves the reminders of task 1 in place. -/
theorem C24_cancelReminders_hits_longer_ids :
    remindersFor1And10.reminders
      = [("1-900000", 1), ("1-0", 2), ("10-900000", 3), ("10-0", 4)] ∧
    cancelReminders (Value.num 1) remindersFor1And10
      = { reminders := [], timeouts := [], nextTimeout := 5 } ∧
    cancelReminders (Value.num 10) remindersFor1And10
      = { reminders := [("1-900000", 1), ("1-0", 2)], timeouts := [1, 2],
          nextTimeout := 5 } := by
  decide

/-! ## The heuristics: claims C25, C27 -/

theorem foldl_keywordScore (text : String) (keywords : List String) (weight start : Nat) :
    keywords.foldl
        (fun score keyword => if includes text keyword then score + weight else score) start
      = start + weight * (keywords.filter (fun keyword => includes text keyword)).length := by
  induction keywords generalizing start with
  | nil => simp
  | cons k ks ih =>
      rw [List.foldl_cons, ih]
      cases hk : includes text k
      · simp [List.filter_cons, hk]
      · simp [List.filter_cons, hk]
        ring

theorem keywordScore_eq (text : String) (keywords : List String) (weight : Nat) :
    keywordScore text keywords weight
      = weight * (keywords.filter (fun keyword => includes text keyword)).length := by
  rw [keywordScore, foldl_keywordScore, Nat.zero_add]

theorem keywordScore_of_none (text : String) (keywords : List String) (weight : Nat)
    (h : ∀ k ∈ keywords, includes text k = false) :
    keywordScore text keywords weight = 0 := by
  rw [keywordScore_eq, List.filter_eq_nil_iff.mpr (fun k hk => by simp [h k hk])]
  simp

/-- C25: with the scores taken on the lower-cased text of title, a blank and the
description (1 per work keyword included, 1 per personal keyword, 2 per urgent
keyword), categorizeTask returns one of `work`, `personal`, `urgent`: `personal`
when no keyword is included, `urgent` when the urgent score is positive and no
score is higher, `work` when the work score is above the urgent one and not
below the personal one, `personal` when the personal score is above both. -/
theorem C25_categorizeTask_by_score (lower : String → String) (title description : String) :
    (categorizeTask lower title description ∈ ["work", "personal", "urgent"]) ∧
    ((∀ k ∈ workKeywords ++ personalKeywords ++ urgentKeywords,
        includes (lower (title ++ " " ++ description)) k = false) →
      categorizeTask lower title description = "personal") ∧
    (categorizeTask lower title description = "urgent" ↔
      0 < keywordScore (lower (title ++ " " ++ description)) urgentKeywords 2
      ∧ keywordScore (lower (title ++ " " ++ description)) workKeywords 1
          ≤ keywordScore (lower (title ++ " " ++ description)) urgentKeywords 2
      ∧ keywordScore (lower (title ++ " " ++ description)) personalKeywords 1
          ≤ keywordScore (lower (title ++ " " ++ description)) urgentKeywords 2) ∧
    (categorizeTask lower title description = "work" ↔
      keywordScore (lower (title ++ " " ++ description)) urgentKeywords 2
          < keywordScore (lower (title ++ " " ++ description)) workKeywords 1
      ∧ keywordScore (lower (title ++ " " ++ description)) personalKeywords 1
          ≤ keywordScore (lower (title ++ " " ++ description)) workKeywords 1) ∧
    (categorizeTask lower title description = "personal" ↔
      (keywordScore (lower (title ++ " " ++ description)) workKeywords 1 = 0
        ∧ keywordScore (lower (title ++ " " ++ description)) personalKeywords 1 = 0
        ∧ keywordScore (lower (title ++ " " ++ description)) urgentKeywords 2 = 0)
      ∨ (keywordScore (lower (title ++ " " ++ description)) urgentKeywords 2
            < keywordScore (lower (title ++ " " ++ description)) personalKeywords 1
          ∧ keywordScore (lower (title ++ " " ++ description)) workKeywords 1
            < keywordScore (lower (title ++ " " ++ description)) personalKeywords 1)) ∧
    (∀ (text : String) (keywords : List String) (weight : Nat),
      keywordScore text keywords weight
        = weight * (keywords.filter (fun keyword => includes text keyword)).length) := by
  have hdef : categorizeTask lower title description
      = if max (keywordScore (lower (title ++ " " ++ description)) workKeywords 1)
            (max (keywordScore (lower (title ++ " " ++ description)) personalKeywords 1)
              (keywordScore (lower (title ++ " " ++ description)) urgentKeywords 2)) = 0
        then "personal"
        else if keywordScore (lower (title ++ " " ++ description)) urgentKeywords 2
            = max (keywordScore (lower (title ++ " " ++ description)) workKeywords 1)
                (max (keywordScore (lower (title ++ " " ++ description)) personalKeywords 1)
                  (keywordScore (lower (title ++ " " ++ description)) urgentKeywords 2))
        then "urgent"
        else if keywordScore (lower (title ++ " " ++ description)) workKeywords 1
            = max (keywordScore (lower (title ++ " " ++ description)) workKeywords 1)
                (max (keywordScore (lower (title ++ " " ++ description)) personalKeywords 1)
                  (keywordScore (lower (title ++ " " ++ description)) urgentKeywords 2))
        then "work"
        else "personal" := rfl
  have hnone : (∀ k ∈ workKeywords ++ personalKeywords ++ urgentKeywords,
        includes (lower (title ++ " " ++ description)) k = false) →
      keywordScore (lower (title ++ " " ++ description)) workKeywords 1 = 0
      ∧ keywordScore (lower (title ++ " " ++ description)) personalKeywords 1 = 0
      ∧ keywordScore (lower (title ++ " " ++ description)) urgentKeywords 2 = 0 := by
    intro h
    refine ⟨keywordScore_of_none _ _ _ (fun k hk => h k ?_),
      keywordScore_of_none _ _ _ (fun k hk => h k ?_),
      keywordScore_of_none _ _ _ (fun k hk => h k ?_)⟩
    · exact List.mem_append_left _ (List.mem_append_left _ hk)
    · exact List.mem_append_left _ (List.mem_append_right _ hk)
    · exact List.mem_append_right _ hk
  have hpu : ("personal" : String) ≠ "urgent" := by decide
  have hpw : ("personal" : String) ≠ "work" := by decide
  have huw : ("urgent" : String) ≠ "work" := by decide
  revert hnone
  rw [hdef]
  generalize keywordScore (lower (title ++ " " ++ description)) workKeywords 1 = w
  generalize keywordScore (lower (title ++ " " ++ description)) personalKeywords 1 = p
  generalize keywordScore (lower (title ++ " " ++ description)) urgentKeywords 2 = u
  intro hnone
  refine ⟨?_, ?_, ?_, ?_, ?_, keywordScore_eq⟩
  · split_ifs <;> simp
  · intro h
    obtain ⟨h1, h2, h3⟩ := hnone h
    simp [h1, h2, h3]
  · split_ifs with h1 h2 h3 <;>
      simp only [hpu, hpu.symm, huw, huw.symm, hpw, hpw.symm, false_iff, true_iff] <;>
      omega
  · split_ifs with h1 h2 h3 <;>
      simp only [hpu, hpu.symm, huw, huw.symm, hpw, hpw.symm, false_iff, true_iff] <;>
      omega
  · split_ifs with h1 h2 h3 <;>
      simp only [hpu, hpu.symm, huw, huw.symm, hpw, hpw.symm, false_iff, true_iff] <;>
      omega

/-- C27: for every task list, hour and date parser, generateTaskSuggestions returns
at most 3 suggestions, and every candidate pushed but cut off by `slice(0, 3)`
has a confidence no higher than that of every suggestion returned (only the
0.6 weekly-goals suggestion can be cut off, the morning and evening suggestions
excluding each other). -/
theorem C27_top_three_suggestions (parseDate : Value → Option Int)
    (existingTasks : List Task) (hour : Nat) (lastWeek : Int) :
    (generateTaskSuggestions parseDate existingTasks hour lastWeek).length ≤ 3 ∧
    (∀ c ∈ (suggestionCandidates parseDate existingTasks hour lastWeek).drop 3,
      ∀ r ∈ generateTaskSuggestions parseDate existingTasks hour lastWeek,
        c.confidence ≤ r.confidence) ∧
    suggestionCandidates parseDate existingTasks hour lastWeek
      = generateTaskSuggestions parseDate existingTasks hour lastWeek
        ++ (suggestionCandidates parseDate existingTasks hour lastWeek).drop 3 := by
  refine ⟨?_, ?_, ?_⟩
  · simp [generateTaskSuggestions, List.length_take]
  · unfold generateTaskSuggestions suggestionCandidates
    by_cases h1 : (match List.lookup "work" (countByCategory existingTasks) with
        | some (Tally.count n) => n
        | _ => 0) > 0 <;>
      by_cases h2 : (existingTasks.filter
          (fun task => !(Value.truthy (Obj.get task "completed")))).length > 5 <;>
      by_cases h3 : hour < 10 <;>
      by_cases h4 : hour > 17 <;>
      by_cases h5 : (existingTasks.filter (fun task =>
          dateLt (some lastWeek) (parseDate (Obj.get task "createdAt")))).length < 3 <;>
      first
        | omega
        | (simp only [h1, h2, h3, h4, h5, if_true, if_false, List.nil_append,
            List.append_nil, List.cons_append, List.drop, List.take, List.not_mem_nil,
            List.mem_cons, List.mem_singleton, false_implies, implies_true, forall_eq_or_imp,
            forall_eq, or_false, and_true]
           try norm_num)
  · unfold generateTaskSuggestions
    exact (List.take_append_drop 3 _).symm

/-! ## Insights: claim C30 -/

theorem bump_ne_nil (acc : List (String × Tally)) (k : String) (h : k ≠ "__proto__") :
    bump acc k ≠ [] := by
  cases acc with
  | nil =>
      by_cases hk : k ∈ inheritedKeys <;> simp [bump, h, hk]
  | cons e rest =>
      obtain ⟨k2, v⟩ := e
      by_cases h2 : k2 = k
      · cases v <;> simp [bump, h2]
      · simp [bump, h2]

theorem bump_keeps_entries (acc : List (String × Tally)) (k : String) (h : acc ≠ []) :
    bump acc k ≠ [] := by
  cases acc with
  | nil => exact absurd rfl h
  | cons e rest =>
      obtain ⟨k2, v⟩ := e
      by_cases h2 : k2 = k
      · cases v <;> simp [bump, h2]
      · simp [bump, h2]

theorem foldl_bump_ne_nil (tasks : List Task) (acc : List (String × Tally)) (h : acc ≠ []) :
    tasks.foldl (fun acc task => bump acc (Value.toText (Obj.get task "category"))) acc
      ≠ [] := by
  induction tasks generalizing acc with
  | nil => simpa using h
  | cons t ts ih =>
      rw [List.foldl_cons]
      exact ih _ (bump_keeps_entries _ _ h)

theorem countByCategory_ne_nil (tasks : List Task) (hne : tasks ≠ [])
    (hcat : ∀ task ∈ tasks, Value.toText (Obj.get task "category") ≠ "__proto__") :
    countByCategory tasks ≠ [] := by
  cases tasks with
  | nil => exact absurd rfl hne
  | cons t ts =>
      simp only [countByCategory, List.foldl_cons]
      exact foldl_bump_ne_nil _ _ (bump_ne_nil _ _ (hcat t (List.mem_cons_self _ _)))

/-- C30, amended: for every task list, the empty one included, in which no category has the
text `__proto__` (the categories of the data model are work, personal and
urgent), generateInsights returns at least 1 and at most 3 insights (without
recent tasks exactly the one of type `improvement`), so the empty-state
paragraph of the AI assistant is not rendered for its result. -/
theorem C30_one_to_three_insights (fl : ℚ → ℚ) (parseDate : Value → Option Int)
    (now startDate : Int) (tasks : List Task)
    (hcat : ∀ task ∈ tasks, Value.toText (Obj.get task "category") ≠ "__proto__") :
    1 ≤ (generateInsights fl parseDate now startDate tasks).length ∧
    (generateInsights fl parseDate now startDate tasks).length ≤ 3 ∧
    generateInsights fl parseDate now startDate []
      = [{ type := "improvement", title := "Room for Improvement", actionable := true }] ∧
    showsNoInsights (generateInsights fl parseDate now startDate tasks) = false := by
  have hlen : 1 ≤ (generateInsights fl parseDate now startDate tasks).length ∧
      (generateInsights fl parseDate now startDate tasks).length ≤ 3 := by
    unfold generateInsights
    by_cases hr : recentTasks parseDate startDate tasks = []
    · rw [hr]
      norm_num [completionRate, overdueTasks, countByCategory, hasDominantCategory]
    · have hd : hasDominantCategory
          (countByCategory (recentTasks parseDate startDate tasks)) = true := by
        have hne := countByCategory_ne_nil _ hr
          (fun task ht => hcat task (List.mem_of_mem_filter ht))
        cases hc : countByCategory (recentTasks parseDate startDate tasks) with
        | nil => exact absurd hc hne
        | cons e rest => rfl
      rw [hd]
      simp only [List.length_append, if_true]
      split_ifs <;> simp
  refine ⟨hlen.1, hlen.2, ?_, ?_⟩
  · norm_num [generateInsights, recentTasks, completionRate, countByCategory,
      hasDominantCategory, overdueTasks]
  · simp only [showsNoInsights, beq_eq_false_iff_ne, ne_eq]
    omega

/-- C30, amended, with exact arithmetic at one recent task of category urgent. -/
theorem C30_one_to_three_insights_witness :
    1 ≤ (generateInsights id timeValue 1000 (-1) [createdTask]).length ∧
    (generateInsights id timeValue 1000 (-1) [createdTask]).length ≤ 3 ∧
    showsNoInsights (generateInsights id timeValue 1000 (-1) [createdTask]) = false :=
  have h := C30_one_to_three_insights id timeValue 1000 (-1) [createdTask] (by decide)
  ⟨h.1, h.2.1, h.2.2.2⟩

/-! ## Lemmas on double arithmetic -/

theorem Rounding.zero {fl : ℚ → ℚ} (h : Rounding fl) : fl 0 = 0 := by
  simpa using h.exact_int 0 (by norm_num)

theorem Rounding.one {fl : ℚ → ℚ} (h : Rounding fl) : fl 1 = 1 := by
  simpa using h.exact_int 1 (by norm_num)

theorem Rounding.hundred {fl : ℚ → ℚ} (h : Rounding fl) : fl 100 = 100 := by
  simpa using h.exact_int 100 (by norm_num)

theorem Rounding.ten {fl : ℚ → ℚ} (h : Rounding fl) : fl 10 = 10 := by
  simpa using h.exact_int 10 (by norm_num)

theorem Rounding.near {fl : ℚ → ℚ} (h : Rounding fl) (x : ℚ) (hx : |x| ≤ 100) :
    |fl x - x| ≤ 1 / 10 ^ 13 := by
  have h1 := h.rel_err x
  have h2 : |x| / 2 ^ 53 ≤ 100 / 2 ^ 53 := by
    apply div_le_div_of_nonneg_right hx
    norm_num
  have h3 : (100 : ℚ) / 2 ^ 53 ≤ 1 / 10 ^ 13 := by norm_num
  linarith

theorem Rounding.between {fl : ℚ → ℚ} (h : Rounding fl) {x lo hi : ℚ}
    (h1 : lo ≤ x) (h2 : x ≤ hi) (h0 : -100 ≤ lo) (h3 : hi ≤ 100) :
    lo - 1 / 10 ^ 13 ≤ fl x ∧ fl x ≤ hi + 1 / 10 ^ 13 := by
  have hx : |x| ≤ 100 := abs_le.mpr ⟨by linarith, by linarith⟩
  have hn := abs_le.mp (h.near x hx)
  constructor <;> linarith [hn.1, hn.2]

theorem le_mathRound (n : ℤ) (x : ℚ) (h : (n : ℚ) - 1 / 2 ≤ x) : n ≤ mathRound x := by
  unfold mathRound
  rw [Int.le_floor]
  linarith

theorem mathRound_le (n : ℤ) (x : ℚ) (h : x < (n : ℚ) + 1 / 2) : mathRound x ≤ n := by
  unfold mathRound
  have : ⌊x + 1 / 2⌋ < n + 1 := by
    rw [Int.floor_lt]
    push_cast
    linarith
  omega

theorem mathRound_near (x : ℚ) : |(mathRound x : ℚ) - x| ≤ 1 / 2 := by
  unfold mathRound
  have h1 := Int.floor_le (x + 1 / 2)
  have h2 := Int.lt_floor_add_one (x + 1 / 2)
  rw [abs_le]
  constructor <;> linarith

theorem completedTasks_le (tasks : List Task) : completedTasks tasks ≤ tasks.length :=
  List.length_filter_le _ _

theorem progressPercentage_bounds {fl : ℚ → ℚ} (h : Rounding fl) (tasks : List Task) :
    0 ≤ progressPercentage fl tasks ∧ progressPercentage fl tasks ≤ 100 := by
  unfold progressPercentage
  by_cases ht : tasks.length > 0
  · rw [if_pos ht]
    have hpos : (0 : ℚ) < (tasks.length : ℚ) := by exact_mod_cast ht
    have hc : (completedTasks tasks : ℚ) ≤ (tasks.length : ℚ) := by
      exact_mod_cast completedTasks_le tasks
    have hq0 : (0 : ℚ) ≤ (completedTasks tasks : ℚ) / (tasks.length : ℚ) :=
      div_nonneg (by positivity) (le_of_lt hpos)
    have hq1 : (completedTasks tasks : ℚ) / (tasks.length : ℚ) ≤ 1 :=
      (div_le_one hpos).mpr hc
    have hf0 : 0 ≤ fl ((completedTasks tasks : ℚ) / (tasks.length : ℚ)) := by
      have := h.mono _ _ hq0
      rwa [h.zero] at this
    have hf1 : fl ((completedTasks tasks : ℚ) / (tasks.length : ℚ)) ≤ 1 := by
      have := h.mono _ _ hq1
      rwa [h.one] at this
    constructor
    · have := h.mono 0 (fl ((completedTasks tasks : ℚ) / (tasks.length : ℚ)) * 100)
        (by linarith)
      rwa [h.zero] at this
    · have := h.mono (fl ((completedTasks tasks : ℚ) / (tasks.length : ℚ)) * 100) 100
        (by linarith)
      rwa [h.hundred] at this
  · rw [if_neg ht]
    norm_num

theorem progressPercentage_near {fl : ℚ → ℚ} (h : Rounding fl) (tasks : List Task)
    (ht : tasks.length > 0) :
    |progressPercentage fl tasks
        - (completedTasks tasks : ℚ) / (tasks.length : ℚ) * 100| ≤ 1 / 10 ^ 10 := by
  unfold progressPercentage
  rw [if_pos ht]
  have hpos : (0 : ℚ) < (tasks.length : ℚ) := by exact_mod_cast ht
  have hc : (completedTasks tasks : ℚ) ≤ (tasks.length : ℚ) := by
    exact_mod_cast completedTasks_le tasks
  have hq0 : (0 : ℚ) ≤ (completedTasks tasks : ℚ) / (tasks.length : ℚ) :=
    div_nonneg (by positivity) (le_of_lt hpos)
  have hq1 : (completedTasks tasks : ℚ) / (tasks.length : ℚ) ≤ 1 :=
    (div_le_one hpos).mpr hc
  generalize (completedTasks tasks : ℚ) / (tasks.length : ℚ) = q at hq0 hq1
  have hf0 : 0 ≤ fl q := by
    have := h.mono _ _ hq0
    rwa [h.zero] at this
  have hf1 : fl q ≤ 1 := by
    have := h.mono _ _ hq1
    rwa [h.one] at this
  have hq : |q| ≤ 100 := abs_le.mpr ⟨by linarith, by linarith⟩
  have hp : |fl q * 100| ≤ 100 := abs_le.mpr ⟨by linarith, by linarith⟩
  have hn := abs_le.mp (h.near q hq)
  have hn2 := abs_le.mp (h.near (fl q * 100) hp)
  have e13 : (1 : ℚ) / 10 ^ 13 = 1 / 10000000000000 := by norm_num
  have e10 : (1 : ℚ) / 10 ^ 10 = 1 / 10000000000 := by norm_num
  rw [e13] at hn hn2
  rw [abs_le, e10]
  constructor <;> linarith [hn.1, hn.2, hn2.1, hn2.2]

theorem rounding_id : Rounding id := by
  refine ⟨fun x y hxy => hxy, fun n _ => rfl, fun x => ?_⟩
  simp only [id, sub_self, abs_zero]
  positivity

theorem mathRound_zero : mathRound 0 = 0 := by
  unfold mathRound
  rw [Int.floor_eq_iff]
  norm_num

theorem mathRound_bounds (x : ℚ) (h0 : 0 ≤ x) (h1 : x ≤ 100) :
    0 ≤ mathRound x ∧ mathRound x ≤ 100 := by
  constructor
  · apply le_mathRound
    push_cast
    linarith
  · apply mathRound_le
    push_cast
    linarith

/-! ## The rounding `binary64` -/

theorem roundHalfEven_near (y : ℚ) : |(roundHalfEven y : ℚ) - y| ≤ 1 / 2 := by
  have h1 := Int.floor_le y
  have h2 := Int.lt_floor_add_one y
  unfold roundHalfEven
  rw [abs_le]
  split_ifs with a b c
  · constructor <;> linarith
  · push_cast; constructor <;> linarith
  · constructor <;> linarith
  · push_cast; constructor <;> linarith

theorem roundHalfEven_int (n : ℤ) : roundHalfEven (n : ℚ) = n := by
  unfold roundHalfEven
  simp

theorem roundHalfEven_unique (y : ℚ) (n : ℤ) (h1 : (n : ℚ) - 1 / 2 < y)
    (h2 : y < (n : ℚ) + 1 / 2) : roundHalfEven y = n := by
  have h := roundHalfEven_near y
  rw [abs_le] at h
  have a : ((roundHalfEven y : ℤ) : ℚ) < ((n + 1 : ℤ) : ℚ) := by push_cast; linarith
  have b : ((n - 1 : ℤ) : ℚ) < ((roundHalfEven y : ℤ) : ℚ) := by push_cast; linarith
  have a2 := Int.cast_lt.mp a
  have b2 := Int.cast_lt.mp b
  omega

theorem roundHalfEven_mono (a b : ℚ) (h : a ≤ b) : roundHalfEven a ≤ roundHalfEven b := by
  have hf : ⌊a⌋ ≤ ⌊b⌋ := Int.floor_mono h
  rcases lt_or_eq_of_le hf with hlt | heq
  · have h1 : roundHalfEven a ≤ ⌊a⌋ + 1 := by
      unfold roundHalfEven; split_ifs <;> omega
    have h2 : ⌊b⌋ ≤ roundHalfEven b := by
      unfold roundHalfEven; split_ifs <;> omega
    omega
  · unfold roundHalfEven
    rw [heq]
    have hq : ((⌊a⌋ : ℤ) : ℚ) = ((⌊b⌋ : ℤ) : ℚ) := by rw [heq]
    split_ifs <;> first | omega | (exfalso; linarith)

theorem log_eq (x : ℚ) (e : ℤ) (h1 : (2 : ℚ) ^ e ≤ x) (h2 : x < (2 : ℚ) ^ (e + 1)) :
    Int.log 2 x = e := by
  have hx : 0 < x := lt_of_lt_of_le (by positivity) h1
  have a : e ≤ Int.log 2 x := (Int.zpow_le_iff_le_log (by norm_num) hx).mp h1
  have b : Int.log 2 x < e + 1 := (Int.lt_zpow_iff_log_lt (by norm_num) hx).mp h2
  omega


theorem roundHalfEven_neg (y : ℚ) : roundHalfEven (-y) = -roundHalfEven y := by
  by_cases hy : y = (⌊y⌋ : ℚ)
  · rw [hy, ← Int.cast_neg, roundHalfEven_int, roundHalfEven_int]
  · have h1 := Int.floor_le y
    have h2 := Int.lt_floor_add_one y
    have h3 : (⌊y⌋ : ℚ) < y := lt_of_le_of_ne h1 (fun e => hy e.symm)
    have hf : ⌊-y⌋ = -⌊y⌋ - 1 := by
      rw [Int.floor_eq_iff]
      push_cast
      constructor <;> linarith
    unfold roundHalfEven
    rw [hf]
    push_cast
    split_ifs <;> first | omega | (exfalso; linarith)

theorem two_zpow_pos (e : ℤ) : (0 : ℚ) < 2 ^ e :=
  zpow_pos (by norm_num) e

theorem two_zpow_split (e : ℤ) : (2 : ℚ) ^ e = 2 ^ (e - 52) * 2 ^ 52 := by
  have h := zpow_add₀ (show (2 : ℚ) ≠ 0 by norm_num) (e - 52) 52
  rw [sub_add_cancel] at h
  exact h.trans (by norm_cast)

theorem binary64_eq (x : ℚ) (e : ℤ) (h1 : (2 : ℚ) ^ e ≤ x) (h2 : x < (2 : ℚ) ^ (e + 1)) :
    binary64 x = (roundHalfEven (x / 2 ^ (e - 52)) : ℚ) * 2 ^ (e - 52) := by
  have hx : 0 < x := lt_of_lt_of_le (two_zpow_pos e) h1
  unfold binary64
  rw [if_neg (ne_of_gt hx), abs_of_pos hx, log_eq x e h1 h2]

theorem binary64_neg (x : ℚ) : binary64 (-x) = -binary64 x := by
  unfold binary64
  by_cases hx : x = 0
  · simp [hx]
  · have hx2 : -x ≠ 0 := neg_ne_zero.mpr hx
    rw [if_neg hx, if_neg hx2, abs_neg, neg_div, roundHalfEven_neg]
    push_cast
    ring

theorem binary64_rel_err (x : ℚ) : |binary64 x - x| ≤ |x| / 2 ^ 53 := by
  by_cases hx : x = 0
  · simp [binary64, hx]
  · have hpos : 0 < |x| := abs_pos.mpr hx
    have h1 : ((2 : ℕ) : ℚ) ^ Int.log 2 |x| ≤ |x| := Int.zpow_log_le_self (by norm_num) hpos
    have hs := two_zpow_pos (Int.log 2 |x| - 52)
    have hn := roundHalfEven_near (x / 2 ^ (Int.log 2 |x| - 52))
    have he := two_zpow_split (Int.log 2 |x|)
    unfold binary64
    rw [if_neg hx]
    have h4 : ((2 : ℕ) : ℚ) = 2 := by norm_num
    rw [h4, he] at h1
    generalize (2 : ℚ) ^ (Int.log 2 |x| - 52) = s at *
    have hd : (roundHalfEven (x / s) : ℚ) * s - x = ((roundHalfEven (x / s) : ℚ) - x / s) * s := by
      field_simp
    rw [hd, abs_mul, abs_of_pos hs]
    have h3 : |(roundHalfEven (x / s) : ℚ) - x / s| * s ≤ 1 / 2 * s :=
      mul_le_mul_of_nonneg_right hn (le_of_lt hs)
    rw [le_div_iff₀ (by norm_num)]
    nlinarith

theorem binary64_exact_int (n : ℤ) (h : |n| ≤ 2 ^ 53) : binary64 (n : ℚ) = (n : ℚ) := by
  by_cases hn : n = 0
  · simp [binary64, hn]
  · have hq : (n : ℚ) ≠ 0 := Int.cast_ne_zero.mpr hn
    have hpos : 0 < |(n : ℚ)| := abs_pos.mpr hq
    have hone : (1 : ℚ) ≤ |(n : ℚ)| := by
      rw [← Int.cast_abs]
      have : (1 : ℤ) ≤ |n| := Int.one_le_abs hn
      exact_mod_cast this
    have hle : |(n : ℚ)| ≤ 2 ^ 53 := by
      rw [← Int.cast_abs]
      exact_mod_cast h
    have h4 : ((2 : ℕ) : ℚ) = 2 := by norm_num
    have h1 : ((2 : ℕ) : ℚ) ^ Int.log 2 |(n : ℚ)| ≤ |(n : ℚ)| :=
      Int.zpow_log_le_self (by norm_num) hpos
    have he0 : 0 ≤ Int.log 2 |(n : ℚ)| :=
      (Int.zpow_le_iff_le_log (by norm_num) hpos).mp (by simpa using hone)
    have he54 : Int.log 2 |(n : ℚ)| < 54 :=
      (Int.lt_zpow_iff_log_lt (by norm_num) hpos).mp
        (lt_of_le_of_lt hle (by rw [h4]; norm_num))
    unfold binary64
    rw [if_neg hq]
    rw [h4] at h1
    generalize Int.log 2 |(n : ℚ)| = e at *
    by_cases he : e = 53
    · subst he
      have h1b : (2 : ℚ) ^ (53 : ℕ) ≤ |(n : ℚ)| := by
        rw [show (53 : ℤ) = ((53 : ℕ) : ℤ) by rfl, zpow_natCast] at h1
        exact h1
      have habs : |(n : ℚ)| = 2 ^ 53 := le_antisymm hle h1b
      have habs2 : |n| = 2 ^ 53 := by
        have : ((|n| : ℤ) : ℚ) = ((2 ^ 53 : ℤ) : ℚ) := by
          rw [Int.cast_abs, habs]; norm_num
        exact_mod_cast this
      have hcase : n = 2 ^ 53 ∨ n = -2 ^ 53 := by
        rcases abs_cases n with ⟨a, _⟩ | ⟨a, _⟩ <;> omega
      have hdiv : (n : ℚ) / 2 ^ ((53 : ℤ) - 52) = ((n / 2 : ℤ) : ℚ) := by
        rcases hcase with a | a <;> subst a <;> norm_num
      rw [hdiv, roundHalfEven_int]
      rcases hcase with a | a <;> subst a <;> norm_num
    · obtain ⟨k, hk⟩ : ∃ k : ℕ, e - 52 = -(k : ℤ) := ⟨(52 - e).toNat, by omega⟩
      rw [hk, zpow_neg, zpow_natCast]
      have hdiv : (n : ℚ) / ((2 : ℚ) ^ k)⁻¹ = ((n * 2 ^ k : ℤ) : ℚ) := by
        push_cast
        field_simp
      rw [hdiv, roundHalfEven_int]
      push_cast
      field_simp

theorem binary64_pos_bounds (x : ℚ) (e : ℤ) (h1 : (2 : ℚ) ^ e ≤ x)
    (h2 : x < (2 : ℚ) ^ (e + 1)) : (2 : ℚ) ^ e ≤ binary64 x ∧ binary64 x ≤ 2 ^ (e + 1) := by
  rw [binary64_eq x e h1 h2]
  have hs := two_zpow_pos (e - 52)
  have he := two_zpow_split e
  have he1 : (2 : ℚ) ^ (e + 1) = 2 ^ (e - 52) * 2 ^ 53 := by
    rw [zpow_add₀ (by norm_num), he]
    ring
  rw [he] at h1
  rw [he1] at h2
  rw [he, he1]
  clear he he1
  generalize (2 : ℚ) ^ (e - 52) = s at *
  have hy1 : (((2 ^ 52 : ℤ) : ℤ) : ℚ) ≤ x / s := by
    rw [le_div_iff₀ hs]; push_cast; linarith
  have hy2 : x / s ≤ (((2 ^ 53 : ℤ) : ℤ) : ℚ) := by
    rw [div_le_iff₀ hs]; push_cast; linarith
  have r1 := roundHalfEven_mono _ _ hy1
  have r2 := roundHalfEven_mono _ _ hy2
  rw [roundHalfEven_int] at r1 r2
  have q1 : ((2 ^ 52 : ℤ) : ℚ) ≤ (roundHalfEven (x / s) : ℚ) := Int.cast_le.mpr r1
  have q2 : (roundHalfEven (x / s) : ℚ) ≤ ((2 ^ 53 : ℤ) : ℚ) := Int.cast_le.mpr r2
  push_cast at q1 q2
  constructor
  · nlinarith
  · nlinarith

theorem binary64_mono_pos (x y : ℚ) (hx : 0 < x) (h : x ≤ y) : binary64 x ≤ binary64 y := by
  have hy : 0 < y := lt_of_lt_of_le hx h
  have h4 : ((2 : ℕ) : ℚ) = 2 := by norm_num
  have x1 : ((2 : ℕ) : ℚ) ^ Int.log 2 x ≤ x := Int.zpow_log_le_self (by norm_num) hx
  have x2 : x < ((2 : ℕ) : ℚ) ^ (Int.log 2 x + 1) := Int.lt_zpow_succ_log_self (by norm_num) x
  have y1 : ((2 : ℕ) : ℚ) ^ Int.log 2 y ≤ y := Int.zpow_log_le_self (by norm_num) hy
  have y2 : y < ((2 : ℕ) : ℚ) ^ (Int.log 2 y + 1) := Int.lt_zpow_succ_log_self (by norm_num) y
  have hl : Int.log 2 x ≤ Int.log 2 y := Int.log_mono_right hx h
  rw [h4] at x1 x2 y1 y2
  rcases lt_or_eq_of_le hl with hlt | heq
  · have bx := (binary64_pos_bounds x _ x1 x2).2
    have bY := (binary64_pos_bounds y _ y1 y2).1
    have hz : (2 : ℚ) ^ (Int.log 2 x + 1) ≤ 2 ^ Int.log 2 y :=
      zpow_le_zpow_right₀ (by norm_num) (by omega)
    linarith
  · rw [binary64_eq x _ x1 x2, binary64_eq y _ y1 y2, heq]
    have hs := two_zpow_pos (Int.log 2 y - 52)
    have hd : x / 2 ^ (Int.log 2 y - 52) ≤ y / 2 ^ (Int.log 2 y - 52) :=
      div_le_div_of_nonneg_right h (le_of_lt hs)
    have r := roundHalfEven_mono _ _ hd
    have q : (roundHalfEven (x / 2 ^ (Int.log 2 y - 52)) : ℚ)
        ≤ (roundHalfEven (y / 2 ^ (Int.log 2 y - 52)) : ℚ) := Int.cast_le.mpr r
    exact mul_le_mul_of_nonneg_right q (le_of_lt hs)

theorem binary64_nonneg (x : ℚ) (hx : 0 ≤ x) : 0 ≤ binary64 x := by
  rcases lt_or_eq_of_le hx with h | h
  · have h4 : ((2 : ℕ) : ℚ) = 2 := by norm_num
    have x1 : ((2 : ℕ) : ℚ) ^ Int.log 2 x ≤ x := Int.zpow_log_le_self (by norm_num) h
    have x2 : x < ((2 : ℕ) : ℚ) ^ (Int.log 2 x + 1) :=
      Int.lt_zpow_succ_log_self (by norm_num) x
    rw [h4] at x1 x2
    have b := (binary64_pos_bounds x _ x1 x2).1
    have := two_zpow_pos (Int.log 2 x)
    linarith
  · rw [← h]; simp [binary64]

theorem binary64_mono (x y : ℚ) (h : x ≤ y) : binary64 x ≤ binary64 y := by
  rcases lt_trichotomy 0 x with hx | hx | hx
  · exact binary64_mono_pos x y hx h
  · rw [← hx]
    have : binary64 0 = 0 := by simp [binary64]
    rw [this]
    exact binary64_nonneg y (by linarith)
  · rcases le_or_lt 0 y with hy | hy
    · have a := binary64_nonneg (-x) (by linarith)
      have b := binary64_nonneg y hy
      rw [binary64_neg] at a
      linarith
    · have a := binary64_mono_pos (-y) (-x) (by linarith) (by linarith)
      rw [binary64_neg, binary64_neg] at a
      linarith

theorem rounding_binary64 : Rounding binary64 :=
  ⟨binary64_mono, binary64_exact_int, binary64_rel_err⟩

theorem binary64_eval (x m : ℚ) (k : ℕ) (n : ℤ) (h1 : (2 : ℚ) ^ 52 ≤ x * 2 ^ k)
    (h2 : x * 2 ^ k < 2 ^ 53) (h3 : (n : ℚ) - 1 / 2 < x * 2 ^ k)
    (h4 : x * 2 ^ k < (n : ℚ) + 1 / 2) (hm : m * 2 ^ k = (n : ℚ)) : binary64 x = m := by
  have hk : (0 : ℚ) < 2 ^ k := by positivity
  have e1 : (2 : ℚ) ^ ((52 : ℤ) - (k : ℤ)) = 2 ^ 52 / 2 ^ k := by
    rw [zpow_sub₀ (by norm_num), zpow_natCast]; norm_num
  have e2 : (2 : ℚ) ^ ((52 : ℤ) - (k : ℤ) + 1) = 2 ^ 53 / 2 ^ k := by
    rw [zpow_add₀ (by norm_num), e1]; ring
  have e3 : (2 : ℚ) ^ ((52 : ℤ) - (k : ℤ) - 52) = 1 / 2 ^ k := by
    rw [show (52 : ℤ) - (k : ℤ) - 52 = -(k : ℤ) by ring, zpow_neg, zpow_natCast]; simp
  have a1 : (2 : ℚ) ^ ((52 : ℤ) - (k : ℤ)) ≤ x := by
    rw [e1, div_le_iff₀ hk]; exact h1
  have a2 : x < (2 : ℚ) ^ ((52 : ℤ) - (k : ℤ) + 1) := by
    rw [e2, lt_div_iff₀ hk]; exact h2
  rw [binary64_eq x _ a1 a2, e3]
  have hd : x / (1 / 2 ^ k) = x * 2 ^ k := by field_simp
  rw [hd, roundHalfEven_unique _ n h3 h4, ← hm]
  field_simp

/-! ## Insights for a category that is no property: claim C30 -/

theorem binary64_half : binary64 (1 / 2) = 1 / 2 :=
  binary64_eval _ _ 53 4503599627370496 (by norm_num) (by norm_num) (by norm_num)
    (by norm_num) (by norm_num)

theorem binary64_half_times_100 : binary64 (1 / 2 * 100) = 50 :=
  binary64_eval _ _ 47 7036874417766400 (by norm_num) (by norm_num) (by norm_num)
    (by norm_num) (by norm_num)

/-- C30, as stated, fails: for the two recent tasks of the category `__proto__`, one
of them completed and none with a deadline, the completion rate is exactly 50,
which is neither above 80 nor below 50; the assignment `acc['__proto__'] = ...`
creates no property, so there is no dominant category; nothing is overdue.
generateInsights returns no insight and the empty-state paragraph is rendered. -/
theorem C30_no_insight_for_category_proto :
    completionRate binary64 (recentTasks timeValue (-1) protoTasks) = 50 ∧
    generateInsights binary64 timeValue 1000 (-1) protoTasks = [] ∧
    showsNoInsights (generateInsights binary64 timeValue 1000 (-1) protoTasks) = true := by
  have hr : recentTasks timeValue (-1) protoTasks = protoTasks := by decide
  have hc : countByCategory protoTasks = [] := by decide
  have ho : overdueTasks timeValue 1000 protoTasks = [] := by decide
  have hk : completedTasks protoTasks = 1 := by decide
  have hl : protoTasks.length = 2 := by decide
  have e : ((1 : ℕ) : ℚ) / ((2 : ℕ) : ℚ) = 1 / 2 := by norm_num
  have hrate : completionRate binary64 protoTasks = 50 := by
    unfold completionRate
    rw [hl, hk, if_pos (by decide), e, binary64_half, binary64_half_times_100]
  have hg : generateInsights binary64 timeValue 1000 (-1) protoTasks = [] := by
    unfold generateInsights
    rw [hr, hc, ho, hrate]
    norm_num [hasDominantCategory]
  rw [hr, hg]
  exact ⟨hrate, rfl, rfl⟩

/-! ## The progress tracker: claim C23 -/

theorem binary64_23_40 :
    binary64 (23 / 40) = 5179139571476070 / 9007199254740992 :=
  binary64_eval _ _ 53 5179139571476070 (by norm_num) (by norm_num) (by norm_num)
    (by norm_num) (by norm_num)

theorem binary64_23_40_times_100 :
    binary64 (5179139571476070 / 9007199254740992 * 100)
      = 8092405580431359 / 140737488355328 :=
  binary64_eval _ _ 47 8092405580431359 (by norm_num) (by norm_num) (by norm_num)
    (by norm_num) (by norm_num)

theorem completedTasks_fortyTasks : completedTasks fortyTasks = 23 := by
  decide

theorem progressPercentage_fortyTasks :
    progressPercentage binary64 fortyTasks = 8092405580431359 / 140737488355328 := by
  have hl : fortyTasks.length = 40 := by decide
  unfold progressPercentage
  rw [hl, completedTasks_fortyTasks, if_pos (by decide)]
  have e : ((23 : ℕ) : ℚ) / ((40 : ℕ) : ℚ) = 23 / 40 := by norm_num
  rw [e, binary64_23_40, binary64_23_40_times_100]

theorem int_ne_int_add_half (n k : ℤ) : (n : ℚ) ≠ (k : ℚ) + 1 / 2 := by
  intro e
  have e2 : ((2 * n : ℤ) : ℚ) = ((2 * k + 1 : ℤ) : ℚ) := by
    push_cast
    linarith
  have e3 : 2 * n = 2 * k + 1 := by exact_mod_cast e2
  omega

theorem mathRound_stable (c t : ℕ) (ht2 : t < 2 ^ 32) (p : ℚ)
    (hp : |p - (c : ℚ) / (t : ℚ) * 100| ≤ 1 / 10 ^ 10)
    (hnt : ∀ k : ℤ, (c : ℚ) / (t : ℚ) * 100 ≠ (k : ℚ) + 1 / 2) :
    mathRound p = mathRound ((c : ℚ) / (t : ℚ) * 100) := by
  rcases Nat.eq_zero_or_pos t with ht | ht
  · subst ht
    simp only [Nat.cast_zero, div_zero, zero_mul, sub_zero] at hp ⊢
    rw [mathRound_zero]
    have hp2 := abs_le.mp hp
    unfold mathRound
    rw [Int.floor_eq_iff]
    constructor <;> norm_num <;> linarith [hp2.1, hp2.2]
  · have htq : (0 : ℚ) < (t : ℚ) := by exact_mod_cast ht
    have ht32 : (t : ℚ) < 4294967296 := by
      have : t < 4294967296 := by omega
      exact_mod_cast this
    have hp2 := abs_le.mp hp
    have e10 : (1 : ℚ) / 10 ^ 10 = 1 / 10000000000 := by norm_num
    rw [e10] at hp2
    generalize hK : mathRound ((c : ℚ) / (t : ℚ) * 100) = K
    have hK1 : (K : ℚ) ≤ (c : ℚ) / (t : ℚ) * 100 + 1 / 2 := by
      rw [← hK]; exact Int.floor_le _
    have hK2 : (c : ℚ) / (t : ℚ) * 100 + 1 / 2 < (K : ℚ) + 1 := by
      rw [← hK]; exact Int.lt_floor_add_one _
    have hv : (c : ℚ) / (t : ℚ) * 100 + 1 / 2 = (200 * (c : ℚ) + (t : ℚ)) / (2 * (t : ℚ)) := by
      field_simp
      ring
    rw [hv] at hK1 hK2
    rw [le_div_iff₀ (by linarith)] at hK1
    rw [div_lt_iff₀ (by linarith)] at hK2
    have i1 : K * (2 * (t : ℤ)) ≤ 200 * (c : ℤ) + (t : ℤ) := by
      have : ((K * (2 * (t : ℤ)) : ℤ) : ℚ) ≤ ((200 * (c : ℤ) + (t : ℤ) : ℤ) : ℚ) := by
        push_cast; linarith
      exact_mod_cast this
    have i2 : 200 * (c : ℤ) + (t : ℤ) < (K + 1) * (2 * (t : ℤ)) := by
      have : ((200 * (c : ℤ) + (t : ℤ) : ℤ) : ℚ) < (((K + 1) * (2 * (t : ℤ)) : ℤ) : ℚ) := by
        push_cast; linarith
      exact_mod_cast this
    have i3 : K * (2 * (t : ℤ)) ≠ 200 * (c : ℤ) + (t : ℤ) := by
      intro e
      apply hnt (K - 1)
      have eq : (K : ℚ) * (2 * (t : ℚ)) = 200 * (c : ℚ) + (t : ℚ) := by exact_mod_cast e
      push_cast
      field_simp
      linarith
    have j1 : K * (2 * (t : ℤ)) + 1 ≤ 200 * (c : ℤ) + (t : ℤ) := by omega
    have j2 : 200 * (c : ℤ) + (t : ℤ) + 1 ≤ (K + 1) * (2 * (t : ℤ)) := by omega
    have q1 : (K : ℚ) * (2 * (t : ℚ)) + 1 ≤ 200 * (c : ℚ) + (t : ℚ) := by exact_mod_cast j1
    have q2 : 200 * (c : ℚ) + (t : ℚ) + 1 ≤ ((K : ℚ) + 1) * (2 * (t : ℚ)) := by
      exact_mod_cast j2
    have hgap : (1 : ℚ) / 10000000000 < 1 / (2 * (t : ℚ)) := by
      rw [div_lt_div_iff₀ (by norm_num) (by linarith)]
      linarith
    have v1 : (K : ℚ) + 1 / (2 * (t : ℚ)) ≤ (c : ℚ) / (t : ℚ) * 100 + 1 / 2 := by
      rw [hv, le_div_iff₀ (by linarith)]
      have : (1 : ℚ) / (2 * (t : ℚ)) * (2 * (t : ℚ)) = 1 := by field_simp
      linarith
    have v2 : (c : ℚ) / (t : ℚ) * 100 + 1 / 2 ≤ (K : ℚ) + 1 - 1 / (2 * (t : ℚ)) := by
      rw [hv, div_le_iff₀ (by linarith)]
      have : (1 : ℚ) / (2 * (t : ℚ)) * (2 * (t : ℚ)) = 1 := by field_simp
      linarith
    unfold mathRound
    rw [Int.floor_eq_iff]
    constructor <;> linarith [hp2.1, hp2.2]

theorem mathRound_tie (v p : ℚ) (k : ℤ) (hv : v = (k : ℚ) + 1 / 2)
    (hp : |p - v| ≤ 1 / 10 ^ 10) :
    mathRound v = k + 1 ∧ (mathRound p = k + 1 ∨ mathRound p = k) := by
  have hp2 := abs_le.mp hp
  have e10 : (1 : ℚ) / 10 ^ 10 = 1 / 10000000000 := by norm_num
  rw [e10] at hp2
  constructor
  · unfold mathRound
    rw [Int.floor_eq_iff]
    push_cast
    constructor <;> linarith
  · rcases le_or_lt v p with hle | hlt
    · left
      unfold mathRound
      rw [Int.floor_eq_iff]
      push_cast
      constructor <;> linarith [hp2.1, hp2.2]
    · right
      unfold mathRound
      rw [Int.floor_eq_iff]
      constructor <;> linarith [hp2.1, hp2.2]

/-- What holds of a percentage `(completed / total) * 100` guarded by `total > 0`,
for the whole list and for the tasks of one category alike. -/
theorem progressPercentage_facts {fl : ℚ → ℚ} (h : Rounding fl) (tasks : List Task)
    (hlen : tasks.length < 2 ^ 32) :
    completedTasks tasks ≤ tasks.length ∧
    (tasks.length = 0 → progressPercentage fl tasks = 0) ∧
    (0 ≤ progressPercentage fl tasks ∧ progressPercentage fl tasks ≤ 100) ∧
    |progressPercentage fl tasks
        - (completedTasks tasks : ℚ) / (tasks.length : ℚ) * 100| ≤ 1 / 10 ^ 10 ∧
    ((∀ k : ℤ, (completedTasks tasks : ℚ) / (tasks.length : ℚ) * 100 ≠ (k : ℚ) + 1 / 2) →
      mathRound (progressPercentage fl tasks)
        = mathRound ((completedTasks tasks : ℚ) / (tasks.length : ℚ) * 100)) ∧
    (∀ k : ℤ, (completedTasks tasks : ℚ) / (tasks.length : ℚ) * 100 = (k : ℚ) + 1 / 2 →
      mathRound ((completedTasks tasks : ℚ) / (tasks.length : ℚ) * 100) = k + 1 ∧
      (mathRound (progressPercentage fl tasks) = k + 1
        ∨ mathRound (progressPercentage fl tasks) = k)) := by
  have hzero : tasks.length = 0 → progressPercentage fl tasks = 0 := by
    intro h0
    unfold progressPercentage
    rw [if_neg (by omega)]
  have hnear : |progressPercentage fl tasks
        - (completedTasks tasks : ℚ) / (tasks.length : ℚ) * 100| ≤ 1 / 10 ^ 10 := by
    rcases Nat.eq_zero_or_pos tasks.length with h0 | hpos
    · rw [hzero h0, h0]
      norm_num
    · exact progressPercentage_near h tasks hpos
  exact ⟨completedTasks_le tasks, hzero, progressPercentage_bounds h tasks, hnear,
    fun hnt => mathRound_stable _ _ hlen _ hnear hnt,
    fun k hk => mathRound_tie _ _ k hk hnear⟩

/-- C23, as stated, fails: of the forty tasks 23 are completed, 23/40*100 is 57.5
and its nearest integer (a tie goes upward) is 58, but with doubles 23/40 is
rounded downward, the product with 100 is 57.49999999999999 and the tracker
shows 57. -/
theorem C23_tracker_shows_57_for_23_of_40 :
    completedTasks fortyTasks = 23 ∧ fortyTasks.length = 40 ∧
    mathRound ((23 : ℚ) / 40 * 100) = 58 ∧
    percentComplete binary64 fortyTasks = 57 := by
  refine ⟨completedTasks_fortyTasks, by decide, ?_, ?_⟩
  · unfold mathRound
    rw [Int.floor_eq_iff]
    norm_num
  · unfold percentComplete
    rw [progressPercentage_fortyTasks]
    unfold mathRound
    rw [Int.floor_eq_iff]
    norm_num

/-- C23, amended: for every task list (an array has fewer than 2^32 elements) the
completed count is at most the total; the percentage is 0 for the empty list,
where no division is made, lies between 0 and 100 and is within 10^-10 of
completed/total*100; the number shown before `% Complete` lies between 0 and 100
and equals completed/total*100 rounded to the nearest integer unless that
quotient is exactly halfway between two integers k and k + 1, where k + 1 or k
is shown.  The per-category entries are those of work, personal and urgent, with
the counts of the tasks of that category, and the same holds of their
percentage, which is used unrounded. -/
theorem C23_progress_percentages (fl : ℚ → ℚ) (h : Rounding fl) (tasks : List Task)
    (hlen : tasks.length < 2 ^ 32) :
    completedTasks tasks ≤ tasks.length ∧
    (tasks.length = 0 → progressPercentage fl tasks = 0 ∧ percentComplete fl tasks = 0) ∧
    (0 ≤ progressPercentage fl tasks ∧ progressPercentage fl tasks ≤ 100) ∧
    (0 ≤ percentComplete fl tasks ∧ percentComplete fl tasks ≤ 100) ∧
    |progressPercentage fl tasks
        - (completedTasks tasks : ℚ) / (tasks.length : ℚ) * 100| ≤ 1 / 10 ^ 10 ∧
    ((∀ k : ℤ, (completedTasks tasks : ℚ) / (tasks.length : ℚ) * 100 ≠ (k : ℚ) + 1 / 2) →
      percentComplete fl tasks
        = mathRound ((completedTasks tasks : ℚ) / (tasks.length : ℚ) * 100)) ∧
    (∀ k : ℤ, (completedTasks tasks : ℚ) / (tasks.length : ℚ) * 100 = (k : ℚ) + 1 / 2 →
      mathRound ((completedTasks tasks : ℚ) / (tasks.length : ℚ) * 100) = k + 1 ∧
      (percentComplete fl tasks = k + 1 ∨ percentComplete fl tasks = k)) ∧
    (getTasksByCategory fl tasks).map (fun stat => stat.category)
      = ["work", "personal", "urgent"] ∧
    (∀ stat ∈ getTasksByCategory fl tasks,
      stat.total = (tasks.filter (fun task =>
        decide (Obj.get task "category" = Value.str stat.category))).length ∧
      stat.completed = (tasks.filter (fun task =>
        decide (Obj.get task "category" = Value.str stat.category)
          && Value.truthy (Obj.get task "completed"))).length ∧
      stat.completed ≤ stat.total ∧
      (stat.total = 0 → stat.percentage = 0) ∧
      (0 ≤ stat.percentage ∧ stat.percentage ≤ 100) ∧
      |stat.percentage - (stat.completed : ℚ) / (stat.total : ℚ) * 100| ≤ 1 / 10 ^ 10 ∧
      ((∀ k : ℤ, (stat.completed : ℚ) / (stat.total : ℚ) * 100 ≠ (k : ℚ) + 1 / 2) →
        mathRound stat.percentage
          = mathRound ((stat.completed : ℚ) / (stat.total : ℚ) * 100))) := by
  have hf := progressPercentage_facts h tasks hlen
  refine ⟨hf.1, fun h0 => ⟨hf.2.1 h0, ?_⟩, hf.2.2.1,
    mathRound_bounds _ hf.2.2.1.1 hf.2.2.1.2, hf.2.2.2.1, hf.2.2.2.2.1, hf.2.2.2.2.2, rfl, ?_⟩
  · rw [percentComplete, hf.2.1 h0, mathRound_zero]
  · intro stat hstat
    simp only [getTasksByCategory, List.map_cons, List.map_nil, List.mem_cons,
      List.mem_singleton, List.not_mem_nil, or_false] at hstat
    rcases hstat with rfl | rfl | rfl <;>
      exact
        have hs := progressPercentage_facts h
          (tasks.filter (fun task => decide (Obj.get task "category" = Value.str _)))
          (lt_of_le_of_lt (List.length_filter_le _ _) hlen)
        ⟨rfl, by simp only [completedTasks, List.filter_filter, Bool.and_comm],
          hs.1, hs.2.1, hs.2.2.1, hs.2.2.2.1, hs.2.2.2.2.1⟩

/-- C23, amended, with the doubles at the two mocked tasks, one of them completed: 50 is
shown. -/
theorem C23_progress_percentages_witness :
    [testTask1, testTask2].length < 2 ^ 32 ∧
    completedTasks [testTask1, testTask2] ≤ [testTask1, testTask2].length ∧
    |progressPercentage binary64 [testTask1, testTask2] - 50| ≤ 1 / 10 ^ 10 ∧
    percentComplete binary64 [testTask1, testTask2] = 50 := by
  have h := C23_progress_percentages binary64 rounding_binary64 [testTask1, testTask2]
    (by decide)
  have hc : completedTasks [testTask1, testTask2] = 1 := by decide
  have hl : [testTask1, testTask2].length = 2 := rfl
  have e : ((1 : ℕ) : ℚ) / ((2 : ℕ) : ℚ) * 100 = ((50 : ℤ) : ℚ) := by norm_num
  have h5 := h.2.2.2.2.1
  have h6 := h.2.2.2.2.2.1
  rw [hc, hl, e] at h5 h6
  refine ⟨by decide, h.1, by simpa using h5, ?_⟩
  rw [h6 (fun k => int_ne_int_add_half 50 k)]
  unfold mathRound
  rw [Int.floor_eq_iff]
  norm_num

/-! ## The priority score: claim C26 -/

theorem categoryPoints_ge (task : Task) : 10 ≤ categoryPoints task := by
  unfold categoryPoints
  split_ifs <;> omega

/-- C26: for every task whose createdAt is a date, with or without a deadline,
calculatePriority returns a number between 0 and 100; when createdAt is not
later than now the number is at least 10. -/
theorem C26_priority_between_0_and_100 (fl : ℚ → ℚ) (h : Rounding fl)
    (lower : String → String) (parseDate : Value → Option Int) (now : Int) (task : Task)
    (createdAt : Int) (hc : parseDate (Obj.get task "createdAt") = some createdAt) :
    ∃ score : ℚ, calculatePriority fl lower parseDate now task = some score ∧
      0 ≤ score ∧ score ≤ 100 ∧ (createdAt ≤ now → 10 ≤ score) := by
  unfold calculatePriority
  rw [hc]
  refine ⟨_, rfl, le_min (le_max_right _ _) (by norm_num), min_le_right _ _, fun hle => ?_⟩
  have hage : (0 : ℚ) ≤ ((now - createdAt : Int) : ℚ) / 86400000 := by
    apply div_nonneg _ (by norm_num)
    have : (0 : Int) ≤ now - createdAt := by omega
    exact_mod_cast this
  have hfage : 0 ≤ fl (((now - createdAt : Int) : ℚ) / 86400000) := by
    have := h.mono _ _ hage
    rwa [h.zero] at this
  have hboost : 0 ≤ fl (fl (((now - createdAt : Int) : ℚ) / 86400000) * 2) := by
    have := h.mono 0 (fl (((now - createdAt : Int) : ℚ) / 86400000) * 2) (by linarith)
    rwa [h.zero] at this
  have hmin : (0 : ℚ) ≤ min (fl (fl (((now - createdAt : Int) : ℚ) / 86400000) * 2)) 20 :=
    le_min hboost (by norm_num)
  have hpts : (10 : ℚ) ≤ ((deadlinePoints fl parseDate now task + categoryPoints task
      + wordPoints lower task : Nat) : ℚ) := by
    have := categoryPoints_ge task
    exact_mod_cast (by omega : 10 ≤ deadlinePoints fl parseDate now task
      + categoryPoints task + wordPoints lower task)
  have hsum := h.mono 10 _ (by linarith :
    (10 : ℚ) ≤ ((deadlinePoints fl parseDate now task + categoryPoints task
      + wordPoints lower task : Nat) : ℚ)
      + min (fl (fl (((now - createdAt : Int) : ℚ) / 86400000) * 2)) 20)
  rw [h.ten] at hsum
  exact le_min (le_trans hsum (le_max_left _ _)) (by norm_num)

/-- C26 with exact arithmetic at a task created at time 0, scored at time 1000. -/
theorem C26_priority_between_0_and_100_witness :
    ∃ score : ℚ, calculatePriority id lowerAscii timeValue 1000 createdTask = some score ∧
      0 ≤ score ∧ score ≤ 100 ∧ 10 ≤ score :=
  match C26_priority_between_0_and_100 id rounding_id lowerAscii timeValue 1000 createdTask 0
      rfl with
  | ⟨score, h1, h2, h3, h4⟩ => ⟨score, h1, h2, h3, h4 (by decide)⟩

/-! ## Lemmas on the weighted average -/

theorem Rounding.lit {fl : ℚ → ℚ} (h : Rounding fl) (v : ℚ) (h0 : -100 ≤ v) (h1 : v ≤ 100) :
    v - 1 / 10 ^ 13 ≤ fl v ∧ fl v ≤ v + 1 / 10 ^ 13 :=
  h.between le_rfl le_rfl h0 h1

theorem Rounding.mul_between {fl : ℚ → ℚ} (h : Rounding fl) {a b al ah bl bh : ℚ}
    (ha0 : 0 ≤ al) (ha1 : al ≤ a) (ha2 : a ≤ ah) (hb0 : 0 ≤ bl) (hb1 : bl ≤ b) (hb2 : b ≤ bh)
    (hs : ah * bh ≤ 100) :
    al * bl - 1 / 10 ^ 13 ≤ fl (a * b) ∧ fl (a * b) ≤ ah * bh + 1 / 10 ^ 13 := by
  have h1 : al * bl ≤ a * b := mul_le_mul ha1 hb1 hb0 (le_trans ha0 ha1)
  have h2 : a * b ≤ ah * bh := mul_le_mul ha2 hb2 (le_trans hb0 hb1) (le_trans (le_trans ha0 ha1) ha2)
  have h3 : (-100 : ℚ) ≤ al * bl := le_trans (by norm_num) (mul_nonneg ha0 hb0)
  exact h.between h1 h2 h3 hs

theorem Rounding.add_between {fl : ℚ → ℚ} (h : Rounding fl) {a b al ah bl bh : ℚ}
    (ha1 : al ≤ a) (ha2 : a ≤ ah) (hb1 : bl ≤ b) (hb2 : b ≤ bh)
    (h0 : -100 ≤ al + bl) (hs : ah + bh ≤ 100) :
    al + bl - 1 / 10 ^ 13 ≤ fl (a + b) ∧ fl (a + b) ≤ ah + bh + 1 / 10 ^ 13 :=
  h.between (add_le_add ha1 hb1) (add_le_add ha2 hb2) h0 hs

theorem weightedSum_bounds {fl : ℚ → ℚ} (h : Rounding fl) (c x d u ul : ℚ)
    (hc1 : 6499 / 10000 ≤ c) (hc2 : c ≤ 8501 / 10000)
    (hx1 : 5999 / 10000 ≤ x) (hx2 : x ≤ 8001 / 10000)
    (hd1 : 4999 / 10000 ≤ d) (hd2 : d ≤ 9001 / 10000)
    (hul : 0 ≤ ul) (hu1 : ul ≤ u) (hu2 : u ≤ 10001 / 10000) :
    4643 / 10000 + ul * (1999 / 10000) ≤ weightedSum fl c x d u ∧
    weightedSum fl c x d u ≤ 8862 / 10000 := by
  have e : (1 : ℚ) / 10 ^ 13 = 1 / 10000000000000 := by norm_num
  have w3 := h.lit 0.3 (by norm_num) (by norm_num)
  have w2 := h.lit 0.2 (by norm_num) (by norm_num)
  rw [e] at w3 w2
  norm_num at w3 w2
  have w3l : (2999 / 10000 : ℚ) ≤ fl 0.3 := by norm_num; linarith [w3.1]
  have w3h : fl 0.3 ≤ (3001 / 10000 : ℚ) := by norm_num; linarith [w3.2]
  have w2l : (1999 / 10000 : ℚ) ≤ fl 0.2 := by norm_num; linarith [w2.1]
  have w2h : fl 0.2 ≤ (2001 / 10000 : ℚ) := by norm_num; linarith [w2.2]
  have p1 := h.mul_between (by norm_num) hc1 hc2 (by norm_num) w3l w3h (by norm_num)
  have p2 := h.mul_between (by norm_num) hx1 hx2 (by norm_num) w2l w2h (by norm_num)
  have p3 := h.mul_between (by norm_num) hd1 hd2 (by norm_num) w3l w3h (by norm_num)
  have p4 := h.mul_between hul hu1 hu2 (by norm_num) w2l w2h (by norm_num)
  rw [e] at p1 p2 p3 p4
  have z0 : (0 : ℚ) ≤ 0 := le_rfl
  have s1 := h.add_between z0 z0 p1.1 p1.2 (by norm_num) (by norm_num)
  rw [e] at s1
  have s2 := h.add_between s1.1 s1.2 p2.1 p2.2 (by norm_num) (by norm_num)
  rw [e] at s2
  have s3 := h.add_between s2.1 s2.2 p3.1 p3.2 (by norm_num) (by norm_num)
  rw [e] at s3
  have hp4lo : (-1 : ℚ) ≤ ul * (1999 / 10000) - 1 / 10000000000000 := by
    have := mul_nonneg hul (by norm_num : (0 : ℚ) ≤ 1999 / 10000)
    linarith
  have s4 := h.add_between s3.1 s3.2 p4.1 p4.2 (by linarith) (by norm_num)
  rw [e] at s4
  unfold weightedSum
  constructor
  · linarith [s4.1]
  · linarith [s4.2]

theorem Rounding.weighted_term {fl : ℚ → ℚ} (h : Rounding fl) (a v : ℚ)
    (ha0 : 0 ≤ a) (ha1 : a ≤ 2) (hv0 : 0 ≤ v) (hv1 : v ≤ 1) :
    |fl (a * fl v) - a * v| ≤ 3 / 10 ^ 13 := by
  have e : (1 : ℚ) / 10 ^ 13 = 1 / 10000000000000 := by norm_num
  have e3 : (3 : ℚ) / 10 ^ 13 = 3 / 10000000000000 := by norm_num
  have hw := h.lit v (by linarith) (by linarith)
  rw [e] at hw
  have hwl : 0 ≤ fl v := by
    have := h.mono _ _ hv0
    rwa [h.zero] at this
  have hwh : fl v ≤ 1 := by
    have := h.mono _ _ hv1
    rwa [h.one] at this
  have hp0 : 0 ≤ a * fl v := mul_nonneg ha0 hwl
  have hp1 : a * fl v ≤ 2 * 1 := mul_le_mul ha1 hwh hwl (by norm_num)
  have hn := abs_le.mp (h.near (a * fl v) (abs_le.mpr ⟨by linarith, by linarith⟩))
  rw [e] at hn
  have hd1 : a * (fl v - v) ≤ 2 * (1 / 10000000000000) :=
    le_trans (mul_le_mul_of_nonneg_left (by linarith [hw.2]) ha0)
      (mul_le_mul_of_nonneg_right ha1 (by norm_num))
  have hd2 : a * (v - fl v) ≤ 2 * (1 / 10000000000000) :=
    le_trans (mul_le_mul_of_nonneg_left (by linarith [hw.1]) ha0)
      (mul_le_mul_of_nonneg_right ha1 (by norm_num))
  rw [abs_le, e3]
  constructor <;> nlinarith [hn.1, hn.2, hd1, hd2]

theorem Rounding.sum_near {fl : ℚ → ℚ} (h : Rounding fl) (p1 p2 p3 p4 a1 a2 a3 a4 : ℚ)
    (h1 : |p1 - a1| ≤ 3 / 10 ^ 13) (h2 : |p2 - a2| ≤ 3 / 10 ^ 13)
    (h3 : |p3 - a3| ≤ 3 / 10 ^ 13) (h4 : |p4 - a4| ≤ 3 / 10 ^ 13)
    (b1 : 0 ≤ a1 ∧ a1 ≤ 1) (b2 : 0 ≤ a2 ∧ a2 ≤ 1) (b3 : 0 ≤ a3 ∧ a3 ≤ 1)
    (b4 : 0 ≤ a4 ∧ a4 ≤ 1) :
    |fl (fl (fl (fl (0 + p1) + p2) + p3) + p4) - (a1 + a2 + a3 + a4)| ≤ 1 / 10 ^ 11 := by
  have e : (1 : ℚ) / 10 ^ 13 = 1 / 10000000000000 := by norm_num
  have e3 : (3 : ℚ) / 10 ^ 13 = 3 / 10000000000000 := by norm_num
  have e11 : (1 : ℚ) / 10 ^ 11 = 1 / 100000000000 := by norm_num
  rw [e3] at h1 h2 h3 h4
  have t1 := abs_le.mp h1
  have t2 := abs_le.mp h2
  have t3 := abs_le.mp h3
  have t4 := abs_le.mp h4
  have n1 := abs_le.mp (h.near (0 + p1)
    (abs_le.mpr ⟨by linarith [t1.1, b1.1], by linarith [t1.2, b1.2]⟩))
  rw [e] at n1
  generalize fl (0 + p1) = s1 at n1 ⊢
  have n2 := abs_le.mp (h.near (s1 + p2)
    (abs_le.mpr ⟨by linarith [t1.1, b1.1, t2.1, b2.1, n1.1],
      by linarith [t1.2, b1.2, t2.2, b2.2, n1.2]⟩))
  rw [e] at n2
  generalize fl (s1 + p2) = s2 at n2 ⊢
  have n3 := abs_le.mp (h.near (s2 + p3)
    (abs_le.mpr ⟨by linarith [t1.1, b1.1, t2.1, b2.1, n1.1, n2.1, t3.1, b3.1],
      by linarith [t1.2, b1.2, t2.2, b2.2, n1.2, n2.2, t3.2, b3.2]⟩))
  rw [e] at n3
  generalize fl (s2 + p3) = s3 at n3 ⊢
  have n4 := abs_le.mp (h.near (s3 + p4)
    (abs_le.mpr ⟨by linarith [t1.1, b1.1, t2.1, b2.1, n1.1, n2.1, t3.1, b3.1, n3.1, t4.1,
        b4.1],
      by linarith [t1.2, b1.2, t2.2, b2.2, n1.2, n2.2, t3.2, b3.2, n3.2, t4.2, b4.2]⟩))
  rw [e] at n4
  generalize fl (s3 + p4) = s4 at n4 ⊢
  rw [abs_le, e11]
  constructor <;>
    linarith [t1.1, t1.2, t2.1, t2.2, t3.1, t3.2, t4.1, t4.2, n1.1, n1.2, n2.1, n2.2, n3.1,
      n3.2, n4.1, n4.2]

theorem weightedSum_near {fl : ℚ → ℚ} (h : Rounding fl) (c x d u : ℚ)
    (hc0 : 0 ≤ c) (hc1 : c ≤ 2) (hx0 : 0 ≤ x) (hx1 : x ≤ 2) (hd0 : 0 ≤ d) (hd1 : d ≤ 2)
    (hu0 : 0 ≤ u) (hu1 : u ≤ 2) :
    |weightedSum fl c x d u - (c * (3 / 10) + x * (2 / 10) + d * (3 / 10) + u * (2 / 10))|
      ≤ 1 / 10 ^ 11 := by
  have e03 : (0.3 : ℚ) = 3 / 10 := by norm_num
  have e02 : (0.2 : ℚ) = 2 / 10 := by norm_num
  unfold weightedSum
  rw [e03, e02]
  apply h.sum_near
  · exact h.weighted_term c _ hc0 hc1 (by norm_num) (by norm_num)
  · exact h.weighted_term x _ hx0 hx1 (by norm_num) (by norm_num)
  · exact h.weighted_term d _ hd0 hd1 (by norm_num) (by norm_num)
  · exact h.weighted_term u _ hu0 hu1 (by norm_num) (by norm_num)
  · constructor <;> linarith
  · constructor <;> linarith
  · constructor <;> linarith
  · constructor <;> linarith

theorem Rounding.lit_loose {fl : ℚ → ℚ} (h : Rounding fl) (v : ℚ) (h0 : 0 ≤ v) (h1 : v ≤ 1) :
    v - 1 / 10000 ≤ fl v ∧ fl v ≤ v + 1 / 10000 := by
  have e : (1 : ℚ) / 10 ^ 13 = 1 / 10000000000000 := by norm_num
  have hw := h.lit v (by linarith) (by linarith)
  rw [e] at hw
  constructor <;> linarith [hw.1, hw.2]

theorem complexityFactor_bounds {fl : ℚ → ℚ} (h : Rounding fl) (lower : String → String)
    (task : Task) :
    5999 / 10000 ≤ complexityFactor fl lower task
      ∧ complexityFactor fl lower task ≤ 8001 / 10000 := by
  have h1 := h.lit_loose 0.6 (by norm_num) (by norm_num)
  have h2 := h.lit_loose 0.8 (by norm_num) (by norm_num)
  norm_num at h1 h2
  unfold complexityFactor
  split_ifs <;> constructor <;> norm_num <;> linarith [h1.1, h1.2, h2.1, h2.2]

theorem deadlineFactor_bounds {fl : ℚ → ℚ} (h : Rounding fl)
    (parseDate : Value → Option Int) (now : Int) (task : Task) :
    4999 / 10000 ≤ deadlineFactor fl parseDate now task
      ∧ deadlineFactor fl parseDate now task ≤ 9001 / 10000 := by
  have h1 := h.lit_loose 0.9 (by norm_num) (by norm_num)
  have h2 := h.lit_loose 0.8 (by norm_num) (by norm_num)
  have h3 := h.lit_loose 0.6 (by norm_num) (by norm_num)
  have h4 := h.lit_loose 0.5 (by norm_num) (by norm_num)
  norm_num at h1 h2 h3 h4
  unfold deadlineFactor
  cases hoursUntilDeadline fl parseDate now task with
  | none =>
      simp only
      split_ifs <;> constructor <;> norm_num <;>
        linarith [h1.1, h1.2, h2.1, h2.2, h3.1, h3.2, h4.1, h4.2]
  | some hours =>
      simp only
      split_ifs <;> constructor <;> norm_num <;>
        linarith [h1.1, h1.2, h2.1, h2.2, h3.1, h3.2, h4.1, h4.2]

theorem userPatternFactor_bounds {fl : ℚ → ℚ} (h : Rounding fl) (userHistory : List Task) :
    0 ≤ userPatternFactor fl userHistory ∧ userPatternFactor fl userHistory ≤ 10001 / 10000 ∧
    (userHistory = [] → 6999 / 10000 ≤ userPatternFactor fl userHistory) := by
  have h4 := h.lit_loose 0.7 (by norm_num) (by norm_num)
  norm_num at h4
  unfold userPatternFactor
  by_cases ht : userHistory.length > 0
  · rw [if_pos ht]
    have hpos : (0 : ℚ) < (userHistory.length : ℚ) := by exact_mod_cast ht
    have hc : (completedTasks userHistory : ℚ) ≤ (userHistory.length : ℚ) := by
      exact_mod_cast completedTasks_le userHistory
    have hq0 : (0 : ℚ) ≤ (completedTasks userHistory : ℚ) / (userHistory.length : ℚ) :=
      div_nonneg (by positivity) (le_of_lt hpos)
    have hq1 : (completedTasks userHistory : ℚ) / (userHistory.length : ℚ) ≤ 1 :=
      (div_le_one hpos).mpr hc
    have hf0 := h.mono _ _ hq0
    have hf1 := h.mono _ _ hq1
    rw [h.zero] at hf0
    rw [h.one] at hf1
    refine ⟨hf0, by linarith, fun he => ?_⟩
    rw [he] at ht
    simp at ht
  · rw [if_neg ht]
    refine ⟨by linarith [h4.1], by norm_num; linarith [h4.2], fun _ => by norm_num; linarith [h4.1]⟩

theorem categoryFactor_grid (task : Task)
    (hcat : Value.toText (Obj.get task "category") ∉ inheritedKeys) :
    ∃ m : ℤ, 13 ≤ m ∧ m ≤ 17 ∧
      ∀ fl : ℚ → ℚ, categoryFactor fl task = some (fl ((m : ℚ) / 20)) := by
  unfold categoryFactor
  by_cases h1 : Value.toText (Obj.get task "category") = "urgent"
  · refine ⟨17, by norm_num, by norm_num, fun fl => ?_⟩
    rw [if_pos h1]; norm_num
  · by_cases h2 : Value.toText (Obj.get task "category") = "work"
    · refine ⟨15, by norm_num, by norm_num, fun fl => ?_⟩
      rw [if_neg h1, if_pos h2]; norm_num
    · by_cases h3 : Value.toText (Obj.get task "category") = "personal"
      · refine ⟨13, by norm_num, by norm_num, fun fl => ?_⟩
        rw [if_neg h1, if_neg h2, if_pos h3]; norm_num
      · refine ⟨14, by norm_num, by norm_num, fun fl => ?_⟩
        rw [if_neg h1, if_neg h2, if_neg h3, if_neg hcat]; norm_num

theorem complexityFactor_grid (lower : String → String) (task : Task) :
    ∃ m : ℤ, 12 ≤ m ∧ m ≤ 16 ∧
      ∀ fl : ℚ → ℚ, complexityFactor fl lower task = fl ((m : ℚ) / 20) := by
  unfold complexityFactor
  by_cases h1 : (complexWords.any (fun word => includes (taskText lower task) word)) = true
  · refine ⟨12, by norm_num, by norm_num, fun fl => ?_⟩
    rw [if_pos h1]; norm_num
  · refine ⟨16, by norm_num, by norm_num, fun fl => ?_⟩
    rw [if_neg h1]; norm_num

theorem userPatternFactor_grid (userHistory : List Task) :
    ∃ k n : ℕ, 0 < n ∧ k ≤ n ∧ n ≤ max userHistory.length 10 ∧
      (userHistory = [] → (k : ℚ) / (n : ℚ) = 7 / 10) ∧
      ∀ fl : ℚ → ℚ, userPatternFactor fl userHistory = fl ((k : ℚ) / (n : ℚ)) := by
  unfold userPatternFactor
  by_cases ht : userHistory.length > 0
  · refine ⟨completedTasks userHistory, userHistory.length, ht, completedTasks_le _,
      le_max_left _ _, fun he => ?_, fun fl => ?_⟩
    · rw [he] at ht; simp at ht
    · rw [if_pos ht]
  · refine ⟨7, 10, by norm_num, by norm_num, le_max_right _ _, fun _ => by norm_num,
      fun fl => ?_⟩
    rw [if_neg ht]; norm_num

theorem Rounding.hours_lt_iff {fl : ℚ → ℚ} (h : Rounding fl) (d N : ℤ) (hN0 : 0 < N)
    (hN : N ≤ 1000) :
    fl ((d : ℚ) / 3600000) < (N : ℚ) ↔ (d : ℚ) / 3600000 < (N : ℚ) := by
  have hNq0 : (0 : ℚ) < (N : ℚ) := by exact_mod_cast hN0
  have hNq : (N : ℚ) ≤ 1000 := by exact_mod_cast hN
  constructor
  · intro hlt
    by_contra hge
    have hm := h.mono _ _ (not_lt.mp hge)
    rw [h.exact_int N (by rw [abs_of_pos hN0]; omega)] at hm
    linarith
  · intro hlt
    rcases le_or_lt ((d : ℚ) / 3600000) 0 with hx | hx
    · have hm := h.mono _ _ hx
      rw [h.zero] at hm
      linarith
    · have hd : d < N * 3600000 := by
        have : ((d : ℤ) : ℚ) < ((N * 3600000 : ℤ) : ℚ) := by
          push_cast
          rw [div_lt_iff₀ (by norm_num)] at hlt
          exact hlt
        exact_mod_cast this
      have hd2 : d + 1 ≤ N * 3600000 := by omega
      have hd3 : (d : ℚ) + 1 ≤ (N : ℚ) * 3600000 := by exact_mod_cast hd2
      have hx2 : (d : ℚ) / 3600000 ≤ (N : ℚ) - 1 / 3600000 := by
        rw [div_le_iff₀ (by norm_num)]
        linarith
      have hr := abs_le.mp (h.rel_err ((d : ℚ) / 3600000))
      rw [abs_of_pos hx] at hr
      have hb : (d : ℚ) / 3600000 / 2 ^ 53 ≤ 1000 / 2 ^ 53 :=
        div_le_div_of_nonneg_right (by linarith) (by norm_num)
      have hc : (1000 : ℚ) / 2 ^ 53 < 1 / 3600000 := by norm_num
      linarith [hr.2]

theorem deadlineFactor_grid {fl : ℚ → ℚ} (h : Rounding fl) (parseDate : Value → Option Int)
    (now : Int) (task : Task) :
    ∃ m : ℤ, 10 ≤ m ∧ m ≤ 18 ∧
      deadlineFactor fl parseDate now task = fl ((m : ℚ) / 20) ∧
      deadlineFactor id parseDate now task = (m : ℚ) / 20 := by
  unfold deadlineFactor hoursUntilDeadline
  by_cases ht : Value.truthy (Obj.get task "deadline") = true
  · rw [if_pos ht, if_pos ht]
    cases parseDate (Obj.get task "deadline") with
    | none =>
        refine ⟨12, by norm_num, by norm_num, ?_, ?_⟩
        · simp only; norm_num
        · simp only [id]; norm_num
    | some deadline =>
        have i2 := h.hours_lt_iff (deadline - now) 2 (by norm_num) (by norm_num)
        have i24 := h.hours_lt_iff (deadline - now) 24 (by norm_num) (by norm_num)
        simp only [Int.cast_ofNat] at i2 i24
        simp only [id]
        by_cases c2 : ((deadline - now : Int) : ℚ) / 3600000 < 2
        · refine ⟨18, by norm_num, by norm_num, ?_, ?_⟩
          · rw [if_pos (i2.mpr c2)]; norm_num
          · rw [if_pos c2]; norm_num
        · by_cases c24 : ((deadline - now : Int) : ℚ) / 3600000 < 24
          · refine ⟨16, by norm_num, by norm_num, ?_, ?_⟩
            · rw [if_neg (fun a => c2 (i2.mp a)), if_pos (i24.mpr c24)]; norm_num
            · rw [if_neg c2, if_pos c24]; norm_num
          · refine ⟨12, by norm_num, by norm_num, ?_, ?_⟩
            · rw [if_neg (fun a => c2 (i2.mp a)), if_neg (fun a => c24 (i24.mp a))]; norm_num
            · rw [if_neg c2, if_neg c24]; norm_num
  · rw [if_neg ht, if_neg ht]
    refine ⟨10, by norm_num, by norm_num, ?_, ?_⟩
    · norm_num
    · simp only [id]; norm_num

theorem weightedSum_id (c x d u : ℚ) :
    weightedSum id c x d u = c * (3 / 10) + x * (2 / 10) + d * (3 / 10) + u * (2 / 10) := by
  unfold weightedSum
  simp only [id]
  norm_num

theorem grid_gap (M T : ℤ) (k n : ℕ) (hn : 0 < n) (hn2 : n ≤ 10 ^ 7) (A : ℚ)
    (hA : A = (M : ℚ) / 200 + (k : ℚ) / (n : ℚ) * (2 / 10)) (hne : A ≠ (T : ℚ) / 10) :
    1 / 2000000000 ≤ |A - (T : ℚ) / 10| := by
  have hnq : (0 : ℚ) < (n : ℚ) := by exact_mod_cast hn
  have hnq2 : (n : ℚ) ≤ 10000000 := by
    have : n ≤ 10000000 := by omega
    exact_mod_cast this
  have hd : A - (T : ℚ) / 10
      = ((M * n + 40 * k - 20 * T * n : ℤ) : ℚ) / (200 * (n : ℚ)) := by
    rw [hA]
    push_cast
    field_simp
    ring
  have hN : M * n + 40 * k - 20 * T * n ≠ 0 := by
    intro e
    apply hne
    rw [e] at hd
    simp only [Int.cast_zero, zero_div] at hd
    linarith
  have hN1 : (1 : ℤ) ≤ |M * n + 40 * k - 20 * T * n| := Int.one_le_abs hN
  have hN2 : (1 : ℚ) ≤ |((M * n + 40 * k - 20 * T * n : ℤ) : ℚ)| := by
    rw [← Int.cast_abs]
    exact_mod_cast hN1
  rw [hd, abs_div, abs_of_pos (by linarith : (0 : ℚ) < 200 * (n : ℚ))]
  rw [div_le_div_iff₀ (by norm_num) (by linarith)]
  nlinarith

/-! ## The doubles of one prediction -/

theorem binary64_lit_085 :
    binary64 (0.85) = 7656119366529843 / 9007199254740992 :=
  binary64_eval _ _ 53 7656119366529843 (by norm_num) (by norm_num) (by norm_num)
    (by norm_num) (by norm_num)

theorem binary64_lit_03 :
    binary64 (0.3) = 5404319552844595 / 18014398509481984 :=
  binary64_eval _ _ 54 5404319552844595 (by norm_num) (by norm_num) (by norm_num)
    (by norm_num) (by norm_num)

theorem binary64_lit_06 :
    binary64 (0.6) = 5404319552844595 / 9007199254740992 :=
  binary64_eval _ _ 53 5404319552844595 (by norm_num) (by norm_num) (by norm_num)
    (by norm_num) (by norm_num)

theorem binary64_lit_02 :
    binary64 (0.2) = 3602879701896397 / 18014398509481984 :=
  binary64_eval _ _ 55 7205759403792794 (by norm_num) (by norm_num) (by norm_num)
    (by norm_num) (by norm_num)

theorem binary64_lit_05 :
    binary64 (0.5) = 1 / 2 :=
  binary64_eval _ _ 53 4503599627370496 (by norm_num) (by norm_num) (by norm_num)
    (by norm_num) (by norm_num)

theorem binary64_7_8 :
    binary64 (7 / 8) = 7 / 8 :=
  binary64_eval _ _ 53 7881299347898368 (by norm_num) (by norm_num) (by norm_num)
    (by norm_num) (by norm_num)

theorem binary64_lit_07 :
    binary64 (0.7) = 3152519739159347 / 4503599627370496 :=
  binary64_eval _ _ 53 6305039478318694 (by norm_num) (by norm_num) (by norm_num)
    (by norm_num) (by norm_num)

theorem binary64_term1 :
    binary64 (7656119366529843 / 9007199254740992 * (5404319552844595 / 18014398509481984))
      = 2296835809958953 / 9007199254740992 :=
  binary64_eval _ _ 54 4593671619917906 (by norm_num) (by norm_num) (by norm_num)
    (by norm_num) (by norm_num)

theorem binary64_sum1 :
    binary64 (0 + 2296835809958953 / 9007199254740992) = 2296835809958953 / 9007199254740992 :=
  binary64_eval _ _ 54 4593671619917906 (by norm_num) (by norm_num) (by norm_num)
    (by norm_num) (by norm_num)

theorem binary64_term2 :
    binary64 (5404319552844595 / 9007199254740992 * (3602879701896397 / 18014398509481984))
      = 1080863910568919 / 9007199254740992 :=
  binary64_eval _ _ 56 8646911284551352 (by norm_num) (by norm_num) (by norm_num)
    (by norm_num) (by norm_num)

theorem binary64_sum2 :
    binary64 (2296835809958953 / 9007199254740992 + 1080863910568919 / 9007199254740992) = 3 / 8 :=
  binary64_eval _ _ 54 6755399441055744 (by norm_num) (by norm_num) (by norm_num)
    (by norm_num) (by norm_num)

theorem binary64_term3 :
    binary64 (1 / 2 * (5404319552844595 / 18014398509481984))
      = 5404319552844595 / 36028797018963968 :=
  binary64_eval _ _ 55 5404319552844595 (by norm_num) (by norm_num) (by norm_num)
    (by norm_num) (by norm_num)

theorem binary64_sum3 :
    binary64 (3 / 8 + 5404319552844595 / 36028797018963968) = 4728779608739021 / 9007199254740992 :=
  binary64_eval _ _ 53 4728779608739021 (by norm_num) (by norm_num) (by norm_num)
    (by norm_num) (by norm_num)

theorem binary64_term4 :
    binary64 (7 / 8 * (3602879701896397 / 18014398509481984))
      = 6305039478318695 / 36028797018963968 :=
  binary64_eval _ _ 55 6305039478318695 (by norm_num) (by norm_num) (by norm_num)
    (by norm_num) (by norm_num)

theorem binary64_sum4 :
    binary64 (4728779608739021 / 9007199254740992 + 6305039478318695 / 36028797018963968)
      = 6305039478318695 / 9007199254740992 :=
  binary64_eval _ _ 53 6305039478318695 (by norm_num) (by norm_num) (by norm_num)
    (by norm_num) (by norm_num)

theorem binary64_sum4_times_100 :
    binary64 (6305039478318695 / 9007199254740992 * 100) = 70 :=
  binary64_eval _ _ 46 4925812092436480 (by norm_num) (by norm_num) (by norm_num)
    (by norm_num) (by norm_num)

/-! ## The completion prediction: claim C28 -/

theorem prediction_facts {fl : ℚ → ℚ} (h : Rounding fl) (lower : String → String)
    (parseDate : Value → Option Int) (now : Int) (task : Task) (userHistory : List Task)
    (hcat : Value.toText (Obj.get task "category") ∉ inheritedKeys) :
    ∃ (M : ℤ) (k n : ℕ) (c p : ℚ),
      0 < n ∧ n ≤ max userHistory.length 10 ∧
      categoryFactor id task = some c ∧
      prediction id lower parseDate now task userHistory
        = some (c * (3 / 10) + complexityFactor id lower task * (2 / 10)
            + deadlineFactor id parseDate now task * (3 / 10)
            + userPatternFactor id userHistory * (2 / 10)) ∧
      c * (3 / 10) + complexityFactor id lower task * (2 / 10)
            + deadlineFactor id parseDate now task * (3 / 10)
            + userPatternFactor id userHistory * (2 / 10)
        = (M : ℚ) / 200 + (k : ℚ) / (n : ℚ) * (2 / 10) ∧
      prediction fl lower parseDate now task userHistory = some p ∧
      |p - ((M : ℚ) / 200 + (k : ℚ) / (n : ℚ) * (2 / 10))| ≤ 1 / 10 ^ 10 ∧
      4643 / 10000 ≤ p ∧ p ≤ 8862 / 10000 ∧ (userHistory = [] → 6042 / 10000 ≤ p) := by
  obtain ⟨mc, hmc1, hmc2, hc⟩ := categoryFactor_grid task hcat
  obtain ⟨mx, hmx1, hmx2, hx⟩ := complexityFactor_grid lower task
  obtain ⟨md, hmd1, hmd2, hdfl, hdid⟩ := deadlineFactor_grid h parseDate now task
  obtain ⟨k, n, hn, hkn, hnmax, hempty, hu⟩ := userPatternFactor_grid userHistory
  have hnq : (0 : ℚ) < (n : ℚ) := by exact_mod_cast hn
  have hknq : (k : ℚ) ≤ (n : ℚ) := by exact_mod_cast hkn
  have qc1 : (13 : ℚ) ≤ (mc : ℚ) := by exact_mod_cast hmc1
  have qc2 : (mc : ℚ) ≤ 17 := by exact_mod_cast hmc2
  have qx1 : (12 : ℚ) ≤ (mx : ℚ) := by exact_mod_cast hmx1
  have qx2 : (mx : ℚ) ≤ 16 := by exact_mod_cast hmx2
  have qd1 : (10 : ℚ) ≤ (md : ℚ) := by exact_mod_cast hmd1
  have qd2 : (md : ℚ) ≤ 18 := by exact_mod_cast hmd2
  have qu0 : (0 : ℚ) ≤ (k : ℚ) / (n : ℚ) := div_nonneg (by positivity) (le_of_lt hnq)
  have qu1 : (k : ℚ) / (n : ℚ) ≤ 1 := (div_le_one hnq).mpr hknq
  have e13 : (1 : ℚ) / 10 ^ 13 = 1 / 10000000000000 := by norm_num
  have e11 : (1 : ℚ) / 10 ^ 11 = 1 / 100000000000 := by norm_num
  have e10 : (1 : ℚ) / 10 ^ 10 = 1 / 10000000000 := by norm_num
  have nc := abs_le.mp (h.near ((mc : ℚ) / 20) (abs_le.mpr ⟨by linarith, by linarith⟩))
  have nx := abs_le.mp (h.near ((mx : ℚ) / 20) (abs_le.mpr ⟨by linarith, by linarith⟩))
  have nd := abs_le.mp (h.near ((md : ℚ) / 20) (abs_le.mpr ⟨by linarith, by linarith⟩))
  have nu := abs_le.mp (h.near ((k : ℚ) / (n : ℚ)) (abs_le.mpr ⟨by linarith, by linarith⟩))
  rw [e13] at nc nx nd nu
  have bx := complexityFactor_bounds h lower task
  have bd := deadlineFactor_bounds h parseDate now task
  have bu := userPatternFactor_bounds h userHistory
  have bc : 6499 / 10000 ≤ fl ((mc : ℚ) / 20) ∧ fl ((mc : ℚ) / 20) ≤ 8501 / 10000 := by
    constructor <;> linarith [nc.1, nc.2]
  have hpfl : prediction fl lower parseDate now task userHistory
      = some (weightedSum fl (fl ((mc : ℚ) / 20)) (complexityFactor fl lower task)
          (deadlineFactor fl parseDate now task) (userPatternFactor fl userHistory)) := by
    unfold prediction
    rw [hc fl]
  have hpid : prediction id lower parseDate now task userHistory
      = some ((mc : ℚ) / 20 * (3 / 10) + complexityFactor id lower task * (2 / 10)
            + deadlineFactor id parseDate now task * (3 / 10)
            + userPatternFactor id userHistory * (2 / 10)) := by
    unfold prediction
    rw [hc id]
    simp only [id, weightedSum_id]
  have hws := weightedSum_bounds h _ _ _ _ 0 bc.1 bc.2 bx.1 bx.2 bd.1 bd.2 le_rfl bu.1 bu.2.1
  have hnear := abs_le.mp (weightedSum_near h (fl ((mc : ℚ) / 20))
    (complexityFactor fl lower task) (deadlineFactor fl parseDate now task)
    (userPatternFactor fl userHistory) (by linarith [bc.1]) (by linarith [bc.2])
    (by linarith [bx.1]) (by linarith [bx.2]) (by linarith [bd.1]) (by linarith [bd.2])
    bu.1 (by linarith [bu.2.1]))
  rw [e11] at hnear
  refine ⟨3 * mc + 2 * mx + 3 * md, k, n, (mc : ℚ) / 20, _, hn, hnmax, ?_, hpid, ?_, hpfl, ?_,
    by linarith [hws.1], hws.2, fun he => ?_⟩
  · rw [hc id]; rfl
  · rw [hx id, hdid, hu id]
    simp only [id]
    push_cast
    ring
  · rw [hx fl, hdfl, hu fl] at hnear ⊢
    generalize weightedSum fl (fl ((mc : ℚ) / 20)) (fl ((mx : ℚ) / 20)) (fl ((md : ℚ) / 20))
      (fl ((k : ℚ) / (n : ℚ))) = w at hnear ⊢
    generalize fl ((mc : ℚ) / 20) = fc at nc hnear
    generalize fl ((mx : ℚ) / 20) = fx at nx hnear
    generalize fl ((md : ℚ) / 20) = fd at nd hnear
    generalize fl ((k : ℚ) / (n : ℚ)) = fu at nu hnear
    generalize (k : ℚ) / (n : ℚ) = u at nu ⊢
    push_cast
    rw [abs_le, e10]
    constructor <;> linarith [nc.1, nc.2, nx.1, nx.2, nd.1, nd.2, nu.1, nu.2, hnear.1, hnear.2]
  · have hb2 := weightedSum_bounds h _ _ _ _ (6999 / 10000) bc.1 bc.2 bx.1 bx.2 bd.1 bd.2
      (by norm_num) (bu.2.2 he) bu.2.1
    have e : (4643 : ℚ) / 10000 + 6999 / 10000 * (1999 / 10000) = 6042100100 / 10000000000 := by
      norm_num
    rw [e] at hb2
    linarith [hb2.1]

theorem predictTaskCompletion_of {fl : ℚ → ℚ} {lower : String → String}
    {parseDate : Value → Option Int} {now : Int} {task : Task} {userHistory : List Task}
    {p : ℚ} (hp : prediction fl lower parseDate now task userHistory = some p) :
    (predictTaskCompletion fl lower parseDate now task userHistory).probability
      = some (mathRound (fl (p * 100))) ∧
    (predictTaskCompletion fl lower parseDate now task userHistory).recommendation
      = (if p > fl 0.7 then "high" else if p > fl 0.5 then "medium" else "low") := by
  unfold predictTaskCompletion
  rw [hp]
  exact ⟨rfl, rfl⟩

theorem recommendation_by_average (p A t7 t5 : ℚ) (r : String)
    (hr : r = if p > t7 then "high" else if p > t5 then "medium" else "low")
    (hp : |p - A| ≤ 1 / 10 ^ 10) (h7 : |t7 - 7 / 10| ≤ 1 / 10 ^ 13)
    (h5 : |t5 - 1 / 2| ≤ 1 / 10 ^ 13) :
    (1 / 2000000000 ≤ |A - 7 / 10| → 1 / 2000000000 ≤ |A - 1 / 2| →
      (r = "high" ↔ 7 / 10 < A) ∧ (r = "medium" ↔ 1 / 2 < A ∧ A < 7 / 10)
        ∧ (r = "low" ↔ A < 1 / 2)) ∧
    (A = 7 / 10 → r = "high" ∨ r = "medium") ∧
    (A = 1 / 2 → r = "medium" ∨ r = "low") := by
  have e13 : (1 : ℚ) / 10 ^ 13 = 1 / 10000000000000 := by norm_num
  have e10 : (1 : ℚ) / 10 ^ 10 = 1 / 10000000000 := by norm_num
  rw [e10] at hp
  rw [e13] at h7 h5
  have hp2 := abs_le.mp hp
  have h72 := abs_le.mp h7
  have h52 := abs_le.mp h5
  have hhm : ("high" : String) ≠ "medium" := by decide
  have hhl : ("high" : String) ≠ "low" := by decide
  have hml : ("medium" : String) ≠ "low" := by decide
  refine ⟨fun g7 g5 => ?_, fun e => ?_, fun e => ?_⟩
  · rcases le_or_lt A (7 / 10) with a7 | a7
    · rw [abs_of_nonpos (by linarith)] at g7
      have n7 : ¬ p > t7 := by
        intro hgt
        linarith [hp2.2, h72.1]
      rcases le_or_lt A (1 / 2) with a5 | a5
      · rw [abs_of_nonpos (by linarith)] at g5
        have n5 : ¬ p > t5 := by
          intro hgt
          linarith [hp2.2, h52.1]
        rw [if_neg n7, if_neg n5] at hr
        subst hr
        exact ⟨iff_of_false hhl.symm (by linarith),
          iff_of_false hml.symm (fun c => by linarith [c.1]), iff_of_true rfl (by linarith)⟩
      · rw [abs_of_pos (by linarith)] at g5
        have y5 : p > t5 := by linarith [hp2.1, h52.2]
        rw [if_neg n7, if_pos y5] at hr
        subst hr
        exact ⟨iff_of_false hhm.symm (by linarith),
          iff_of_true rfl ⟨a5, by linarith⟩, iff_of_false hml (by linarith)⟩
    · rw [abs_of_pos (by linarith)] at g7
      have y7 : p > t7 := by linarith [hp2.1, h72.2]
      rw [if_pos y7] at hr
      subst hr
      exact ⟨iff_of_true rfl a7, iff_of_false hhm (fun c => by linarith [c.2]),
        iff_of_false hhl (by linarith)⟩
  · have y5 : p > t5 := by linarith [hp2.1, h52.2]
    by_cases y7 : p > t7
    · left; rw [hr, if_pos y7]
    · right; rw [hr, if_neg y7, if_pos y5]
  · have n7 : ¬ p > t7 := by
      intro hgt
      linarith [hp2.2, h72.1]
    by_cases y5 : p > t5
    · left; rw [hr, if_neg n7, if_pos y5]
    · right; rw [hr, if_neg n7, if_neg y5]

theorem prediction_developTask :
    prediction binary64 lowerAscii timeValue 0 developTask sevenOfEight
      = some (6305039478318695 / 9007199254740992) := by
  have hc : categoryFactor binary64 developTask = some (binary64 0.85) := by
    unfold categoryFactor
    rw [if_pos (by decide)]
  have hx : complexityFactor binary64 lowerAscii developTask = binary64 0.6 := by
    unfold complexityFactor
    rw [if_pos (by decide)]
  have hd : deadlineFactor binary64 timeValue 0 developTask = binary64 0.5 := by
    unfold deadlineFactor
    rw [if_neg (by decide)]
  have hu : userPatternFactor binary64 sevenOfEight = binary64 (7 / 8) := by
    have hl : sevenOfEight.length = 8 := by decide
    have hk : completedTasks sevenOfEight = 7 := by decide
    unfold userPatternFactor
    rw [hl, hk, if_pos (by decide)]
    norm_num
  unfold prediction
  rw [hc]
  simp only
  rw [hx, hd, hu]
  unfold weightedSum
  rw [binary64_lit_085, binary64_lit_03, binary64_lit_06, binary64_lit_02, binary64_lit_05,
    binary64_7_8, binary64_term1, binary64_sum1, binary64_term2, binary64_sum2,
    binary64_term3, binary64_sum3, binary64_term4, binary64_sum4]

theorem average_developTask :
    prediction id lowerAscii timeValue 0 developTask sevenOfEight = some (7 / 10) := by
  have hc : categoryFactor id developTask = some (id 0.85) := by
    unfold categoryFactor
    rw [if_pos (by decide)]
  have hx : complexityFactor id lowerAscii developTask = id 0.6 := by
    unfold complexityFactor
    rw [if_pos (by decide)]
  have hd : deadlineFactor id timeValue 0 developTask = id 0.5 := by
    unfold deadlineFactor
    rw [if_neg (by decide)]
  have hu : userPatternFactor id sevenOfEight = id (7 / 8) := by
    have hl : sevenOfEight.length = 8 := by decide
    have hk : completedTasks sevenOfEight = 7 := by decide
    unfold userPatternFactor
    rw [hl, hk, if_pos (by decide)]
    norm_num
  unfold prediction
  rw [hc]
  simp only
  rw [hx, hd, hu, weightedSum_id]
  simp only [id]
  norm_num

/-- C28, as stated, fails twice.  A task whose category is `constructor` has the
function `Object` as its category factor: the sum is NaN, the probability is
NaN, not a number between 46 and 89, and the recommendation is `low` although
the history is empty.  For the urgent task with a complex word, no deadline and
a history of 7 completed tasks out of 8 the weighted average is
0.3*0.85 + 0.2*0.6 + 0.3*0.5 + 0.2*0.875 = 0.7 exactly, which does not exceed
0.7, but the sum of the doubles is 0.7000000000000001: the probability is 70
and the recommendation is `high`. -/
theorem C28_NaN_for_inherited_category_and_high_at_average_seven_tenths :
    userPatternFactor binary64 [] = binary64 0.7 ∧
    (predictTaskCompletion binary64 lowerAscii timeValue 0 constructorTask []).probability
      = none ∧
    (predictTaskCompletion binary64 lowerAscii timeValue 0 constructorTask []).recommendation
      = "low" ∧
    prediction id lowerAscii timeValue 0 developTask sevenOfEight = some (7 / 10) ∧
    (predictTaskCompletion binary64 lowerAscii timeValue 0 developTask
      sevenOfEight).probability = some 70 ∧
    (predictTaskCompletion binary64 lowerAscii timeValue 0 developTask
      sevenOfEight).recommendation = "high" := by
  have hn : prediction binary64 lowerAscii timeValue 0 constructorTask [] = none := by
    have hc : categoryFactor binary64 constructorTask = none := by
      unfold categoryFactor
      rw [if_neg (by decide), if_neg (by decide), if_neg (by decide), if_pos (by decide)]
    unfold prediction
    rw [hc]
  refine ⟨rfl, ?_, ?_, average_developTask, ?_, ?_⟩
  · unfold predictTaskCompletion
    rw [hn]
  · unfold predictTaskCompletion
    rw [hn]
  · rw [(predictTaskCompletion_of prediction_developTask).1, binary64_sum4_times_100]
    congr 1
    unfold mathRound
    rw [Int.floor_eq_iff]
    norm_num
  · rw [(predictTaskCompletion_of prediction_developTask).2, binary64_lit_07, if_pos]
    norm_num

/-- C28, amended: for every task whose category names no property that objects
inherit, and every history, the value the method computes is within 10^-10 of
the weighted average of the four factors with the weights 0.3 (category), 0.2
(complexity), 0.3 (deadline) and 0.2 (user pattern), which add up to 1; the
reported probability is an integer between 46 and 89, within 1/2 + 10^-7 of
100 times the average.  For a history of at most 10^7 tasks and an average
other than 0.7 and 0.5 the recommendation is `high` exactly when the average
exceeds 0.7, `medium` exactly when it lies between 0.5 and 0.7, `low` exactly
when it is below 0.5; at the average 0.7 it is `high` or `medium`, at 0.5
`medium` or `low`; it is not `low` when the history is empty. -/
theorem C28_prediction_probability_and_recommendation (fl : ℚ → ℚ) (h : Rounding fl)
    (lower : String → String) (parseDate : Value → Option Int) (now : Int) (task : Task)
    (userHistory : List Task)
    (hcat : Value.toText (Obj.get task "category") ∉ inheritedKeys) :
    weightedSum id 1 1 1 1 = 1 ∧
    ∃ c average p : ℚ, ∃ n : ℤ,
      categoryFactor id task = some c ∧
      average = c * (3 / 10) + complexityFactor id lower task * (2 / 10)
        + deadlineFactor id parseDate now task * (3 / 10)
        + userPatternFactor id userHistory * (2 / 10) ∧
      prediction id lower parseDate now task userHistory = some average ∧
      prediction fl lower parseDate now task userHistory = some p ∧
      |p - average| ≤ 1 / 10 ^ 10 ∧
      (predictTaskCompletion fl lower parseDate now task userHistory).probability = some n ∧
      46 ≤ n ∧ n ≤ 89 ∧ |(n : ℚ) - average * 100| ≤ 1 / 2 + 1 / 10 ^ 7 ∧
      (userHistory.length ≤ 10 ^ 7 → average ≠ 7 / 10 → average ≠ 1 / 2 →
        ((predictTaskCompletion fl lower parseDate now task userHistory).recommendation
            = "high" ↔ 7 / 10 < average) ∧
        ((predictTaskCompletion fl lower parseDate now task userHistory).recommendation
            = "medium" ↔ 1 / 2 < average ∧ average < 7 / 10) ∧
        ((predictTaskCompletion fl lower parseDate now task userHistory).recommendation
            = "low" ↔ average < 1 / 2)) ∧
      (average = 7 / 10 →
        (predictTaskCompletion fl lower parseDate now task userHistory).recommendation
            = "high" ∨
        (predictTaskCompletion fl lower parseDate now task userHistory).recommendation
            = "medium") ∧
      (average = 1 / 2 →
        (predictTaskCompletion fl lower parseDate now task userHistory).recommendation
            = "medium" ∨
        (predictTaskCompletion fl lower parseDate now task userHistory).recommendation
            = "low") ∧
      (userHistory = [] →
        (predictTaskCompletion fl lower parseDate now task userHistory).recommendation
          ≠ "low") := by
  obtain ⟨M, k, n, c, p, hn, hnmax, hc, hpid, hgrid, hpfl, hnear, hp1, hp2, hp3⟩ :=
    prediction_facts h lower parseDate now task userHistory hcat
  obtain ⟨hprob, hrec⟩ := predictTaskCompletion_of hpfl
  have e13 : (1 : ℚ) / 10 ^ 13 = 1 / 10000000000000 := by norm_num
  have e10 : (1 : ℚ) / 10 ^ 10 = 1 / 10000000000 := by norm_num
  have e7 : (1 : ℚ) / 10 ^ 7 = 1 / 10000000 := by norm_num
  have h7 : |fl 0.7 - 7 / 10| ≤ 1 / 10 ^ 13 := by
    have := h.near 0.7 (by rw [abs_of_pos] <;> norm_num)
    norm_num at this ⊢
    exact this
  have h5 : |fl 0.5 - 1 / 2| ≤ 1 / 10 ^ 13 := by
    have := h.near 0.5 (by rw [abs_of_pos] <;> norm_num)
    norm_num at this ⊢
    exact this
  rw [← hgrid] at hnear
  have hra := recommendation_by_average p _ (fl 0.7) (fl 0.5) _ hrec hnear h7 h5
  have hb := h.between (show (4643 / 100 : ℚ) ≤ p * 100 by linarith)
    (show p * 100 ≤ (8862 / 100 : ℚ) by linarith) (by norm_num) (by norm_num)
  have hfn := abs_le.mp (h.near (p * 100) (abs_le.mpr ⟨by linarith, by linarith⟩))
  have hmr := abs_le.mp (mathRound_near (fl (p * 100)))
  have hnear2 := abs_le.mp hnear
  rw [e13] at hb hfn
  rw [e10] at hnear2
  refine ⟨by rw [weightedSum_id]; norm_num, c, _, p, mathRound (fl (p * 100)), hc, rfl, hpid,
    hpfl, hnear, hprob, ?_, ?_, ?_, fun hlen h7ne h5ne => ?_, hra.2.1, hra.2.2, fun he => ?_⟩
  · apply le_mathRound
    push_cast
    linarith [hb.1]
  · apply mathRound_le
    push_cast
    linarith [hb.2]
  · rw [abs_le, e7]
    constructor <;> linarith [hfn.1, hfn.2, hmr.1, hmr.2, hnear2.1, hnear2.2]
  · have hn7 : n ≤ 10 ^ 7 := le_trans hnmax (max_le hlen (by norm_num))
    have c7 : ((7 : ℤ) : ℚ) / 10 = 7 / 10 := by norm_num
    have c5 : ((5 : ℤ) : ℚ) / 10 = 1 / 2 := by norm_num
    have g7 := grid_gap M 7 k n hn hn7 _ hgrid (by rw [c7]; exact h7ne)
    have g5 := grid_gap M 5 k n hn hn7 _ hgrid (by rw [c5]; exact h5ne)
    rw [c7] at g7
    rw [c5] at g5
    exact hra.1 g7 g5
  · rw [hrec]
    have h52 := abs_le.mp h5
    rw [e13] at h52
    have hpe := hp3 he
    have y5 : p > fl 0.5 := by linarith [h52.2]
    by_cases y7 : p > fl 0.7
    · rw [if_pos y7]; decide
    · rw [if_neg y7, if_pos y5]; decide

/-- C28, amended, with the doubles at the urgent sample task and an empty history: the
average is 0.705, the probability is between 46 and 89 and the recommendation is
`high`. -/
theorem C28_prediction_probability_and_recommendation_witness :
    Value.toText (Obj.get createdTask "category") ∉ inheritedKeys ∧
    prediction id lowerAscii timeValue 1000 createdTask [] = some (141 / 200) ∧
    (∃ n : ℤ,
      (predictTaskCompletion binary64 lowerAscii timeValue 1000 createdTask []).probability
        = some n ∧ 46 ≤ n ∧ n ≤ 89) ∧
    (predictTaskCompletion binary64 lowerAscii timeValue 1000 createdTask []).recommendation
      = "high" := by
  obtain ⟨_, c, average, p, n, hc, havg, hpid, hpfl, hnear, hprob, hn1, hn2, hn3, hsharp, _, _,
      _⟩ :=
    C28_prediction_probability_and_recommendation binary64 rounding_binary64 lowerAscii
      timeValue 1000 createdTask [] (by decide)
  have hcv : categoryFactor id createdTask = some (id 0.85) := by
    unfold categoryFactor
    rw [if_pos (by decide)]
  have hx : complexityFactor id lowerAscii createdTask = id 0.8 := by
    unfold complexityFactor
    rw [if_neg (by decide)]
  have hd : deadlineFactor id timeValue 1000 createdTask = id 0.5 := by
    unfold deadlineFactor
    rw [if_neg (by decide)]
  have hu : userPatternFactor id [] = id 0.7 := rfl
  rw [hcv] at hc
  have hcc : c = 17 / 20 := by
    have := Option.some.inj hc
    rw [← this]
    simp only [id]
    norm_num
  have ha : average = 141 / 200 := by
    rw [havg, hcc, hx, hd, hu]
    simp only [id]
    norm_num
  rw [ha] at hpid hsharp
  refine ⟨by decide, hpid, ⟨n, hprob, hn1, hn2⟩, ?_⟩
  exact (hsharp (by simp) (by norm_num) (by norm_num)).1.mpr (by norm_num)

end SmartTaskManager
